import Mathlib

/-!
# Stock reservation and checkout of the e-commerce services

A shallow embedding of

* `src/services/products-service/app-postgres.js`: the tables `products` and
  `stock_movements` and the handler of `POST /products/:id/reserve`;
* `src/services/orders-service/app-firestore.js` and
  `src/services/orders-service/app.js`: the handlers of `POST /orders`.

Stateful code is written as explicit state passing: a handler takes the stores it
works on and returns the new stores together with its HTTP response. What a
handler cannot control (a database call that throws, a request that fails, the
requests of other clients served in between) is a parameter of its model.
JSON numbers that the handlers treat as counts (quantities, stock) are integers,
prices and amounts are rationals, and timestamps are left out.
-/

namespace Ecommerce

/-! ## products-service (PostgreSQL) -/

namespace ProductsService

/-- A row of table `products`, with the columns that the modelled statements read
or write (`id`, `name`, `price`, `stock_quantity`, `low_stock_threshold`,
`is_active`, `view_count`). -/
structure ProductRow where
  id : Int
  name : String
  price : Rat
  stock_quantity : Int
  low_stock_threshold : Int
  is_active : Bool
  view_count : Int
deriving DecidableEq, Repr

/-- A row of table `stock_movements` as written by the `INSERT` of the reserve
handler: `(product_id, quantity, movement_type, reference_id, note)`.
`reference_id` is `none` when the request body carries no `orderId`. -/
structure StockMovement where
  product_id : Int
  quantity : Int
  movement_type : String
  reference_id : Option String
  note : String
deriving DecidableEq, Repr

/-- The committed content of the two tables. -/
structure Database where
  products : List ProductRow
  stock_movements : List StockMovement
deriving DecidableEq, Repr

/-- Modelled from the spec: the schema of table `products` is not part of the
source; the data model gives `productId` as the unique key of a product stock
record, so no two rows carry the same `id`. -/
def PrimaryKey (rows : List ProductRow) : Prop :=
  (rows.map (fun r => r.id)).Nodup

instance (rows : List ProductRow) : Decidable (PrimaryKey rows) := by
  unfold PrimaryKey; infer_instance

/-- The statement `SELECT stock_quantity FROM products WHERE id = $1 FOR UPDATE`:
the `stock_quantity` of every matching row, in table order. -/
def selectStockForUpdate (rows : List ProductRow) (id : Int) : List Int :=
  (rows.filter (fun r => decide (r.id = id))).map (fun r => r.stock_quantity)

/-- The statement
`UPDATE products SET stock_quantity = stock_quantity - $1 WHERE id = $2`. -/
def updateStock (rows : List ProductRow) (quantity : Int) (id : Int) : List ProductRow :=
  rows.map (fun r =>
    if r.id = id then { r with stock_quantity := r.stock_quantity - quantity } else r)

/-- The template literal of the movement note; a missing `orderId` prints as
`undefined`. -/
def reservedNote (orderId : Option String) : String :=
  "Reserved for order " ++ orderId.getD "undefined"

/-- The statement `INSERT INTO stock_movements (product_id, quantity,
movement_type, reference_id, note) VALUES ($1, $2, $3, $4, $5)` with the
parameters `[id, -quantity, 'sale', orderId, note]`. -/
def insertMovement (log : List StockMovement) (id : Int) (quantity : Int)
    (orderId : Option String) : List StockMovement :=
  log ++ [{ product_id := id, quantity := -quantity, movement_type := "sale",
            reference_id := orderId, note := reservedNote orderId }]

/-- The calls the reserve handler makes on the connection pool and the client.
Each of them may throw (connection lost, statement rejected). -/
inductive DbCall where
  | connect
  | begin
  | selectStock
  | rollback
  | updateStock
  | insertMovement
  | commit
deriving DecidableEq, Repr

/-- The environment in which no database call throws. -/
def noFault : DbCall → Bool := fun _ => false

/-- The path parameter and the JSON body of `POST /products/:id/reserve`.
`quantity` is `none` when the body has no such field. -/
structure ReserveRequest where
  id : Int
  quantity : Option Int
  orderId : Option String
deriving DecidableEq, Repr

/-- The answers of the reserve handler. -/
inductive ReserveResponse where
  /-- Status 400, body `{ error: 'Invalid quantity' }`. -/
  | invalidQuantity
  /-- Status 404, body `{ error: 'Product not found' }`. -/
  | notFound
  /-- Status 400, body `{ error: 'Insufficient stock', available }`. -/
  | insufficientStock (available : Int)
  /-- Status 200, body `{ success: true, productId, reservedQuantity, orderId }`. -/
  | success (productId : Int) (reservedQuantity : Int) (orderId : Option String)
  /-- Status 500, body `{ error: 'Internal server error' }`. -/
  | internalError
deriving DecidableEq, Repr

/-- HTTP status of an answer. -/
def ReserveResponse.status : ReserveResponse → Nat
  | .invalidQuantity => 400
  | .notFound => 404
  | .insufficientStock _ => 400
  | .success _ _ _ => 200
  | .internalError => 500

/-- The `error` field of an answer, absent on success. -/
def ReserveResponse.error : ReserveResponse → Option String
  | .invalidQuantity => some "Invalid quantity"
  | .notFound => some "Product not found"
  | .insufficientStock _ => some "Insufficient stock"
  | .success _ _ _ => none
  | .internalError => some "Internal server error"

/-- Whether the answer is the success body (`success: true`). -/
def ReserveResponse.isSuccess : ReserveResponse → Bool
  | .success _ _ _ => true
  | _ => false

/-- The quantity an answer grants: `reservedQuantity` on success, nothing otherwise. -/
def ReserveResponse.granted : ReserveResponse → Int
  | .success _ q _ => q
  | _ => 0

/-- The transaction of the reserve handler, from `BEGIN` to `COMMIT`, on the
committed database `db`. `fails c` says that call `c` throws; a call that throws
has no effect of its own. The result is `none` when a call threw (the `catch`
block rolls back and rethrows, so nothing of the transaction is committed),
otherwise the database the transaction leaves committed and the answer sent. A
`ROLLBACK` leaves `db`, the `COMMIT` installs the updated tables. -/
def reserveTransaction (fails : DbCall → Bool) (db : Database) (id : Int) (quantity : Int)
    (orderId : Option String) : Option (Database × ReserveResponse) :=
  if fails .begin then none
  else if fails .selectStock then none
  else
    match selectStockForUpdate db.products id with
    | [] =>
      if fails .rollback then none else some (db, .notFound)
    | currentStock :: _ =>
      if currentStock < quantity then
        if fails .rollback then none else some (db, .insufficientStock currentStock)
      else if fails .updateStock then none
      else
        let products := updateStock db.products quantity id
        if fails .insertMovement then none
        else
          let stock_movements := insertMovement db.stock_movements id quantity orderId
          if fails .commit then none
          else some ({ products := products, stock_movements := stock_movements },
                     .success id quantity orderId)

/-- The handler of `POST /products/:id/reserve`. -/
def reserve (fails : DbCall → Bool) (db : Database) (req : ReserveRequest) :
    Database × ReserveResponse :=
  match req.quantity with
  | none => (db, .invalidQuantity)
  | some quantity =>
    if quantity = 0 ∨ quantity ≤ 0 then (db, .invalidQuantity)
    else if fails .connect then (db, .internalError)
    else
      match reserveTransaction fails db req.id quantity req.orderId with
      | some result => result
      | none => (db, .internalError)

/-- A reserve request together with the behaviour of the database while it is
served. -/
structure ReserveCall where
  fails : DbCall → Bool
  req : ReserveRequest

/-- Reserve requests served one after the other, each in its own transaction:
the final database and the answers in request order. -/
def reserveAll (db : Database) : List ReserveCall → Database × List ReserveResponse
  | [] => (db, [])
  | c :: cs =>
    let r := reserve c.fails db c.req
    let rest := reserveAll r.1 cs
    (rest.1, r.2 :: rest.2)

/-- The handler of `GET /products/:id/stock` reads
`SELECT stock_quantity, low_stock_threshold FROM products WHERE id = $1` and
answers with the first row: the stock of product `id`, `none` for status 404. -/
def stockOf (rows : List ProductRow) (id : Int) : Option Int :=
  (rows.find? (fun r => decide (r.id = id))).map (fun r => r.stock_quantity)

/-- The statement `UPDATE products SET view_count = view_count + 1 WHERE id = $1`. -/
def incrementViewCount (rows : List ProductRow) (id : Int) : List ProductRow :=
  rows.map (fun r => if r.id = id then { r with view_count := r.view_count + 1 } else r)

/-- The handler of `GET /products/:id`: the first active row with this id, after
which its view count is incremented. `fails` says that one of the two queries
throws (status 500). The result is `none` for the statuses 404 and 500. -/
def getProduct (fails : Bool) (db : Database) (id : Int) : Database × Option ProductRow :=
  if fails then (db, none)
  else
    match db.products.filter (fun r => decide (r.id = id) && r.is_active) with
    | [] => (db, none)
    | row :: _ => ({ db with products := incrementViewCount db.products id }, some row)

/-- The body of the answer of `GET /products/:id/stock`. -/
structure StockInfo where
  productId : Int
  stockQuantity : Int
  inStock : Bool
  lowStock : Bool
deriving DecidableEq, Repr

/-- The handler of `GET /products/:id/stock`; `fails` says that the query throws
(status 500). The result is `none` for the statuses 404 and 500. -/
def getStock (fails : Bool) (db : Database) (id : Int) : Option StockInfo :=
  if fails then none
  else
    match db.products.filter (fun r => decide (r.id = id)) with
    | [] => none
    | product :: _ =>
      some { productId := id, stockQuantity := product.stock_quantity,
             inStock := decide (product.stock_quantity > 0),
             lowStock := decide (product.stock_quantity ≤ product.low_stock_threshold) }

/-- Sum of the quantity deltas of the movement records of product `id`. -/
def movementSum (log : List StockMovement) (id : Int) : Int :=
  ((log.filter (fun m => decide (m.product_id = id))).map (fun m => m.quantity)).sum

/-- The quantity of product `p` that a request for product `id` was granted. -/
def grantedOf (p : Int) (id : Int) (resp : ReserveResponse) : Int :=
  if id = p then resp.granted else 0

/-- The quantity of product `p` granted in total by the answers `resps` to the
requests `calls`. -/
def grantedSum (p : Int) (calls : List ReserveCall) (resps : List ReserveResponse) : Int :=
  ((calls.zip resps).map (fun x => grantedOf p x.1.req.id x.2)).sum

/-- A product row with the given id and stock, for the concrete scenarios. -/
def sampleRow (id : Int) (stock : Int) : ProductRow :=
  { id := id, name := "P", price := 10, stock_quantity := stock,
    low_stock_threshold := 1, is_active := true, view_count := 0 }

/-- A database with product 1 (stock 5) and product 2 (stock 1) and an empty
movement log. -/
def sampleDb : Database :=
  { products := [sampleRow 1 5, sampleRow 2 1], stock_movements := [] }

/-- A request for `q` units of product `id` for order `o`, served without
database failure. -/
def sampleCall (id : Int) (q : Int) (o : String) : ReserveCall :=
  { fails := noFault, req := { id := id, quantity := some q, orderId := some o } }

end ProductsService

/-- The `shippingAddress` object of a `POST /orders` body, with the two fields
the handlers look at; a field is `none` when the object does not have it. -/
structure ShippingAddress where
  street : Option String
  city : Option String
deriving DecidableEq, Repr

/-- JavaScript truthiness of an optional string field: present and not empty. -/
def truthy : Option String → Bool
  | some s => !(s == "")
  | none => false

/-- The expression `parseFloat(x.toFixed(2))`, numbers taken as rationals: the
nearest multiple of 1/100, a tie going away from zero. -/
def toFixed2 (x : Rat) : Rat :=
  if x < 0 then -(((-x) * 100 + 1 / 2).floor : Rat) / 100
  else ((x * 100 + 1 / 2).floor : Rat) / 100

/-! ## orders-service (Firestore) -/

namespace OrdersFirestore

open ProductsService

/-- The claims `req.user` that `authenticateUser` stores from `verifyToken`. -/
structure User where
  userId : Nat
  email : String
  role : String
deriving DecidableEq, Repr

/-- The JSON body of `POST /orders`. -/
structure OrderRequest where
  shippingAddress : Option ShippingAddress
  paymentMethod : Option String
deriving DecidableEq, Repr

/-- A line of a cart document. -/
structure CartItem where
  productId : Int
  quantity : Int
  price : Rat
deriving DecidableEq, Repr

/-- A document of collection `carts`. -/
structure Cart where
  userId : Nat
  items : List CartItem
deriving DecidableEq, Repr

/-- A line of an order, as pushed to `orderItems`. -/
structure OrderItem where
  productId : Int
  productName : String
  quantity : Int
  price : Rat
  subtotal : Rat
deriving DecidableEq, Repr

/-- The object `orderData` written to collection `orders`. -/
structure Order where
  userId : Nat
  items : List OrderItem
  totalAmount : Rat
  shippingAddress : ShippingAddress
  paymentMethod : String
  status : String
deriving DecidableEq, Repr

/-- The stores a checkout works on: the database of products-service and the
Firestore collections `carts` (document id: the user id) and `orders`
(document id assigned by Firestore). -/
structure World where
  db : Database
  carts : List (Nat × Cart)
  orders : List (String × Order)
deriving DecidableEq, Repr

/-- The call `cartsCollection.doc(userId).get()`: `none` when the document does not
exist. -/
def getCart (carts : List (Nat × Cart)) (userId : Nat) : Option Cart :=
  (carts.find? (fun d => decide (d.1 = userId))).map (fun d => d.2)

/-- The call `cartsCollection.doc(userId).delete()`. -/
def deleteCart (carts : List (Nat × Cart)) (userId : Nat) : List (Nat × Cart) :=
  carts.filter (fun d => !decide (d.1 = userId))

/-- The HTTP calls a checkout makes on products-service. -/
inductive Call where
  | fetchProduct (productId : Int)
  | checkStock (productId : Int) (quantity : Int)
  | reserveStock (productId : Int) (quantity : Int) (orderId : String)
deriving DecidableEq, Repr

/-- Whether a call is a reserve call. -/
def Call.isReserve : Call → Bool
  | .reserveStock _ _ _ => true
  | _ => false

/-- What a checkout meets outside its own code: which of its calls fail, the
document id Firestore assigns to the new order, and the reserve requests of
other clients that products-service serves just before the reserve call for
line `i` of this checkout. -/
structure Env where
  cartGetFails : Bool
  fetchFails : Nat → Bool
  stockFails : Nat → Bool
  addFails : Bool
  newId : String
  others : Nat → List ReserveCall
  reserveFails : Nat → DbCall → Bool
  deleteFails : Bool

/-- The environment without failures and without other clients. -/
def quiet (newId : String) : Env :=
  { cartGetFails := false, fetchFails := fun _ => false, stockFails := fun _ => false,
    addFails := false, newId := newId, others := fun _ => [],
    reserveFails := fun _ => noFault, deleteFails := false }

/-- Helper `fetchProduct`: the product that `GET /products/:id` returns, `null`
(here `none`) when the request fails. -/
def fetchProduct (fails : Bool) (db : Database) (productId : Int) :
    Database × Option ProductRow :=
  getProduct fails db productId

/-- Helper `checkStock`: `stock.stockQuantity >= quantity` on the answer of
`GET /products/:id/stock`, `false` when the request fails. -/
def checkStock (fails : Bool) (db : Database) (productId : Int) (quantity : Int) : Bool :=
  match getStock fails db productId with
  | some stock => decide (stock.stockQuantity ≥ quantity)
  | none => false

/-- Helper `reserveStock`: posts `{ quantity, orderId }` to the reserve endpoint
and returns `response.data.success`, `false` when the request fails (every
answer other than 200 makes the HTTP client throw). -/
def reserveStock (fails : DbCall → Bool) (db : Database) (productId : Int) (quantity : Int)
    (orderId : String) : Database × Bool :=
  let response := reserve fails db
    { id := productId, quantity := some quantity, orderId := some orderId }
  (response.1, response.2.isSuccess)

/-- The answers of `POST /orders`. -/
inductive CheckoutResponse where
  /-- Status 400, `{ error: 'Invalid shipping address' }`. -/
  | invalidShippingAddress
  /-- Status 400, `{ error: 'Cart is empty' }`. -/
  | cartEmpty
  /-- Status 400, error `Product <productId> not found`. -/
  | productNotFound (productId : Int)
  /-- Status 400, error `Insufficient stock for <productName>`. -/
  | insufficientStock (productName : String)
  /-- Status 201, `{ message: 'Order created successfully', order: { id, ...orderData } }`. -/
  | created (id : String) (order : Order)
  /-- Status 500, `{ error: 'Internal server error' }`. -/
  | internalError
deriving DecidableEq, Repr

/-- HTTP status of an answer. -/
def CheckoutResponse.status : CheckoutResponse → Nat
  | .invalidShippingAddress => 400
  | .cartEmpty => 400
  | .productNotFound _ => 400
  | .insufficientStock _ => 400
  | .created _ _ => 201
  | .internalError => 500

/-- The `error` text of an answer, or its `message` on success. -/
def CheckoutResponse.text : CheckoutResponse → String
  | .invalidShippingAddress => "Invalid shipping address"
  | .cartEmpty => "Cart is empty"
  | .productNotFound productId => "Product " ++ toString productId ++ " not found"
  | .insufficientStock productName => "Insufficient stock for " ++ productName
  | .created _ _ => "Order created successfully"
  | .internalError => "Internal server error"

/-- Whether the answer is the success answer 201. -/
def CheckoutResponse.isCreated : CheckoutResponse → Bool
  | .created _ _ => true
  | _ => false

/-- State of the first loop of the handler when it stops: the database of
products-service, the calls made so far, and either the answer that aborts the
checkout or the collected `orderItems` and `totalAmount`. -/
structure Validated where
  db : Database
  calls : List Call
  result : Except CheckoutResponse (List OrderItem × Rat)

/-- The loop `for (const cartItem of cartData.items)`: product lookup and stock
check per cart line, from line number `i` on, with the loop variables
`orderItems` and `totalAmount`. -/
def validateItems (env : Env) : Nat → Database → List Call → List OrderItem → Rat →
    List CartItem → Validated
  | _, db, calls, orderItems, totalAmount, [] =>
    { db := db, calls := calls, result := .ok (orderItems, totalAmount) }
  | i, db, calls, orderItems, totalAmount, cartItem :: rest =>
    match fetchProduct (env.fetchFails i) db cartItem.productId with
    | (db1, none) =>
      { db := db1, calls := calls ++ [.fetchProduct cartItem.productId],
        result := .error (.productNotFound cartItem.productId) }
    | (db1, some product) =>
      if checkStock (env.stockFails i) db1 cartItem.productId cartItem.quantity then
        validateItems env (i + 1) db1
          (calls ++ [.fetchProduct cartItem.productId,
                     .checkStock cartItem.productId cartItem.quantity])
          (orderItems ++ [{ productId := cartItem.productId, productName := product.name,
                            quantity := cartItem.quantity, price := product.price,
                            subtotal := product.price * cartItem.quantity }])
          (totalAmount + product.price * cartItem.quantity) rest
      else
        { db := db1,
          calls := calls ++ [.fetchProduct cartItem.productId,
                             .checkStock cartItem.productId cartItem.quantity],
          result := .error (.insufficientStock product.name) }

/-- State after the second loop: the database of products-service, the reserve
calls made, and what each `reserveStock` returned (the handler drops it). -/
structure Reserved where
  db : Database
  calls : List Call
  results : List Bool

/-- The loop `for (const item of orderItems) await reserveStock(...)`, from line
number `i` on. -/
def reserveItems (env : Env) (orderId : String) : Nat → Database → List OrderItem → Reserved
  | _, db, [] => { db := db, calls := [], results := [] }
  | i, db, item :: rest =>
    let db0 := (reserveAll db (env.others i)).1
    let r := reserveStock (env.reserveFails i) db0 item.productId item.quantity orderId
    let tail := reserveItems env orderId (i + 1) r.1 rest
    { db := tail.db,
      calls := .reserveStock item.productId item.quantity orderId :: tail.calls,
      results := r.2 :: tail.results }

/-- What a run of the handler leaves: the stores, the answer, the calls made on
products-service in order, and the results of the reserve calls. -/
structure Outcome where
  world : World
  response : CheckoutResponse
  calls : List Call
  reserved : List Bool

/-- The handler of `POST /orders`, after `authenticateUser` has set `req.user`. -/
def createOrder (env : Env) (w : World) (user : User) (body : OrderRequest) : Outcome :=
  match body.shippingAddress with
  | none => { world := w, response := .invalidShippingAddress, calls := [], reserved := [] }
  | some shippingAddress =>
    if !truthy shippingAddress.street || !truthy shippingAddress.city then
      { world := w, response := .invalidShippingAddress, calls := [], reserved := [] }
    else if env.cartGetFails then
      { world := w, response := .internalError, calls := [], reserved := [] }
    else
      match getCart w.carts user.userId with
      | none => { world := w, response := .cartEmpty, calls := [], reserved := [] }
      | some cartData =>
        if cartData.items.length = 0 then
          { world := w, response := .cartEmpty, calls := [], reserved := [] }
        else
          let v := validateItems env 0 w.db [] [] 0 cartData.items
          match v.result with
          | .error response =>
            { world := { w with db := v.db }, response := response, calls := v.calls,
              reserved := [] }
          | .ok (orderItems, totalAmount) =>
            let orderData : Order :=
              { userId := user.userId, items := orderItems,
                totalAmount := toFixed2 totalAmount, shippingAddress := shippingAddress,
                paymentMethod := body.paymentMethod.getD "cod", status := "pending" }
            if env.addFails then
              { world := { w with db := v.db }, response := .internalError,
                calls := v.calls, reserved := [] }
            else
              let orderId := env.newId
              let orders := w.orders ++ [(orderId, orderData)]
              let r := reserveItems env orderId 0 v.db orderItems
              if env.deleteFails then
                { world := { db := r.db, carts := w.carts, orders := orders },
                  response := .internalError, calls := v.calls ++ r.calls,
                  reserved := r.results }
              else
                { world := { db := r.db, carts := deleteCart w.carts user.userId,
                             orders := orders },
                  response := .created orderId orderData, calls := v.calls ++ r.calls,
                  reserved := r.results }

/-- The rows of `products` with the view counters blanked: what the checkout
reads from a row does not depend on `view_count`. -/
def eraseViews (rows : List ProductRow) : List ProductRow :=
  rows.map (fun r => { r with view_count := 0 })

/-- The units of product `p` asked for by the reserve calls that returned `true`,
for the order lines `items` and the results `results` of their reserve calls. -/
def reservedQuantity (p : Int) : List OrderItem → List Bool → Int
  | item :: items, ok :: results =>
    (if ok = true ∧ item.productId = p then item.quantity else 0) +
      reservedQuantity p items results
  | _, _ => 0

/-- The environment without other clients in which writing the order document
fails. -/
def addFailsEnv : Env :=
  { cartGetFails := false, fetchFails := fun _ => false, stockFails := fun _ => false,
    addFails := true, newId := "O1", others := fun _ => [],
    reserveFails := fun _ => noFault, deleteFails := false }

/-- The environment without other clients in which the database of
products-service is unreachable while the reserve request of the first order
line is served. -/
def reserveDownEnv : Env :=
  { cartGetFails := false, fetchFails := fun _ => false, stockFails := fun _ => false,
    addFails := false, newId := "O1", others := fun _ => [],
    reserveFails := fun i _ => decide (i = 0), deleteFails := false }

/-- The product lookup of the checkout finds no product `id`: no row with this
id is active. -/
def NoActiveProduct (rows : List ProductRow) (id : Int) : Prop :=
  ∀ r ∈ rows, r.id = id → r.is_active = false

/-- The stock pre-check of the checkout finds less than `quantity` units of
product `id` (no stock at all when there is no such row). -/
def StockBelow (rows : List ProductRow) (id : Int) (quantity : Int) : Prop :=
  ∀ a, stockOf rows id = some a → a < quantity

/-- A world for the concrete scenarios: product 1 (`Mouse`, stock 10) and product
2 (`Laptop`, stock 1), and the cart of user 7 with 2 units of product 1 and 1
unit of product 2. -/
def sampleWorld : World :=
  { db := { products := [{ sampleRow 1 10 with name := "Mouse" },
                         { sampleRow 2 1 with name := "Laptop" }],
            stock_movements := [] },
    carts := [(7, { userId := 7,
                    items := [{ productId := 1, quantity := 2, price := 10 },
                              { productId := 2, quantity := 1, price := 10 }] })],
    orders := [] }

/-- A world in which the cart of user 7 asks for 2 units of product 1 and 3 units
of product 2, of which a single unit is in stock. -/
def shortWorld : World :=
  { sampleWorld with
    carts := [(7, { userId := 7,
                    items := [{ productId := 1, quantity := 2, price := 10 },
                              { productId := 2, quantity := 3, price := 10 }] })] }

/-- The user of the concrete scenarios. -/
def sampleUser : User := { userId := 7, email := "u@example.com", role := "customer" }

/-- A body with a complete shipping address. -/
def sampleBody : OrderRequest :=
  { shippingAddress := some { street := some "1 Main St", city := some "Hanoi" },
    paymentMethod := none }

/-- An environment without failures in which another client reserves the last
unit of product 2 just before this checkout's reserve call for its second line. -/
def racingEnv : Env :=
  { cartGetFails := false, fetchFails := fun _ => false, stockFails := fun _ => false,
    addFails := false, newId := "O1",
    others := fun i => if i = 1 then [sampleCall 2 1 "X"] else [],
    reserveFails := fun _ => noFault, deleteFails := false }

end OrdersFirestore

/-! ## products-service (in memory) -/

namespace ProductsMemory

/-- An element of the array `products`. The dates are milliseconds since the
epoch; the three fields that only `GET /products` can read have a default. -/
structure Product where
  id : Int
  name : String
  description : String
  price : Rat
  categoryId : Int
  stockQuantity : Int
  isActive : Bool
  imageUrl : String := ""
  createdAt : Int := 0
  updatedAt : Int := 0
deriving DecidableEq, Repr

/-- The `data` object of the answer of `GET /products/:id/stock`. -/
structure StockData where
  productId : Int
  stockQuantity : Int
  isInStock : Bool
deriving DecidableEq, Repr

/-- The handler of `GET /products/:id/stock`: the first active product with this
id; `none` stands for status 404. The handler reads the array and writes
nothing. -/
def getStock (products : List Product) (productId : Int) : Option StockData :=
  (products.find? (fun p => decide (p.id = productId) && p.isActive)).map
    (fun product =>
      ({ productId := product.id, stockQuantity := product.stockQuantity,
         isInStock := decide (product.stockQuantity > (0 : Int)) } : StockData))

end ProductsMemory

/-! ## orders-service (in memory) -/

namespace OrdersMemory

open ProductsMemory

/-- The claims `req.user` that `authenticateToken` stores from `verifyToken`. -/
structure User where
  id : Nat
  email : String
  role : String
deriving DecidableEq, Repr

/-- A line of a cart. -/
structure CartItem where
  productId : Int
  productName : String
  price : Rat
  quantity : Int
deriving DecidableEq, Repr

/-- A value of the map `carts`. -/
structure Cart where
  userId : Nat
  items : List CartItem
  totalAmount : Rat
deriving DecidableEq, Repr

/-- An element of the array `orders`. -/
structure Order where
  id : Nat
  userId : Nat
  userEmail : String
  items : List CartItem
  totalAmount : Rat
  shippingAddress : ShippingAddress
  status : String
deriving DecidableEq, Repr

/-- The array `products` of products-service together with the module state of
orders-service: the array `orders`, the counter `orderIdCounter` and the map
`carts`. -/
structure World where
  products : List Product
  orders : List Order
  orderIdCounter : Nat
  carts : List (Nat × Cart)
deriving DecidableEq, Repr

/-- The call `carts.get(userId)`. -/
def getCart (carts : List (Nat × Cart)) (userId : Nat) : Option Cart :=
  (carts.find? (fun d => decide (d.1 = userId))).map (fun d => d.2)

/-- The call `carts.delete(userId)`. -/
def deleteCart (carts : List (Nat × Cart)) (userId : Nat) : List (Nat × Cart) :=
  carts.filter (fun d => !decide (d.1 = userId))

/-- Helper `checkStock`: `response.data.data` of `GET /products/:id/stock`,
`null` (here `none`) when the request fails. -/
def checkStock (fails : Bool) (products : List Product) (productId : Int) :
    Option StockData :=
  if fails then none else getStock products productId

/-- The answers of `POST /orders`. -/
inductive CheckoutResponse where
  /-- Status 400, message `Shipping address is required`. -/
  | addressRequired
  /-- Status 400, message `Cart is empty`. -/
  | cartEmpty
  /-- Status 400, message `Insufficient stock for product: <productName>` with
  `productId`, `available` and `requested`. -/
  | insufficientStock (productName : String) (productId : Int) (available : Int)
      (requested : Int)
  /-- Status 201, message `Order created successfully`, `data: order`. -/
  | created (order : Order)
deriving DecidableEq, Repr

/-- HTTP status of an answer. -/
def CheckoutResponse.status : CheckoutResponse → Nat
  | .addressRequired => 400
  | .cartEmpty => 400
  | .insufficientStock _ _ _ _ => 400
  | .created _ => 201

/-- The `message` of an answer. -/
def CheckoutResponse.text : CheckoutResponse → String
  | .addressRequired => "Shipping address is required"
  | .cartEmpty => "Cart is empty"
  | .insufficientStock productName _ _ _ => "Insufficient stock for product: " ++ productName
  | .created _ => "Order created successfully"

/-- Whether the answer is the success answer 201. -/
def CheckoutResponse.isCreated : CheckoutResponse → Bool
  | .created _ => true
  | _ => false

/-- The loop `for (const item of cart.items)` over the stock checks, from line
number `i` on: the answer that aborts the checkout, `none` when every line
passes. `stockFails i` says that the stock request of line `i` fails. -/
def checkItems (stockFails : Nat → Bool) (products : List Product) :
    Nat → List CartItem → Option CheckoutResponse
  | _, [] => none
  | i, item :: rest =>
    match checkStock (stockFails i) products item.productId with
    | none => some (.insufficientStock item.productName item.productId 0 item.quantity)
    | some stockInfo =>
      if stockInfo.stockQuantity < item.quantity then
        some (.insufficientStock item.productName item.productId stockInfo.stockQuantity
          item.quantity)
      else checkItems stockFails products (i + 1) rest

/-- The handler of `POST /orders`, after `authenticateToken` has set `req.user`.
The only requests it sends to products-service are the stock checks. -/
def createOrder (stockFails : Nat → Bool) (w : World) (user : User)
    (shippingAddress : Option ShippingAddress) : World × CheckoutResponse :=
  match shippingAddress with
  | none => (w, .addressRequired)
  | some shippingAddress =>
    match getCart w.carts user.id with
    | none => (w, .cartEmpty)
    | some cart =>
      if cart.items.length = 0 then (w, .cartEmpty)
      else
        match checkItems stockFails w.products 0 cart.items with
        | some response => (w, response)
        | none =>
          let order : Order :=
            { id := w.orderIdCounter, userId := user.id, userEmail := user.email,
              items := cart.items, totalAmount := cart.totalAmount,
              shippingAddress := shippingAddress, status := "pending" }
          ({ products := w.products, orders := w.orders ++ [order],
             orderIdCounter := w.orderIdCounter + 1,
             carts := deleteCart w.carts user.id },
           .created order)

/-- A world for the concrete scenario: product 1 with stock 25, and the cart of
user 7 with 2 units of it. -/
def sampleWorld : World :=
  { products := [{ id := 1, name := "Laptop", description := "Ultrabook", price := 100,
                   categoryId := 1, stockQuantity := 25, isActive := true }],
    orders := [], orderIdCounter := 1,
    carts := [(7, { userId := 7,
                    items := [{ productId := 1, productName := "Laptop", price := 100,
                                quantity := 2 }],
                    totalAmount := 200 })] }

/-- The user of the concrete scenario. -/
def sampleUser : User := { id := 7, email := "u@example.com", role := "customer" }

/-- A complete shipping address. -/
def sampleAddress : ShippingAddress := { street := some "1 Main St", city := some "Hanoi" }

end OrdersMemory

/-! ## Authentication middleware of the orders service -/

/-- The call `s.split(' ')` on the characters of a string: the parts between
single spaces, empty parts included. -/
def splitSpace : List Char → List (List Char)
  | [] => [[]]
  | c :: cs =>
    if c = ' ' then [] :: splitSpace cs
    else
      match splitSpace cs with
      | [] => [[c]]
      | part :: parts => (c :: part) :: parts

/-- The expression `authHeader && authHeader.split(' ')[1]` for the header
`authorization`: `none` stands for `undefined` (no header, or no second part),
the empty header gives the empty string. -/
def bearerToken (authHeader : Option String) : Option String :=
  match authHeader with
  | none => none
  | some h => if h = "" then some "" else ((splitSpace h.toList)[1]?).map String.mk

/-- What a route guarded by the authentication middleware answers: the
middleware's 401 or 403, or the answer of the route handler. -/
inductive Authenticated (R : Type) where
  /-- Status 401: access token required. -/
  | unauthorized
  /-- Status 403: invalid or expired token. -/
  | forbidden
  /-- The handler ran and answered `response`. -/
  | handled (response : R)
deriving DecidableEq, Repr

/-- Whether the route handler ran. -/
def Authenticated.ran {R : Type} : Authenticated R → Bool
  | .handled _ => true
  | _ => false

namespace OrdersFirestore

/-- Middleware `authenticateUser` in front of a route handler `next`, on the stores
`w`. `verifyToken` is the helper of that name: the claims the users service
returns for a token, `none` for `null`. -/
def authenticateUser {W R : Type} (verifyToken : String → Option User)
    (authHeader : Option String) (next : User → W → W × R) (w : W) :
    W × Authenticated R :=
  let token := bearerToken authHeader
  if !truthy token then (w, .unauthorized)
  else
    match verifyToken (token.getD "") with
    | none => (w, .forbidden)
    | some user =>
      let r := next user w
      (r.1, .handled r.2)

/-- Status and `error` text of the two answers of `authenticateUser`. -/
def authError {R : Type} : Authenticated R → Option (Nat × String)
  | .unauthorized => some (401, "Access token required")
  | .forbidden => some (403, "Invalid or expired token")
  | .handled _ => none

/-- The answers of `GET /orders/:id`. -/
inductive OrderResponse where
  /-- Status 404, `{ error: 'Order not found' }`. -/
  | notFound
  /-- Status 403, `{ error: 'Access denied' }`. -/
  | accessDenied
  /-- Status 200, `{ id, ...orderData }`. -/
  | found (id : String) (order : Order)
  /-- Status 500, `{ error: 'Internal server error' }`. -/
  | internalError
deriving DecidableEq, Repr

/-- HTTP status of an answer. -/
def OrderResponse.status : OrderResponse → Nat
  | .notFound => 404
  | .accessDenied => 403
  | .found _ _ => 200
  | .internalError => 500

/-- The `error` text of an answer, absent on success. -/
def OrderResponse.error : OrderResponse → Option String
  | .notFound => some "Order not found"
  | .accessDenied => some "Access denied"
  | .found _ _ => none
  | .internalError => some "Internal server error"

/-- The call `ordersCollection.doc(id).get()`: the document with this id, `none`
when it does not exist. -/
def getOrderDoc (orders : List (String × Order)) (id : String) : Option (String × Order) :=
  orders.find? (fun d => decide (d.1 = id))

/-- The handler of `GET /orders/:id`, after `authenticateUser` has set `req.user`;
`getFails` says that reading the document throws. -/
def getOrderById (getFails : Bool) (w : World) (user : User) (id : String) : OrderResponse :=
  if getFails then .internalError
  else
    match getOrderDoc w.orders id with
    | none => .notFound
    | some orderDoc =>
      if orderDoc.2.userId ≠ user.userId ∧ user.role ≠ "admin" then .accessDenied
      else .found orderDoc.1 orderDoc.2

end OrdersFirestore

namespace ProductsMemory

/-- The handler of `GET /products/:id`: the first active product with this id
(the answer adds its category); `none` stands for status 404. -/
def getProduct (products : List Product) (productId : Int) : Option Product :=
  products.find? (fun p => decide (p.id = productId) && p.isActive)

end ProductsMemory

namespace OrdersMemory

open ProductsMemory

/-- Middleware `authenticateToken` in front of a route handler `next`, on the stores
`w`. `verifyToken` is the helper of that name: the claims the users service
returns for a token, `none` for `null`. -/
def authenticateToken {W R : Type} (verifyToken : String → Option User)
    (authHeader : Option String) (next : User → W → W × R) (w : W) :
    W × Authenticated R :=
  let token := bearerToken authHeader
  if !truthy token then (w, .unauthorized)
  else
    match verifyToken (token.getD "") with
    | none => (w, .forbidden)
    | some user =>
      let r := next user w
      (r.1, .handled r.2)

/-- Status and `message` of the two answers of `authenticateToken`. -/
def authError {R : Type} : Authenticated R → Option (Nat × String)
  | .unauthorized => some (401, "Access token is required")
  | .forbidden => some (403, "Invalid or expired token")
  | .handled _ => none

/-- Helper `fetchProduct`: `response.data.data` of `GET /products/:id`, `null`
(here `none`) when the request fails. -/
def fetchProduct (fails : Bool) (products : List Product) (productId : Int) :
    Option Product :=
  if fails then none else getProduct products productId

/-- The expression `items.reduce((sum, item) => sum + (item.price * item.quantity), 0)`. -/
def cartTotal (items : List CartItem) : Rat :=
  items.foldl (fun sum item => sum + item.price * item.quantity) 0

/-- The call `items.findIndex(item => item.productId === productId)`, `none` for -1. -/
def findIndex (items : List CartItem) (productId : Int) : Option Nat :=
  items.findIdx? (fun item => decide (item.productId = productId))

/-- The call `carts.set(userId, cart)` on the map `carts`: the value of an existing
key is replaced in place, a new key is added at the end. -/
def setCart (carts : List (Nat × Cart)) (userId : Nat) (cart : Cart) : List (Nat × Cart) :=
  if carts.any (fun d => decide (d.1 = userId)) then
    carts.map (fun d => if d.1 = userId then (userId, cart) else d)
  else carts ++ [(userId, cart)]

/-- The answers of the cart endpoints `POST /cart/items`,
`PUT /cart/items/:productId` and `DELETE /cart/items/:productId`. -/
inductive CartResponse where
  /-- Status 400, message `Product ID and valid quantity are required`. -/
  | invalidItem
  /-- Status 404, message `Product not found`. -/
  | productNotFound
  /-- Status 400, message `Insufficient stock`, with `availableStock`. -/
  | insufficientStock (availableStock : Int)
  /-- Status 400, message `Valid quantity is required`. -/
  | invalidQuantity
  /-- Status 404, message `Cart not found`. -/
  | cartNotFound
  /-- Status 404, message `Item not found in cart`. -/
  | itemNotFound
  /-- Status 200, message `Item added to cart`, `data: cart`. -/
  | itemAdded (cart : Cart)
  /-- Status 200, message `Cart updated`, `data: cart`. -/
  | cartUpdated (cart : Cart)
  /-- Status 200, message `Item removed from cart`, `data: cart`. -/
  | itemRemoved (cart : Cart)
deriving DecidableEq, Repr

/-- HTTP status of an answer. -/
def CartResponse.status : CartResponse → Nat
  | .invalidItem => 400
  | .productNotFound => 404
  | .insufficientStock _ => 400
  | .invalidQuantity => 400
  | .cartNotFound => 404
  | .itemNotFound => 404
  | .itemAdded _ => 200
  | .cartUpdated _ => 200
  | .itemRemoved _ => 200

/-- The `message` of an answer. -/
def CartResponse.text : CartResponse → String
  | .invalidItem => "Product ID and valid quantity are required"
  | .productNotFound => "Product not found"
  | .insufficientStock _ => "Insufficient stock"
  | .invalidQuantity => "Valid quantity is required"
  | .cartNotFound => "Cart not found"
  | .itemNotFound => "Item not found in cart"
  | .itemAdded _ => "Item added to cart"
  | .cartUpdated _ => "Cart updated"
  | .itemRemoved _ => "Item removed from cart"

/-- The cart that a successful answer carries. -/
def CartResponse.cart : CartResponse → Option Cart
  | .itemAdded cart => some cart
  | .cartUpdated cart => some cart
  | .itemRemoved cart => some cart
  | _ => none

/-- The handler of `POST /cart/items`, after `authenticateToken` has set
`req.user`. `productId` and `quantity` are the body fields, `none` when absent;
`fetchFails` and `stockFails` say that the request to products-service fails. -/
def addItem (fetchFails stockFails : Bool) (w : World) (user : User)
    (productId : Option Int) (quantity : Option Int) : World × CartResponse :=
  match productId, quantity with
  | some productId, some quantity =>
    if productId = 0 ∨ quantity = 0 ∨ quantity ≤ 0 then (w, .invalidItem)
    else
      match fetchProduct fetchFails w.products productId with
      | none => (w, .productNotFound)
      | some product =>
        match checkStock stockFails w.products productId with
        | none => (w, .insufficientStock 0)
        | some stockInfo =>
          if !stockInfo.isInStock || decide (stockInfo.stockQuantity < quantity) then
            (w, .insufficientStock stockInfo.stockQuantity)
          else
            let cart : Cart :=
              match getCart w.carts user.id with
              | some cart => cart
              | none => { userId := user.id, items := [], totalAmount := 0 }
            let items :=
              match findIndex cart.items productId with
              | some existingItemIndex =>
                cart.items.modify
                  (fun item => { item with quantity := item.quantity + quantity })
                  existingItemIndex
              | none =>
                cart.items ++ [{ productId := productId, productName := product.name,
                                 price := product.price, quantity := quantity }]
            let cart : Cart := { cart with items := items, totalAmount := cartTotal items }
            ({ w with carts := setCart w.carts user.id cart }, .itemAdded cart)
  | _, _ => (w, .invalidItem)

/-- The handler of `PUT /cart/items/:productId`; `productId` is
`parseInt(req.params.productId)`, `quantity` the body field. -/
def updateItem (stockFails : Bool) (w : World) (user : User) (productId : Int)
    (quantity : Option Int) : World × CartResponse :=
  match quantity with
  | none => (w, .invalidQuantity)
  | some quantity =>
    if quantity = 0 ∨ quantity < 0 then (w, .invalidQuantity)
    else
      match getCart w.carts user.id with
      | none => (w, .cartNotFound)
      | some cart =>
        match findIndex cart.items productId with
        | none => (w, .itemNotFound)
        | some itemIndex =>
          if quantity = 0 then
            let items := cart.items.eraseIdx itemIndex
            let cart : Cart := { cart with items := items, totalAmount := cartTotal items }
            ({ w with carts := setCart w.carts user.id cart }, .cartUpdated cart)
          else
            match checkStock stockFails w.products productId with
            | none => (w, .insufficientStock 0)
            | some stockInfo =>
              if stockInfo.stockQuantity < quantity then
                (w, .insufficientStock stockInfo.stockQuantity)
              else
                let items :=
                  cart.items.modify (fun item => { item with quantity := quantity })
                    itemIndex
                let cart : Cart :=
                  { cart with items := items, totalAmount := cartTotal items }
                ({ w with carts := setCart w.carts user.id cart }, .cartUpdated cart)

/-- The handler of `DELETE /cart/items/:productId`; `productId` is
`parseInt(req.params.productId)`. -/
def removeItem (w : World) (user : User) (productId : Int) : World × CartResponse :=
  match getCart w.carts user.id with
  | none => (w, .cartNotFound)
  | some cart =>
    match findIndex cart.items productId with
    | none => (w, .itemNotFound)
    | some itemIndex =>
      let items := cart.items.eraseIdx itemIndex
      let cart : Cart := { cart with items := items, totalAmount := cartTotal items }
      ({ w with carts := setCart w.carts user.id cart }, .itemRemoved cart)

/-- The handler of `GET /orders`: the orders of the requester and their count. -/
def getOrders (w : World) (user : User) : List Order × Nat :=
  let userOrders := w.orders.filter (fun order => decide (order.userId = user.id))
  (userOrders, userOrders.length)

/-- The answers of `GET /orders/:id`. -/
inductive OrderResponse where
  /-- Status 404, message `Order not found`. -/
  | notFound
  /-- Status 403, message `Access denied`. -/
  | accessDenied
  /-- Status 200, `data: order`. -/
  | found (order : Order)
deriving DecidableEq, Repr

/-- HTTP status of an answer. -/
def OrderResponse.status : OrderResponse → Nat
  | .notFound => 404
  | .accessDenied => 403
  | .found _ => 200

/-- The `message` of an answer, absent on success. -/
def OrderResponse.text : OrderResponse → Option String
  | .notFound => some "Order not found"
  | .accessDenied => some "Access denied"
  | .found _ => none

/-- The handler of `GET /orders/:id`; `orderId` is `parseInt(req.params.id)`, `none`
for `NaN`. -/
def getOrderById (w : World) (user : User) (orderId : Option Int) : OrderResponse :=
  match w.orders.find? (fun o => decide (some (o.id : Int) = orderId)) with
  | none => .notFound
  | some order =>
    if order.userId ≠ user.id then .accessDenied else .found order

/-- A request to one of the endpoints that write the stores, with what it meets
outside the service (failing requests to products-service). -/
inductive Request where
  | addItem (fetchFails stockFails : Bool) (user : User) (productId : Option Int)
      (quantity : Option Int)
  | updateItem (stockFails : Bool) (user : User) (productId : Int) (quantity : Option Int)
  | removeItem (user : User) (productId : Int)
  | createOrder (stockFails : Nat → Bool) (user : User)
      (shippingAddress : Option ShippingAddress)

/-- The stores after a request is served. -/
def step (w : World) : Request → World
  | .addItem fetchFails stockFails user productId quantity =>
    (addItem fetchFails stockFails w user productId quantity).1
  | .updateItem stockFails user productId quantity =>
    (updateItem stockFails w user productId quantity).1
  | .removeItem user productId => (removeItem w user productId).1
  | .createOrder stockFails user shippingAddress =>
    (createOrder stockFails w user shippingAddress).1

/-- The stores after the requests are served one after the other. -/
def run (w : World) (requests : List Request) : World :=
  requests.foldl step w

/-- The stores when the service starts, next to the products of
products-service: no order, no cart, `orderIdCounter = 1`. -/
def initial (products : List Product) : World :=
  { products := products, orders := [], orderIdCounter := 1, carts := [] }

end OrdersMemory

/-! ## users-service -/

/-- A JavaScript value as it occurs in the objects of the users service. -/
inductive JsValue where
  | num (n : Int)
  | str (s : String)
  | date (t : Nat)
deriving DecidableEq, Repr

/-- A JavaScript object: its own properties in insertion order. -/
abbrev JsObject := List (String × JsValue)

/-- Property access `o.key` (or `o[key]`): `none` stands for `undefined`. -/
def JsObject.get (o : JsObject) (key : String) : Option JsValue :=
  (o.find? (fun kv => decide (kv.1 = key))).map (fun kv => kv.2)

/-- The library `jsonwebtoken` with the secret and the expiry the service passes
to it: `sign` is `jwt.sign(payload, JWT_SECRET, { expiresIn })`, `verify` is
`jwt.verify(token, JWT_SECRET)` with the decoded payload, `none` when it reports
an error. The library is not part of the repository. -/
structure JwtLib where
  sign : JsObject → String
  verify : String → Option JsObject

/-- What `jwt.verify` returns for an unexpired token signed with the same secret:
the signed payload followed by the claims `iat` and `exp`. -/
def JwtLib.Decodes (jwt : JwtLib) (payload : JsObject) : Prop :=
  ∃ iat exp : Int,
    jwt.verify (jwt.sign payload) = some (payload ++ [("iat", .num iat), ("exp", .num exp)])

/-- A token can be sent in the header `authorization: Bearer <token>`: it is
not empty and has no space. -/
def JwtLib.Sendable (jwt : JwtLib) (payload : JsObject) : Prop :=
  jwt.sign payload ≠ "" ∧ ' ' ∉ (jwt.sign payload).toList

namespace UsersPostgres

/-- A row of table `users`. -/
structure UserRow where
  id : Int
  email : String
  password_hash : String
  first_name : String
  last_name : String
  role : String
  created_at : Nat
  last_login : Option Nat
  email_verified : Bool
deriving DecidableEq, Repr

/-- The object literal `{ id: user.id, email: user.email, role: user.role }` that
`generateToken` signs. -/
def tokenPayload (user : UserRow) : JsObject :=
  [("id", .num user.id), ("email", .str user.email), ("role", .str user.role)]

/-- Helper `generateToken`. -/
def generateToken (jwt : JwtLib) (user : UserRow) : String :=
  jwt.sign (tokenPayload user)

/-- Middleware `authenticateToken` in front of a route handler `next`: `req.user`
is the payload that `jwt.verify` decodes. -/
def authenticateToken {R : Type} (jwt : JwtLib) (authHeader : Option String)
    (next : JsObject → R) : Authenticated R :=
  let token := bearerToken authHeader
  if !truthy token then .unauthorized
  else
    match jwt.verify (token.getD "") with
    | none => .forbidden
    | some user => .handled (next user)

/-- The query `SELECT ... FROM users WHERE id = $1` with the parameter `param`.
A parameter that is `undefined` is sent as `NULL`, and `id = NULL` holds for no
row; a string is read as an integer. The result is `none` when the database
rejects the parameter. -/
def selectUserById (users : List UserRow) : Option JsValue → Option (List UserRow)
  | none => some []
  | some (.num n) => some (users.filter (fun u => decide (u.id = n)))
  | some (.str s) =>
    match s.toInt? with
    | some n => some (users.filter (fun u => decide (u.id = n)))
    | none => none
  | some (.date _) => none

/-- The body of the success answer of `GET /users/me`. -/
structure Profile where
  id : Int
  email : String
  firstName : String
  lastName : String
  role : String
  createdAt : Nat
  lastLogin : Option Nat
  emailVerified : Bool
deriving DecidableEq, Repr

/-- The profile that `GET /users/me` builds from a row. -/
def profileOf (user : UserRow) : Profile :=
  { id := user.id, email := user.email, firstName := user.first_name,
    lastName := user.last_name, role := user.role, createdAt := user.created_at,
    lastLogin := user.last_login, emailVerified := user.email_verified }

/-- The answers of the handler of `GET /users/me`. -/
inductive MeResponse where
  /-- Status 404, `{ error: 'User not found' }`. -/
  | notFound
  /-- Status 200 with the profile. -/
  | profile (p : Profile)
  /-- Status 500, `{ error: 'Internal server error' }`. -/
  | internalError
deriving DecidableEq, Repr

/-- HTTP status of an answer. -/
def MeResponse.status : MeResponse → Nat
  | .notFound => 404
  | .profile _ => 200
  | .internalError => 500

/-- The handler of `GET /users/me`, with `req.user` as set by
`authenticateToken`: it selects by `req.user.userId`. `queryFails` says that the
query throws. -/
def getMeHandler (queryFails : Bool) (users : List UserRow) (reqUser : JsObject) :
    MeResponse :=
  if queryFails then .internalError
  else
    match selectUserById users (reqUser.get "userId") with
    | none => .internalError
    | some [] => .notFound
    | some (user :: _) => .profile (profileOf user)

/-- The route `GET /users/me`: `authenticateToken`, then the handler. -/
def getMe (jwt : JwtLib) (queryFails : Bool) (users : List UserRow)
    (authHeader : Option String) : Authenticated MeResponse :=
  authenticateToken jwt authHeader (getMeHandler queryFails users)

/-- A user row for the concrete scenario. -/
def sampleUserRow : UserRow :=
  { id := 7, email := "u@example.com", password_hash := "h", first_name := "Ann",
    last_name := "Lee", role := "customer", created_at := 1, last_login := none,
    email_verified := true }

/-- A stand-in for the token library in the concrete scenario: the one token
`tok` carries the payload of the sample user. -/
def sampleJwt : JwtLib :=
  { sign := fun _ => "tok",
    verify := fun token =>
      if token = "tok" then
        some (tokenPayload sampleUserRow ++ [("iat", .num 1), ("exp", .num 2)])
      else none }

end UsersPostgres

namespace UsersMemory

/-- An element of the array `users`. -/
structure UserRecord where
  id : Int
  email : String
  password : String
  firstName : String
  lastName : String
  role : String
  createdAt : Nat
deriving DecidableEq, Repr

/-- The user record as the JavaScript object it is, with its seven properties. -/
def UserRecord.toObject (u : UserRecord) : JsObject :=
  [("id", .num u.id), ("email", .str u.email), ("password", .str u.password),
   ("firstName", .str u.firstName), ("lastName", .str u.lastName),
   ("role", .str u.role), ("createdAt", .date u.createdAt)]

/-- Helper `formatUserResponse`: `const { password, ...userWithoutPassword } = user`
returns the properties of `user` other than `password`. -/
def formatUserResponse (user : JsObject) : JsObject :=
  user.filter (fun kv => !decide (kv.1 = "password"))

/-- The module state: the array `users` and the counter `userIdCounter`. -/
structure World where
  users : List UserRecord
  userIdCounter : Int
deriving DecidableEq, Repr

/-- What the handlers take from outside the repository: the token library, the
string method `toLowerCase`, `bcrypt.hash(password, 10)`, `bcrypt.compare` and
the clock. -/
structure Runtime where
  jwt : JwtLib
  toLowerCase : String → String
  bcryptHash : String → String
  bcryptCompare : String → String → Bool
  now : Nat

/-- Helper `generateToken`. -/
def generateToken (jwt : JwtLib) (user : UserRecord) : String :=
  jwt.sign [("id", .num user.id), ("email", .str user.email), ("role", .str user.role)]

/-- The class `\s` of a regular expression. -/
def isRegexSpace (c : Char) : Bool :=
  c.val = 0x20 || (0x09 ≤ c.val && c.val ≤ 0x0d) || c.val = 0xa0 || c.val = 0x1680 ||
  (0x2000 ≤ c.val && c.val ≤ 0x200a) || c.val = 0x2028 || c.val = 0x2029 ||
  c.val = 0x202f || c.val = 0x205f || c.val = 0x3000 || c.val = 0xfeff

/-- The class `[^\s@]`. -/
def isEmailChar (c : Char) : Bool :=
  !isRegexSpace c && !decide (c = '@')

/-- The test `/^[^\s@]+@[^\s@]+\.[^\s@]+$/.test(email)`: the string splits at an `@`
at position `i` and a `.` at a later position `j` into three non-empty parts of
characters of the class `[^\s@]`. -/
def emailRegexTest (email : String) : Bool :=
  let cs := email.toList
  (List.range cs.length).any (fun i =>
    (List.range cs.length).any (fun j =>
      decide (0 < i) && decide (i + 1 < j) && decide (j + 1 < cs.length) &&
      decide (cs[i]? = some '@') && decide (cs[j]? = some '.') &&
      (cs.take i).all isEmailChar &&
      ((cs.drop (i + 1)).take (j - (i + 1))).all isEmailChar &&
      (cs.drop (j + 1)).all isEmailChar))

/-- The property `length` of a string: its number of UTF-16 code units. -/
def utf16Length (s : String) : Nat :=
  (s.toList.map (fun c => if c.val < 0x10000 then 1 else 2)).sum

/-- The answers of the handlers, with the user objects they carry. -/
inductive Response where
  /-- An answer `{ success: false, message }` with its status. -/
  | failure (status : Nat) (message : String)
  /-- Status 201, `data: { user, token }`. -/
  | registered (user : JsObject) (token : String)
  /-- Status 200 of login, `data: { user, token }`. -/
  | loggedIn (user : JsObject) (token : String)
  /-- Status 200 of `GET /users/me` and `GET /users/:id`, `data: user`. -/
  | user (data : JsObject)
  /-- Status 200 of `GET /users`, `data` and `count`. -/
  | users (data : List JsObject) (count : Nat)
deriving DecidableEq, Repr

/-- The user objects in an answer. -/
def Response.userObjects : Response → List JsObject
  | .failure _ _ => []
  | .registered userObject _ => [userObject]
  | .loggedIn userObject _ => [userObject]
  | .user data => [data]
  | .users data _ => data

/-- Middleware `authenticateToken` in front of a route handler `next`: `req.user` is
the payload that `jwt.verify` decodes. -/
def authenticateToken (jwt : JwtLib) (authHeader : Option String)
    (next : JsObject → Response) : Response :=
  let token := bearerToken authHeader
  if !truthy token then .failure 401 "Access token is required"
  else
    match jwt.verify (token.getD "") with
    | none => .failure 403 "Invalid or expired token"
    | some user => next user

/-- The body of `POST /auth/register`. -/
structure RegisterBody where
  email : Option String
  password : Option String
  firstName : Option String
  lastName : Option String
deriving DecidableEq, Repr

/-- The handler of `POST /auth/register`. -/
def register (rt : Runtime) (w : World) (body : RegisterBody) : World × Response :=
  if !truthy body.email || !truthy body.password || !truthy body.firstName ||
      !truthy body.lastName then
    (w, .failure 400 "Email, password, first name, and last name are required")
  else
    let email := body.email.getD ""
    let password := body.password.getD ""
    if !emailRegexTest email then (w, .failure 400 "Invalid email format")
    else if utf16Length password < 6 then
      (w, .failure 400 "Password must be at least 6 characters long")
    else
      match w.users.find? (fun u => rt.toLowerCase u.email == rt.toLowerCase email) with
      | some _ => (w, .failure 409 "Email already registered")
      | none =>
        let hashedPassword := rt.bcryptHash password
        let newUser : UserRecord :=
          { id := w.userIdCounter, email := rt.toLowerCase email,
            password := hashedPassword, firstName := body.firstName.getD "",
            lastName := body.lastName.getD "", role := "customer", createdAt := rt.now }
        ({ users := w.users ++ [newUser], userIdCounter := w.userIdCounter + 1 },
         .registered (formatUserResponse newUser.toObject) (generateToken rt.jwt newUser))

/-- The handler of `POST /auth/login`. -/
def login (rt : Runtime) (w : World) (email password : Option String) : Response :=
  if !truthy email || !truthy password then
    .failure 400 "Email and password are required"
  else
    match w.users.find? (fun u =>
        rt.toLowerCase u.email == rt.toLowerCase (email.getD "")) with
    | none => .failure 401 "Invalid email or password"
    | some user =>
      if !rt.bcryptCompare (password.getD "") user.password then
        .failure 401 "Invalid email or password"
      else .loggedIn (formatUserResponse user.toObject) (generateToken rt.jwt user)

/-- The route `GET /users/me`: `users.find(u => u.id === req.user.id)`. -/
def getMe (rt : Runtime) (w : World) (authHeader : Option String) : Response :=
  authenticateToken rt.jwt authHeader (fun reqUser =>
    match w.users.find? (fun u => decide (some (JsValue.num u.id) = reqUser.get "id")) with
    | none => .failure 404 "User not found"
    | some user => .user (formatUserResponse user.toObject))

/-- The handler of `GET /users/:id`; `userId` is `parseInt(req.params.id)`, `none`
for `NaN`. -/
def getUserById (w : World) (userId : Option Int) : Response :=
  match w.users.find? (fun u => decide (some u.id = userId)) with
  | none => .failure 404 "User not found"
  | some user => .user (formatUserResponse user.toObject)

/-- The route `GET /users`. -/
def listUsers (rt : Runtime) (w : World) (authHeader : Option String) : Response :=
  authenticateToken rt.jwt authHeader (fun reqUser =>
    if reqUser.get "role" ≠ some (.str "admin") then
      .failure 403 "Access denied. Admin role required."
    else
      let usersWithoutPasswords := w.users.map (fun u => formatUserResponse u.toObject)
      .users usersWithoutPasswords usersWithoutPasswords.length)

/-- A user record for the concrete scenario. -/
def sampleRecord : UserRecord :=
  { id := 2, email := "customer@example.com", password := "$2a$10$hash",
    firstName := "John", lastName := "Doe", role := "customer", createdAt := 1 }

end UsersMemory

namespace OrdersMemory

/-- The stored totals are derived from the lines: every cart and every order
carries the total recomputed from its items. -/
def Consistent (w : World) : Prop :=
  (∀ d ∈ w.carts, d.2.totalAmount = cartTotal d.2.items) ∧
  (∀ o ∈ w.orders, o.totalAmount = cartTotal o.items)

end OrdersMemory

namespace OrdersFirestore

/-- A world with one order of user 7, for the concrete scenarios of order access. -/
def orderWorld : World :=
  { db := ProductsService.sampleDb, carts := [],
    orders := [("O1", { userId := 7, items := [], totalAmount := 0,
                        shippingAddress := { street := some "1 Main St", city := some "Hanoi" },
                        paymentMethod := "cod", status := "pending" })] }

/-- An administrator who owns no order. -/
def adminUser : User := { userId := 1, email := "admin@ecommerce.com", role := "admin" }

/-- A customer who owns no order. -/
def otherUser : User := { userId := 8, email := "v@example.com", role := "customer" }

end OrdersFirestore

namespace OrdersMemory

/-- A world with one order of user 7, for the concrete scenarios of order access. -/
def orderWorld : World :=
  { products := [], orderIdCounter := 2, carts := [],
    orders := [{ id := 1, userId := 7, userEmail := "u@example.com", items := [],
                 totalAmount := 0,
                 shippingAddress := { street := some "1 Main St", city := some "Hanoi" },
                 status := "pending" }] }

/-- An administrator who owns no order. -/
def adminUser : User := { id := 1, email := "admin@ecommerce.com", role := "admin" }

/-- A customer who owns no order. -/
def otherUser : User := { id := 8, email := "v@example.com", role := "customer" }

end OrdersMemory

namespace UsersMemory

/-- The module state when the service starts: the two users of the array literal
and `userIdCounter = users.length + 1`. The dates are milliseconds since the
epoch. -/
def initial : World :=
  { users := [{ id := 1, email := "admin@ecommerce.com",
                password := "$2a$10$YourHashedPasswordHere", firstName := "Admin",
                lastName := "User", role := "admin", createdAt := 1704067200000 },
              { id := 2, email := "customer@example.com",
                password := "$2a$10$YourHashedPasswordHere", firstName := "John",
                lastName := "Doe", role := "customer", createdAt := 1706745600000 }],
    userIdCounter := 3 }

/-- The module state after the register requests with the bodies `bodies` are
served one after the other. `POST /auth/register` is the only handler that
writes `users` or `userIdCounter`. -/
def registerAll (rt : Runtime) (w : World) (bodies : List RegisterBody) : World :=
  bodies.foldl (fun w body => (register rt w body).1) w

/-- The form of an e-mail address as the claim on registration words it: a
non-empty text, `@`, a non-empty text, `.`, a non-empty text, each of the three
texts without whitespace and without `@`. To be compared with the regular
expression of the handler, `emailRegexTest`. -/
def EmailForm (email : String) : Prop :=
  ∃ a b c : List Char, email.toList = a ++ '@' :: (b ++ '.' :: c) ∧
    a ≠ [] ∧ b ≠ [] ∧ c ≠ [] ∧
    (∀ x ∈ a, isEmailChar x = true) ∧ (∀ x ∈ b, isEmailChar x = true) ∧
    (∀ x ∈ c, isEmailChar x = true)

/-- A stand-in for what the handlers take from outside, for the concrete
scenarios: lower-casing of the letters `A` to `Z`, a hash that prefixes the
password, one token for every payload, the clock at 5. -/
def sampleRuntime : Runtime :=
  { jwt := { sign := fun _ => "tok", verify := fun _ => none },
    toLowerCase := fun s => String.mk (s.toList.map Char.toLower),
    bcryptHash := fun password => "$2a$10$" ++ password,
    bcryptCompare := fun password hash => hash == "$2a$10$" ++ password,
    now := 5 }

/-- A complete body for the concrete scenarios. -/
def sampleBody : RegisterBody :=
  { email := some "Ann@Example.com", password := some "secret1",
    firstName := some "Ann", lastName := some "Lee" }

end UsersMemory

namespace ProductsService

/-- A request to one of the two endpoints of products-service (PostgreSQL) that
write to the database, with the failures it meets: `GET /products/:id`
(increments `view_count`) and `POST /products/:id/reserve`. The other endpoints
(`/health`, `GET /products`, `GET /products/:id/stock`, `/categories`, `/search`)
run `SELECT` statements only; the service has no further endpoint. -/
inductive Request where
  | getProduct (fails : Bool) (id : Int)
  | reserve (fails : DbCall → Bool) (req : ReserveRequest)

/-- The database after a request is served. -/
def step (db : Database) : Request → Database
  | .getProduct fails id => (getProduct fails db id).1
  | .reserve fails req => (reserve fails db req).1

/-- The database after the requests are served one after the other. -/
def run (db : Database) (requests : List Request) : Database :=
  requests.foldl step db

end ProductsService

namespace OrdersFirestore

open ProductsService

/-- The call `cartRef.set(cartData)` on the document `cartsCollection.doc(userId)`:
the document is replaced, or created when it does not exist. -/
def setCart (carts : List (Nat × Cart)) (userId : Nat) (cart : Cart) : List (Nat × Cart) :=
  if carts.any (fun d => decide (d.1 = userId)) then
    carts.map (fun d => if d.1 = userId then (userId, cart) else d)
  else carts ++ [(userId, cart)]

/-- The call `cartData.items.findIndex(item => item.productId === parseInt(productId))`,
`none` for -1. -/
def findIndex (items : List CartItem) (productId : Int) : Option Nat :=
  items.findIdx? (fun item => decide (item.productId = productId))

/-- What a cart handler meets outside its own code: a failing request to
products-service (`fetchFails`, `stockFails`) and a Firestore call that throws
(`getFails` for `cartRef.get()`, `setFails` for `cartRef.set(cartData)`). -/
structure CartEnv where
  fetchFails : Bool
  stockFails : Bool
  getFails : Bool
  setFails : Bool
deriving DecidableEq, Repr

/-- The environment without failures. -/
def calm : CartEnv :=
  { fetchFails := false, stockFails := false, getFails := false, setFails := false }

/-- The answers of the cart endpoints `POST /cart/items`,
`PUT /cart/items/:productId` and `DELETE /cart/items/:productId`. -/
inductive CartResponse where
  /-- Status 400, `{ error: 'Invalid productId or quantity' }`. -/
  | invalidItem
  /-- Status 404, `{ error: 'Product not found' }`. -/
  | productNotFound
  /-- Status 400, `{ error: 'Insufficient stock' }`. -/
  | insufficientStock
  /-- Status 400, `{ error: 'Invalid quantity' }`. -/
  | invalidQuantity
  /-- Status 404, `{ error: 'Cart not found' }`. -/
  | cartNotFound
  /-- Status 404, `{ error: 'Item not in cart' }`. -/
  | itemNotInCart
  /-- Status 200, `{ message: 'Item added to cart', cart: cartData }`. -/
  | itemAdded (cart : Cart)
  /-- Status 200, `{ message: 'Cart updated', cart: cartData }`. -/
  | cartUpdated (cart : Cart)
  /-- Status 200, `{ message: 'Item removed from cart' }`. -/
  | itemRemoved
  /-- Status 500, `{ error: 'Internal server error' }`. -/
  | internalError
deriving DecidableEq, Repr

/-- HTTP status of an answer. -/
def CartResponse.status : CartResponse → Nat
  | .invalidItem => 400
  | .productNotFound => 404
  | .insufficientStock => 400
  | .invalidQuantity => 400
  | .cartNotFound => 404
  | .itemNotInCart => 404
  | .itemAdded _ => 200
  | .cartUpdated _ => 200
  | .itemRemoved => 200
  | .internalError => 500

/-- The `error` text of an answer, or its `message` on success. -/
def CartResponse.text : CartResponse → String
  | .invalidItem => "Invalid productId or quantity"
  | .productNotFound => "Product not found"
  | .insufficientStock => "Insufficient stock"
  | .invalidQuantity => "Invalid quantity"
  | .cartNotFound => "Cart not found"
  | .itemNotInCart => "Item not in cart"
  | .itemAdded _ => "Item added to cart"
  | .cartUpdated _ => "Cart updated"
  | .itemRemoved => "Item removed from cart"
  | .internalError => "Internal server error"

/-- Whether the answer has status 200. -/
def CartResponse.isSuccess : CartResponse → Bool
  | .itemAdded _ => true
  | .cartUpdated _ => true
  | .itemRemoved => true
  | _ => false

/-- Helper `checkStock` as the cart routes call it, with the field `quantity` of
the request body, which is any number: `stock.stockQuantity >= quantity` on the
answer of `GET /products/:id/stock`, `false` when the request fails. -/
def checkStockNumber (fails : Bool) (db : Database) (productId : Int) (quantity : Rat) :
    Bool :=
  match getStock fails db productId with
  | some stock => decide ((stock.stockQuantity : Rat) ≥ quantity)
  | none => false

/-- The handler of `POST /cart/items`, after `authenticateUser` has set `req.user`.
`productId` and `quantity` are the body fields, `none` when absent. `quantity`
is any number of the JSON body; the tests read it as it is and the cart stores
`parseInt(quantity)`, `parseInt` being the function of the engine on numbers.
`productId` is an integer, on which `parseInt` is the identity. The product
lookup increments the view counter of the product in the database of
products-service. -/
def addItem (parseInt : Rat → Int) (env : CartEnv) (w : World) (user : User)
    (productId : Option Int) (quantity : Option Rat) : World × CartResponse :=
  match productId, quantity with
  | some productId, some quantity =>
    if productId = 0 ∨ quantity = 0 ∨ quantity ≤ 0 then (w, .invalidItem)
    else
      match fetchProduct env.fetchFails w.db productId with
      | (db, none) => ({ w with db := db }, .productNotFound)
      | (db, some product) =>
        if !checkStockNumber env.stockFails db productId quantity then
          ({ w with db := db }, .insufficientStock)
        else if env.getFails then ({ w with db := db }, .internalError)
        else
          let cartData : Cart :=
            match getCart w.carts user.userId with
            | none =>
              { userId := user.userId,
                items := [{ productId := productId, quantity := parseInt quantity,
                            price := product.price }] }
            | some cartData =>
              match findIndex cartData.items productId with
              | some existingItemIndex =>
                { cartData with
                  items := cartData.items.modify
                    (fun item => { item with quantity := item.quantity + parseInt quantity })
                    existingItemIndex }
              | none =>
                { cartData with
                  items := cartData.items ++
                    [{ productId := productId, quantity := parseInt quantity,
                       price := product.price }] }
          if env.setFails then ({ w with db := db }, .internalError)
          else
            ({ w with db := db, carts := setCart w.carts user.userId cartData },
             .itemAdded cartData)
  | _, _ => (w, .invalidItem)

/-- The handler of `PUT /cart/items/:productId`; `productId` is
`parseInt(req.params.productId)`, `quantity` the body field, any number or
absent. The tests `quantity < 0`, `quantity === 0` and the stock check read the
number as it is; the line gets `parseInt(quantity)`. An absent quantity passes
the test `quantity < 0` and fails the stock check,
`stock.stockQuantity >= undefined` being false. -/
def updateItem (parseInt : Rat → Int) (env : CartEnv) (w : World) (user : User)
    (productId : Int) (quantity : Option Rat) : World × CartResponse :=
  if (match quantity with
      | some quantity => decide (quantity < 0)
      | none => false) then (w, .invalidQuantity)
  else if env.getFails then (w, .internalError)
  else
    match getCart w.carts user.userId with
    | none => (w, .cartNotFound)
    | some cartData =>
      match findIndex cartData.items productId with
      | none => (w, .itemNotInCart)
      | some itemIndex =>
        if quantity = some 0 then
          let cartData : Cart := { cartData with items := cartData.items.eraseIdx itemIndex }
          if env.setFails then (w, .internalError)
          else ({ w with carts := setCart w.carts user.userId cartData },
                .cartUpdated cartData)
        else
          match quantity with
          | none => (w, .insufficientStock)
          | some quantity =>
            if !checkStockNumber env.stockFails w.db productId quantity then
              (w, .insufficientStock)
            else
              let cartData : Cart :=
                { cartData with
                  items := cartData.items.modify
                    (fun item => { item with quantity := parseInt quantity }) itemIndex }
              if env.setFails then (w, .internalError)
              else ({ w with carts := setCart w.carts user.userId cartData },
                    .cartUpdated cartData)

/-- The handler of `DELETE /cart/items/:productId`; `productId` is
`parseInt(req.params.productId)`. -/
def removeItem (env : CartEnv) (w : World) (user : User) (productId : Int) :
    World × CartResponse :=
  if env.getFails then (w, .internalError)
  else
    match getCart w.carts user.userId with
    | none => (w, .cartNotFound)
    | some cartData =>
      let cartData : Cart :=
        { cartData with
          items := cartData.items.filter (fun item => !decide (item.productId = productId)) }
      if env.setFails then (w, .internalError)
      else ({ w with carts := setCart w.carts user.userId cartData }, .itemRemoved)

/-- A request to one of the three endpoints that write a cart, with what it meets
outside the service. -/
inductive CartRequest where
  | addItem (env : CartEnv) (user : User) (productId : Option Int) (quantity : Option Rat)
  | updateItem (env : CartEnv) (user : User) (productId : Int) (quantity : Option Rat)
  | removeItem (env : CartEnv) (user : User) (productId : Int)

/-- The quantity of the request, when it carries one, is an integer that
`parseInt` returns as it is. -/
def CartRequest.Integral (parseInt : Rat → Int) : CartRequest → Prop
  | .addItem _ _ _ (some quantity) => (parseInt quantity : Rat) = quantity
  | .updateItem _ _ _ (some quantity) => (parseInt quantity : Rat) = quantity
  | _ => True

/-- The stores after a cart request is served. -/
def cartStep (parseInt : Rat → Int) (w : World) : CartRequest → World
  | .addItem env user productId quantity =>
    (addItem parseInt env w user productId quantity).1
  | .updateItem env user productId quantity =>
    (updateItem parseInt env w user productId quantity).1
  | .removeItem env user productId => (removeItem env w user productId).1

/-- The stores after the cart requests are served one after the other. -/
def cartRun (parseInt : Rat → Int) (w : World) (requests : List CartRequest) : World :=
  requests.foldl (cartStep parseInt) w

/-- What `parseInt` returns for a number that JavaScript prints in decimal
notation (0, and the numbers of absolute value from `1e-6` up to `1e21`): the
digits before the decimal point, that is the number truncated toward zero. -/
def truncate (x : Rat) : Int :=
  Int.tdiv x.num x.den

/-- The number 0.5. -/
def half : Rat :=
  { num := 1, den := 2, den_nz := by decide, reduced := by decide }

/-- The number 2.5. -/
def twoAndHalf : Rat :=
  { num := 5, den := 2, den_nz := by decide, reduced := by decide }

/-- The stores with no cart and no order, next to the database `db` of
products-service. -/
def emptyStores (db : Database) : World :=
  { db := db, carts := [], orders := [] }

/-- A world for the concrete scenarios of the cart: product 1 with stock 25 and
the cart of user 7 with 20 units of product 1 and 1 unit of product 2. -/
def cartWorld : World :=
  { db := { products := [sampleRow 1 25, sampleRow 2 5], stock_movements := [] },
    carts := [(7, { userId := 7,
                    items := [{ productId := 1, quantity := 20, price := 10 },
                              { productId := 2, quantity := 1, price := 10 }] })],
    orders := [] }

end OrdersFirestore

namespace OrdersMemory

/-- A world for the concrete scenarios of the cart: product 1 with stock 25 and
the cart of user 7 with 20 units of product 1 and 1 unit of product 2. -/
def cartWorld : World :=
  { products := [{ id := 1, name := "Laptop", description := "Ultrabook", price := 100,
                   categoryId := 1, stockQuantity := 25, isActive := true },
                 { id := 2, name := "Mouse", description := "Wireless", price := 10,
                   categoryId := 1, stockQuantity := 5, isActive := true }],
    orders := [], orderIdCounter := 1,
    carts := [(7, { userId := 7,
                    items := [{ productId := 1, productName := "Laptop", price := 100,
                                quantity := 20 },
                              { productId := 2, productName := "Mouse", price := 10,
                                quantity := 1 }],
                    totalAmount := 2010 })] }

end OrdersMemory

/-- The lines of a cart are well formed: no two lines have the same product id and
every quantity is positive. `productId` and `quantity` read the two fields of a
line. -/
def LinesValid {α : Type} (productId : α → Int) (quantity : α → Int) (items : List α) :
    Prop :=
  (items.map productId).Nodup ∧ ∀ line ∈ items, 0 < quantity line

namespace OrdersMemory

/-- The lines of the cart of a user as `GET /cart` shows them:
`carts.get(userId) || { userId, items: [], totalAmount: 0 }`. -/
def cartItems (carts : List (Nat × Cart)) (userId : Nat) : List CartItem :=
  match getCart carts userId with
  | some cart => cart.items
  | none => []

end OrdersMemory

namespace OrdersFirestore

/-- The lines of the cart document of a user, none when the document does not
exist (`GET /cart` then answers `{ items: [], totalAmount: 0 }`). -/
def cartItems (carts : List (Nat × Cart)) (userId : Nat) : List CartItem :=
  match getCart carts userId with
  | some cartData => cartData.items
  | none => []

end OrdersFirestore

namespace ProductsMemory

/-- An element of the array `categories`. -/
structure Category where
  id : Int
  name : String
  description : String
deriving DecidableEq, Repr

/-- The query string of `GET /products`: each parameter is a string, `none` when
the request does not carry it. -/
structure ProductsQuery where
  category : Option String := none
  minPrice : Option String := none
  maxPrice : Option String := none
  search : Option String := none
  page : Option String := none
  limit : Option String := none
  sortBy : Option String := none
  sortOrder : Option String := none
deriving DecidableEq, Repr

/-- A number as `parseFloat` returns it. -/
inductive JsNumber where
  | nan
  | negInfinity
  | finite (q : Rat)
  | posInfinity
deriving DecidableEq, Repr

/-- The comparison `price >= min` of a price with a parsed number. -/
def geNumber (price : Rat) : JsNumber → Bool
  | .nan => false
  | .negInfinity => true
  | .finite min => decide (min ≤ price)
  | .posInfinity => false

/-- The comparison `price <= max` of a price with a parsed number. -/
def leNumber (price : Rat) : JsNumber → Bool
  | .nan => false
  | .negInfinity => false
  | .finite max => decide (price ≤ max)
  | .posInfinity => true

/-- What the handler of `GET /products` takes from the JavaScript engine:
`parseInt` (`none` for `NaN`; its values are integers, exact below `2 ^ 53`),
`parseFloat`, the string method `toLowerCase` and `Array.prototype.sort` with a
comparator. -/
structure Engine where
  parseInt : String → Option Int
  parseFloat : String → JsNumber
  toLowerCase : String → String
  sort : (Product → Product → Int) → List Product → List Product

/-- What ECMAScript requires of `Array.prototype.sort` whatever the comparator
returns: the array holds the same elements afterwards. -/
def Engine.SortPermutes (rt : Engine) : Prop :=
  ∀ (cmp : Product → Product → Int) (l : List Product), (rt.sort cmp l).Perm l

/-- The method `s.includes(term)`: `term` occurs in `s` as a contiguous part. -/
def includes (s term : String) : Bool :=
  s.toList.tails.any (fun t => term.toList.isPrefixOf t)

/-- The filters of `GET /products` in the order of the source: active products,
then each of category, minimum price, maximum price and search term when the
parameter is truthy. -/
def filterProducts (rt : Engine) (products : List Product) (q : ProductsQuery) :
    List Product :=
  let filteredProducts := products.filter (fun p => p.isActive)
  let filteredProducts :=
    if truthy q.category then
      let categoryId := rt.parseInt (q.category.getD "")
      filteredProducts.filter (fun p => decide (some p.categoryId = categoryId))
    else filteredProducts
  let filteredProducts :=
    if truthy q.minPrice then
      let min := rt.parseFloat (q.minPrice.getD "")
      filteredProducts.filter (fun p => geNumber p.price min)
    else filteredProducts
  let filteredProducts :=
    if truthy q.maxPrice then
      let max := rt.parseFloat (q.maxPrice.getD "")
      filteredProducts.filter (fun p => leNumber p.price max)
    else filteredProducts
  if truthy q.search then
    let searchTerm := rt.toLowerCase (q.search.getD "")
    filteredProducts.filter (fun p =>
      includes (rt.toLowerCase p.name) searchTerm ||
      includes (rt.toLowerCase p.description) searchTerm)
  else filteredProducts

/-- The value of a property of a product. -/
inductive Value where
  | undefined
  | boolean (b : Bool)
  | number (q : Rat)
  | string (s : String)
  | date (t : Int)
deriving DecidableEq, Repr

/-- Property access `product[key]`. A key that a product does not have gives
`undefined`. -/
def Product.prop (p : Product) (key : String) : Value :=
  if key = "id" then .number p.id
  else if key = "name" then .string p.name
  else if key = "description" then .string p.description
  else if key = "price" then .number p.price
  else if key = "categoryId" then .number p.categoryId
  else if key = "stockQuantity" then .number p.stockQuantity
  else if key = "imageUrl" then .string p.imageUrl
  else if key = "isActive" then .boolean p.isActive
  else if key = "createdAt" then .date p.createdAt
  else if key = "updatedAt" then .date p.updatedAt
  else .undefined

/-- The UTF-16 code units of a string. -/
def utf16Units (s : String) : List Nat :=
  s.toList.flatMap (fun c =>
    if c.toNat < 0x10000 then [c.toNat]
    else [0xD800 + (c.toNat - 0x10000) / 0x400, 0xDC00 + (c.toNat - 0x10000) % 0x400])

/-- Lexicographic `a <= b` on sequences of code units, the order in which
JavaScript compares strings. -/
def unitsLe : List Nat → List Nat → Bool
  | [], _ => true
  | _ :: _, [] => false
  | a :: as, b :: bs => decide (a < b) || (decide (a = b) && unitsLe as bs)

/-- The comparison `a > b` of two values of one property: numbers by value,
strings by code units, booleans as 0 and 1, dates by time; on `undefined` it is
false. Two products give values of the same kind for a key, so the mixed cases
do not occur. -/
def Value.gt : Value → Value → Bool
  | .number a, .number b => decide (b < a)
  | .string a, .string b => !unitsLe (utf16Units a) (utf16Units b)
  | .boolean a, .boolean b => a && !b
  | .date a, .date b => decide (b < a)
  | _, _ => false

/-- The method `toLowerCase` applied to a value that is a string. -/
def Value.lower (toLowerCase : String → String) : Value → Value
  | .string s => .string (toLowerCase s)
  | v => v

/-- The comparator passed to `filteredProducts.sort`. It returns 1 or -1, never
0. -/
def compareProducts (toLowerCase : String → String) (sortBy sortOrder : String)
    (a b : Product) : Int :=
  let aValue := a.prop sortBy
  let bValue := b.prop sortBy
  let lowered :=
    match aValue with
    | .string _ => (aValue.lower toLowerCase, bValue.lower toLowerCase)
    | _ => (aValue, bValue)
  if sortOrder = "desc" then
    if lowered.2.gt lowered.1 then 1 else -1
  else
    if lowered.1.gt lowered.2 then 1 else -1

/-- The array `filteredProducts` after the filters and the sort, before
pagination. `sortBy` defaults to `name` and `sortOrder` to `asc`. -/
def sortedProducts (rt : Engine) (products : List Product) (q : ProductsQuery) :
    List Product :=
  rt.sort (compareProducts rt.toLowerCase (q.sortBy.getD "name") (q.sortOrder.getD "asc"))
    (filterProducts rt products q)

/-- The method `slice(start, end)` with numeric arguments, `none` for `NaN`
(taken as 0); a negative index counts from the end. -/
def slice {α : Type} (l : List α) (start stop : Option Int) : List α :=
  let len : Int := l.length
  let relativeStart := start.getD 0
  let k := if relativeStart < 0 then max (len + relativeStart) 0 else min relativeStart len
  let relativeEnd := stop.getD 0
  let final := if relativeEnd < 0 then max (len + relativeEnd) 0 else min relativeEnd len
  (l.drop k.toNat).take (final - k).toNat

/-- The expression `Math.ceil(length / limitNum)` as it is serialised: `none`
(JSON `null`) when `limitNum` is `NaN` or 0. -/
def ceilDiv (length : Nat) (limitNum : Option Int) : Option Int :=
  match limitNum with
  | none => none
  | some limitNum =>
    if limitNum = 0 then none else some (-(Int.fdiv (-(length : Int)) limitNum))

/-- The `pagination` object of the answer; a number is `none` when it is `NaN`
or infinite. -/
structure Pagination where
  currentPage : Option Int
  totalPages : Option Int
  totalItems : Nat
  itemsPerPage : Option Int
  hasNextPage : Bool
  hasPrevPage : Bool
deriving DecidableEq, Repr

/-- An element of `data`: the product with the property `categoryName` added. -/
structure ListedProduct where
  product : Product
  categoryName : String
deriving DecidableEq, Repr

/-- The expression `categories.find(c => c.id === product.categoryId)?.name || 'Unknown'`. -/
def categoryName (categories : List Category) (product : Product) : String :=
  match categories.find? (fun c => decide (c.id = product.categoryId)) with
  | some c => if c.name = "" then "Unknown" else c.name
  | none => "Unknown"

/-- The body of the answer 200 of `GET /products`. -/
structure ProductsPage where
  data : List ListedProduct
  pagination : Pagination
deriving DecidableEq, Repr

/-- The constant `pageNum = parseInt(page)` with the default `page = 1`; `none`
for `NaN`. -/
def pageNum (rt : Engine) (q : ProductsQuery) : Option Int :=
  match q.page with
  | none => some 1
  | some page => rt.parseInt page

/-- The constant `limitNum = parseInt(limit)` with the default `limit = 10`; `none`
for `NaN`. -/
def limitNum (rt : Engine) (q : ProductsQuery) : Option Int :=
  match q.limit with
  | none => some 10
  | some limit => rt.parseInt limit

/-- The handler of `GET /products`. With string parameters no statement of it
throws, so the answer is always 200. -/
def listProducts (rt : Engine) (categories : List Category) (products : List Product)
    (q : ProductsQuery) : ProductsPage :=
  let filteredProducts := sortedProducts rt products q
  let pageNum : Option Int := pageNum rt q
  let limitNum : Option Int := limitNum rt q
  let startIndex : Option Int :=
    pageNum.bind (fun pageNum => limitNum.map (fun limitNum => (pageNum - 1) * limitNum))
  let endIndex : Option Int :=
    startIndex.bind (fun startIndex => limitNum.map (fun limitNum => startIndex + limitNum))
  let paginatedProducts := slice filteredProducts startIndex endIndex
  let productsWithCategory :=
    paginatedProducts.map (fun product =>
      ({ product := product, categoryName := categoryName categories product }
        : ListedProduct))
  { data := productsWithCategory,
    pagination :=
      { currentPage := pageNum,
        totalPages := ceilDiv filteredProducts.length limitNum,
        totalItems := filteredProducts.length,
        itemsPerPage := limitNum,
        hasNextPage :=
          match endIndex with
          | some endIndex => decide (endIndex < (filteredProducts.length : Int))
          | none => false,
        hasPrevPage :=
          match pageNum with
          | some pageNum => decide (pageNum > 1)
          | none => false } }

/-- The binary search of the insertion sort: the loop `while (left < right)` that
finds where `pivot` belongs in the sorted part `work[0 .. right)`. It branches
on `order < 0` only. `fuel` bounds the number of rounds; `right - left` is
enough, the interval shrinking in every round. -/
def insertionPoint {α : Type} (cmp : α → α → Int) (pivot : α) (work : List α) :
    Nat → Nat → Nat → Nat
  | 0, left, _ => left
  | fuel + 1, left, right =>
    if left < right then
      let mid := left + (right - left) / 2
      match work[mid]? with
      | some midElement =>
        if cmp pivot midElement < 0 then insertionPoint cmp pivot work fuel left mid
        else insertionPoint cmp pivot work fuel (mid + 1) right
      | none => left
    else left

/-- The binary insertion sort of the engine: `sorted` is the part of the array
already in order, `rest` the elements still to insert, from left to right. Each
element moves to its insertion point and the elements from there on shift by
one. -/
def binaryInsertionSort {α : Type} (cmp : α → α → Int) : List α → List α → List α
  | sorted, [] => sorted
  | sorted, pivot :: rest =>
    let left := insertionPoint cmp pivot sorted sorted.length 0 sorted.length
    binaryInsertionSort cmp (sorted.take left ++ pivot :: sorted.drop left) rest

/-- The number of elements after `previousElement` that continue the run at the
start of the array: a descending run goes on while `order < 0`, an ascending
one while `order >= 0`. -/
def runLength {α : Type} (cmp : α → α → Int) (isDescending : Bool) : α → List α → Nat
  | _, [] => 0
  | previousElement, currentElement :: rest =>
    let order := cmp currentElement previousElement
    if isDescending then
      if order ≥ 0 then 0 else 1 + runLength cmp isDescending currentElement rest
    else
      if order < 0 then 0 else 1 + runLength cmp isDescending currentElement rest

/-- The method `Array.prototype.sort(cmp)` as V8, the engine of Node.js,
computes it for an array of fewer than 64 defined elements: the run at the
start of the array is found and reversed when it descends, and the remaining
elements are inserted by binary insertion. (Longer arrays are cut into such
runs and merged; that part is not modelled.) -/
def arraySort {α : Type} (cmp : α → α → Int) : List α → List α
  | [] => []
  | [a] => [a]
  | elementHigh :: elementLow :: rest =>
    let order := cmp elementLow elementHigh
    let isDescending := decide (order < 0)
    let length := 2 + runLength cmp isDescending elementLow rest
    let work := elementHigh :: elementLow :: rest
    let run := if isDescending then (work.take length).reverse else work.take length
    binaryInsertionSort cmp run (work.drop length)

/-- The value of a string of decimal digits, `none` for any other string. -/
def parseDigits (s : String) : Option Int :=
  if s.toList = [] ∨ !s.toList.all Char.isDigit then none
  else some (s.toList.foldl (fun n c => 10 * n + ((c.toNat : Int) - 48)) 0)

/-- A stand-in for the engine in the concrete scenarios: `parseInt` and
`parseFloat` on strings of decimal digits, lower-casing of the letters `A` to
`Z`, and the sort of V8 for short arrays. -/
def sampleEngine : Engine :=
  { parseInt := parseDigits,
    parseFloat := fun s =>
      match parseDigits s with
      | some n => .finite n
      | none => .nan,
    toLowerCase := fun s => String.mk (s.toList.map Char.toLower),
    sort := arraySort }

/-- The array `categories` of the source. -/
def categories : List Category :=
  [{ id := 1, name := "Electronics", description := "Electronic devices and gadgets" },
   { id := 2, name := "Clothing", description := "Fashion and clothing items" },
   { id := 3, name := "Books", description := "Books and publications" },
   { id := 4, name := "Home & Garden", description := "Home improvement and garden items" }]

/-- The array `products` of the source. -/
def products : List Product :=
  [{ id := 1, name := "Laptop Dell XPS 13",
     description := "High-performance ultrabook with Intel Core i7 processor",
     price := 129999 / 100, categoryId := 1, stockQuantity := 25,
     imageUrl := "https://example.com/images/laptop.jpg", isActive := true,
     createdAt := 1705276800000, updatedAt := 1727740800000 },
   { id := 2, name := "Wireless Mouse Logitech MX Master 3",
     description := "Professional wireless mouse with advanced features",
     price := 9999 / 100, categoryId := 1, stockQuantity := 50,
     imageUrl := "https://example.com/images/mouse.jpg", isActive := true,
     createdAt := 1707523200000, updatedAt := 1726358400000 },
   { id := 3, name := "T-Shirt Cotton Blue",
     description := "Comfortable cotton t-shirt in blue color",
     price := 2499 / 100, categoryId := 2, stockQuantity := 100,
     imageUrl := "https://example.com/images/tshirt.jpg", isActive := true,
     createdAt := 1709596800000, updatedAt := 1724112000000 },
   { id := 4, name := "JavaScript: The Definitive Guide",
     description := "Comprehensive guide to JavaScript programming",
     price := 4999 / 100, categoryId := 3, stockQuantity := 30,
     imageUrl := "https://example.com/images/jsbook.jpg", isActive := true,
     createdAt := 1705708800000, updatedAt := 1720569600000 },
   { id := 5, name := "Garden Hose 50ft",
     description := "Durable 50-foot garden hose for outdoor use",
     price := 3599 / 100, categoryId := 4, stockQuantity := 20,
     imageUrl := "https://example.com/images/hose.jpg", isActive := true,
     createdAt := 1712880000000, updatedAt := 1725148800000 }]

/-- A small array for the concrete scenarios of the sort: two products with the
price 20, two with the price 10 (one of them inactive), and three whose names
differ only in case. -/
def tiedProducts : List Product :=
  [{ id := 1, name := "pear", description := "fruit", price := 20, categoryId := 1,
     stockQuantity := 1, isActive := true },
   { id := 2, name := "Apple", description := "fruit", price := 10, categoryId := 1,
     stockQuantity := 1, isActive := true },
   { id := 3, name := "apple", description := "green", price := 20, categoryId := 2,
     stockQuantity := 1, isActive := true },
   { id := 4, name := "Fig", description := "fruit", price := 10, categoryId := 2,
     stockQuantity := 1, isActive := false },
   { id := 5, name := "APPLE", description := "red", price := 5, categoryId := 2,
     stockQuantity := 1, isActive := true }]

end ProductsMemory

end Ecommerce

/-! ## Properties of the reserve handler -/

namespace Ecommerce

open ProductsService

/-- Every run of the reserve handler either leaves the database as it was and
answers without success, or found stock `cur ≥ q > 0` in the first selected row,
committed the decrement together with the movement record, and answers success. -/
theorem reserve_cases (fails : DbCall → Bool) (db : Database) (req : ReserveRequest) :
    ((reserve fails db req).1 = db ∧ (reserve fails db req).2.isSuccess = false) ∨
    ∃ q cur rest, req.quantity = some q ∧ 0 < q ∧
      selectStockForUpdate db.products req.id = cur :: rest ∧ q ≤ cur ∧
      reserve fails db req =
        ({ products := updateStock db.products q req.id,
           stock_movements := insertMovement db.stock_movements req.id q req.orderId },
         .success req.id q req.orderId) := by
  unfold reserve
  cases hq : req.quantity with
  | none => left; simp [ReserveResponse.isSuccess]
  | some q =>
    by_cases hq0 : q = 0 ∨ q ≤ 0
    · left; simp [hq0, ReserveResponse.isSuccess]
    · have hpos : 0 < q := by omega
      simp only [hq0, if_false]
      by_cases hc : fails .connect = true
      · left; simp [hc, ReserveResponse.isSuccess]
      · simp only [hc]
        unfold reserveTransaction
        by_cases hb : fails .begin = true
        · left; simp [hb, ReserveResponse.isSuccess]
        by_cases hs : fails .selectStock = true
        · left; simp [hb, hs, ReserveResponse.isSuccess]
        simp only [hb, hs]
        cases hsel : selectStockForUpdate db.products req.id with
        | nil =>
          left
          by_cases hr : fails .rollback = true <;> simp [hr, ReserveResponse.isSuccess]
        | cons cur rest =>
          by_cases hlt : cur < q
          · left
            by_cases hr : fails .rollback = true <;> simp [hlt, hr, ReserveResponse.isSuccess]
          · by_cases hu : fails .updateStock = true
            · left; simp [hlt, hu, ReserveResponse.isSuccess]
            by_cases hi : fails .insertMovement = true
            · left; simp [hlt, hu, hi, ReserveResponse.isSuccess]
            by_cases hcm : fails .commit = true
            · left; simp [hlt, hu, hi, hcm, ReserveResponse.isSuccess]
            right
            refine ⟨q, cur, rest, rfl, hpos, rfl, by omega, ?_⟩
            simp [hlt, hu, hi, hcm]

/-- The first selected stock is the stock that `GET /products/:id/stock` reports. -/
theorem selectStockForUpdate_head (rows : List ProductRow) (id : Int) :
    (selectStockForUpdate rows id).head? = stockOf rows id := by
  induction rows with
  | nil => rfl
  | cons r rs ih =>
    by_cases h : r.id = id
    · simp [selectStockForUpdate, stockOf, List.filter_cons, List.find?_cons, h]
    · simp [selectStockForUpdate, stockOf, List.filter_cons, List.find?_cons, h]

theorem stockOf_eq_none_iff (rows : List ProductRow) (id : Int) :
    stockOf rows id = none ↔ ∀ r ∈ rows, r.id ≠ id := by
  simp [stockOf, List.find?_eq_none]

theorem stockOf_cons (r : ProductRow) (rs : List ProductRow) (id : Int) :
    stockOf (r :: rs) id = if r.id = id then some r.stock_quantity else stockOf rs id := by
  by_cases h : r.id = id <;> simp [stockOf, List.find?_cons, h]

theorem updateStock_cons (r : ProductRow) (rs : List ProductRow) (q id : Int) :
    updateStock (r :: rs) q id =
      (if r.id = id then { r with stock_quantity := r.stock_quantity - q } else r) ::
        updateStock rs q id := rfl

theorem stockOf_updateStock_same (rows : List ProductRow) (q id : Int) :
    stockOf (updateStock rows q id) id = (stockOf rows id).map (fun s => s - q) := by
  induction rows with
  | nil => rfl
  | cons r rs ih =>
    rw [updateStock_cons, stockOf_cons, stockOf_cons]
    by_cases h : r.id = id
    · simp [h]
    · simp [h, ih]

theorem stockOf_updateStock_other (rows : List ProductRow) (q id p : Int) (hp : p ≠ id) :
    stockOf (updateStock rows q id) p = stockOf rows p := by
  induction rows with
  | nil => rfl
  | cons r rs ih =>
    rw [updateStock_cons, stockOf_cons, stockOf_cons]
    by_cases h : r.id = id
    · have h2 : ¬ r.id = p := by omega
      have h3 : ¬ id = p := by omega
      simp [h, h3, ih]
    · simp [h, ih]

theorem updateStock_ids (rows : List ProductRow) (q id : Int) :
    (updateStock rows q id).map (fun r => r.id) = rows.map (fun r => r.id) := by
  induction rows with
  | nil => rfl
  | cons r rs ih =>
    rw [updateStock_cons, List.map_cons, List.map_cons, ih]
    by_cases h : r.id = id <;> simp [h]

/-- Under the primary key the select for a row's id returns that row's stock only. -/
theorem selectStockForUpdate_of_mem (rows : List ProductRow) (r : ProductRow)
    (hkey : PrimaryKey rows) (hr : r ∈ rows) :
    selectStockForUpdate rows r.id = [r.stock_quantity] := by
  induction rows with
  | nil => simp at hr
  | cons x xs ih =>
    have hk : x.id ∉ xs.map (fun r => r.id) ∧ PrimaryKey xs := by
      simpa [PrimaryKey] using hkey
    rcases List.mem_cons.mp hr with rfl | hmem
    · have hnone : ∀ y ∈ xs, ¬ y.id = r.id := by
        intro y hy hyr
        exact hk.1 (List.mem_map.mpr ⟨y, hy, hyr⟩)
      have hf : xs.filter (fun y => decide (y.id = r.id)) = [] := by
        simp [List.filter_eq_nil_iff]; exact hnone
      simp [selectStockForUpdate, List.filter_cons, hf]
    · have hne : ¬ x.id = r.id := by
        intro hx
        exact hk.1 (List.mem_map.mpr ⟨r, hmem, hx.symm⟩)
      have := ih hk.2 hmem
      simpa [selectStockForUpdate, List.filter_cons, hne] using this

theorem stockOf_of_mem (rows : List ProductRow) (r : ProductRow)
    (hkey : PrimaryKey rows) (hr : r ∈ rows) :
    stockOf rows r.id = some r.stock_quantity := by
  rw [← selectStockForUpdate_head, selectStockForUpdate_of_mem rows r hkey hr]
  rfl

theorem movementSum_insertMovement (log : List StockMovement) (id q : Int)
    (orderId : Option String) (p : Int) :
    movementSum (insertMovement log id q orderId) p =
      movementSum log p - (if id = p then q else 0) := by
  by_cases h : id = p
  · simp [movementSum, insertMovement, List.filter_append, h]; ring
  · simp [movementSum, insertMovement, List.filter_append, h, List.filter_cons]

/-- Effect of one reserve request on the reported stock and the movement sum of
product `p`: both go down by the quantity granted for `p`, which is never
negative and never more than the stock. -/
theorem reserve_step (fails : DbCall → Bool) (db : Database) (req : ReserveRequest) (p : Int) :
    stockOf (reserve fails db req).1.products p =
        (stockOf db.products p).map
          (fun s => s - grantedOf p req.id (reserve fails db req).2) ∧
    movementSum (reserve fails db req).1.stock_movements p =
        movementSum db.stock_movements p - grantedOf p req.id (reserve fails db req).2 ∧
    0 ≤ grantedOf p req.id (reserve fails db req).2 ∧
    (∀ s, stockOf db.products p = some s →
        grantedOf p req.id (reserve fails db req).2 ≤ s ∨
        grantedOf p req.id (reserve fails db req).2 = 0) := by
  rcases reserve_cases fails db req with ⟨h1, h2⟩ | ⟨q, cur, rest, hq, hpos, hsel, hle, heq⟩
  · have hg : (reserve fails db req).2.granted = 0 := by
      cases hr : (reserve fails db req).2 <;> simp_all [ReserveResponse.isSuccess, ReserveResponse.granted]
    have hd : grantedOf p req.id (reserve fails db req).2 = 0 := by
      simp [grantedOf, hg]
    rw [hd, h1]
    refine ⟨by simp, by simp, le_refl _, fun s _ => Or.inr rfl⟩
  · rw [heq]
    have hcur : stockOf db.products req.id = some cur := by
      rw [← selectStockForUpdate_head, hsel]; rfl
    by_cases hp : req.id = p
    · subst hp
      refine ⟨?_, ?_, ?_, ?_⟩
      · simp [grantedOf, ReserveResponse.granted, stockOf_updateStock_same]
      · simp [grantedOf, ReserveResponse.granted, movementSum_insertMovement]
      · simp [grantedOf, ReserveResponse.granted]; omega
      · intro s hs
        rw [hcur] at hs
        left
        simp [grantedOf, ReserveResponse.granted]
        simp at hs; omega
    · have hp2 : p ≠ req.id := fun h => hp h.symm
      refine ⟨?_, ?_, ?_, ?_⟩
      · simp [grantedOf, hp, stockOf_updateStock_other _ _ _ _ hp2]
      · simp [grantedOf, hp, movementSum_insertMovement]
      · simp [grantedOf, hp]
      · intro s _; right; simp [grantedOf, hp]

theorem reserveAll_cons (db : Database) (c : ReserveCall) (cs : List ReserveCall) :
    reserveAll db (c :: cs) =
      ((reserveAll (reserve c.fails db c.req).1 cs).1,
       (reserve c.fails db c.req).2 :: (reserveAll (reserve c.fails db c.req).1 cs).2) := rfl

theorem reserveAll_length (db : Database) (calls : List ReserveCall) :
    (reserveAll db calls).2.length = calls.length := by
  induction calls generalizing db with
  | nil => rfl
  | cons c cs ih => simp [reserveAll_cons, ih]

/-- Effect of a sequence of reserve requests on the reported stock and the
movement sum of product `p`. -/
theorem reserveAll_step (db : Database) (calls : List ReserveCall) (p : Int) :
    stockOf (reserveAll db calls).1.products p =
        (stockOf db.products p).map
          (fun s => s - grantedSum p calls (reserveAll db calls).2) ∧
    movementSum (reserveAll db calls).1.stock_movements p =
        movementSum db.stock_movements p - grantedSum p calls (reserveAll db calls).2 ∧
    0 ≤ grantedSum p calls (reserveAll db calls).2 ∧
    (∀ s, stockOf db.products p = some s → 0 ≤ s →
        grantedSum p calls (reserveAll db calls).2 ≤ s) := by
  induction calls generalizing db with
  | nil => simp [reserveAll, grantedSum]
  | cons c cs ih =>
    obtain ⟨h1, h2, h3, h4⟩ := reserve_step c.fails db c.req p
    obtain ⟨i1, i2, i3, i4⟩ := ih (reserve c.fails db c.req).1
    have hsum : grantedSum p (c :: cs) (reserveAll db (c :: cs)).2 =
        grantedOf p c.req.id (reserve c.fails db c.req).2 +
          grantedSum p cs (reserveAll (reserve c.fails db c.req).1 cs).2 := by
      simp [reserveAll_cons, grantedSum]
    rw [hsum]
    refine ⟨?_, ?_, ?_, ?_⟩
    · rw [reserveAll_cons]
      simp only []
      rw [i1, h1]
      cases stockOf db.products p with
      | none => rfl
      | some s => simp; ring
    · rw [reserveAll_cons]
      simp only []
      rw [i2, h2]; ring
    · omega
    · intro s hs h0
      have hd := h4 s hs
      have hs1 : stockOf (reserve c.fails db c.req).1.products p =
          some (s - grantedOf p c.req.id (reserve c.fails db c.req).2) := by
        rw [h1, hs]; rfl
      have := i4 _ hs1 (by omega)
      omega

theorem reserve_products_ids (fails : DbCall → Bool) (db : Database) (req : ReserveRequest) :
    (reserve fails db req).1.products.map (fun r => r.id) =
      db.products.map (fun r => r.id) := by
  rcases reserve_cases fails db req with ⟨h1, _⟩ | ⟨q, cur, rest, _, _, _, _, heq⟩
  · rw [h1]
  · rw [heq]; exact updateStock_ids _ _ _

theorem reserveAll_products_ids (db : Database) (calls : List ReserveCall) :
    (reserveAll db calls).1.products.map (fun r => r.id) =
      db.products.map (fun r => r.id) := by
  induction calls generalizing db with
  | nil => rfl
  | cons c cs ih => rw [reserveAll_cons]; simp only []; rw [ih, reserve_products_ids]

theorem grantedSum_same_product (p : Int) (calls : List ReserveCall)
    (resps : List ReserveResponse) (hp : ∀ c ∈ calls, c.req.id = p) :
    grantedSum p calls resps = ((calls.zip resps).map (fun x => x.2.granted)).sum := by
  unfold grantedSum
  congr 1
  apply List.map_congr_left
  intro x hx
  have hmem : x.1 ∈ calls := (List.of_mem_zip hx).1
  simp [grantedOf, hp x.1 hmem]

theorem zip_map_snd_of_length (calls : List ReserveCall) (resps : List ReserveResponse)
    (hlen : resps.length = calls.length) :
    (calls.zip resps).map (fun x => x.2.granted) = resps.map ReserveResponse.granted := by
  induction calls generalizing resps with
  | nil =>
    cases resps with
    | nil => rfl
    | cons r rs => simp at hlen
  | cons c cs ih =>
    cases resps with
    | nil => simp at hlen
    | cons r rs =>
      simp only [List.zip_cons_cons, List.map_cons]
      rw [ih rs (by simpa using hlen)]

/-- The answer of the reserve handler when no database call throws and the
quantity is positive, by the stock the stock endpoint reports. -/
theorem reserve_of_noFault (fails : DbCall → Bool) (hf : ∀ k, fails k = false)
    (db : Database) (req : ReserveRequest) (q : Int) (hq : req.quantity = some q)
    (hpos : 0 < q) :
    reserve fails db req =
      match stockOf db.products req.id with
      | none => (db, .notFound)
      | some a =>
        if a < q then (db, .insufficientStock a)
        else ({ products := updateStock db.products q req.id,
                stock_movements := insertMovement db.stock_movements req.id q req.orderId },
              .success req.id q req.orderId) := by
  have hq0 : ¬ (q = 0 ∨ q ≤ 0) := by omega
  rw [← selectStockForUpdate_head]
  unfold reserve reserveTransaction
  simp only [hq, hq0, hf, if_false, Bool.false_eq_true]
  cases hsel : selectStockForUpdate db.products req.id with
  | nil => simp
  | cons cur rest =>
    by_cases hlt : cur < q <;> simp [hlt]

/-! ### The claims on the reserve handler -/

/-- C1: a product whose reported stock is non-negative still has a non-negative
stock after any reserve request, whatever its id, quantity and outcome and
whatever database call fails while it is served, and so after every finite
sequence of reserve requests; under the primary key this holds for every row
carrying the product's id. -/
theorem reserve_stock_nonneg (db : Database) (calls : List ReserveCall) (p s : Int)
    (hs : stockOf db.products p = some s) (h0 : 0 ≤ s) :
    (∀ c : ReserveCall,
      ∃ s1, stockOf (reserve c.fails db c.req).1.products p = some s1 ∧ 0 ≤ s1) ∧
    (∃ s2, stockOf (reserveAll db calls).1.products p = some s2 ∧ 0 ≤ s2) ∧
    (PrimaryKey db.products →
      ∀ r ∈ (reserveAll db calls).1.products, r.id = p → 0 ≤ r.stock_quantity) := by
  have hseq : ∀ cs : List ReserveCall,
      ∃ s2, stockOf (reserveAll db cs).1.products p = some s2 ∧ 0 ≤ s2 := by
    intro cs
    obtain ⟨h1, _, _, h4⟩ := reserveAll_step db cs p
    refine ⟨s - grantedSum p cs (reserveAll db cs).2, ?_, ?_⟩
    · rw [h1, hs]; rfl
    · have := h4 s hs h0; omega
  refine ⟨?_, hseq calls, ?_⟩
  · intro c
    obtain ⟨h1, _, _, h4⟩ := reserve_step c.fails db c.req p
    refine ⟨s - grantedOf p c.req.id (reserve c.fails db c.req).2, ?_, ?_⟩
    · rw [h1, hs]; rfl
    · rcases h4 s hs with h | h <;> omega
  · intro hkey r hr hrp
    obtain ⟨s2, hs2, h2⟩ := hseq calls
    have hkey2 : PrimaryKey (reserveAll db calls).1.products := by
      unfold PrimaryKey
      rw [reserveAll_products_ids]
      exact hkey
    have := stockOf_of_mem _ r hkey2 hr
    rw [hrp, hs2] at this
    have h3 : s2 = r.stock_quantity := by simpa using this
    omega

/-- Witness of C1: product 1 with stock 5 under two requests of 3 units, a request
of 9 units and a request without quantity. -/
theorem reserve_stock_nonneg_witness :
    stockOf sampleDb.products 1 = some 5 ∧
    ((∀ c : ReserveCall,
      ∃ s1, stockOf (reserve c.fails sampleDb c.req).1.products 1 = some s1 ∧ 0 ≤ s1) ∧
    (∃ s2, stockOf (reserveAll sampleDb
        [sampleCall 1 3 "A", sampleCall 1 3 "B", sampleCall 1 9 "C",
         { fails := noFault, req := { id := 1, quantity := none, orderId := none } }]
        ).1.products 1 = some s2 ∧ 0 ≤ s2) ∧
    (PrimaryKey sampleDb.products →
      ∀ r ∈ (reserveAll sampleDb
        [sampleCall 1 3 "A", sampleCall 1 3 "B", sampleCall 1 9 "C",
         { fails := noFault, req := { id := 1, quantity := none, orderId := none } }]
        ).1.products, r.id = 1 → 0 ≤ r.stock_quantity)) :=
  ⟨by decide, reserve_stock_nonneg sampleDb _ 1 5 (by decide) (by decide)⟩

/-- A request for a product with reported stock is never answered "not found",
and while no database call throws a request with positive quantity that is not
granted is answered "Insufficient stock". -/
theorem reserve_refusal (fails : DbCall → Bool) (hf : ∀ k, fails k = false)
    (db : Database) (req : ReserveRequest) (q s : Int) (hq : req.quantity = some q)
    (hpos : 0 < q) (hs : stockOf db.products req.id = some s)
    (hno : (reserve fails db req).2.isSuccess = false) :
    (reserve fails db req).2 = .insufficientStock s ∧ s < q := by
  rw [reserve_of_noFault fails hf db req q hq hpos, hs] at hno ⊢
  by_cases hlt : s < q
  · simp [hlt]
  · simp [hlt, ReserveResponse.isSuccess] at hno

/-- C2: reserve requests on one product are served one transaction after the
other from stock `s`: the quantities granted sum to at most `s`, the stock left
is `s` minus that sum, and every request with a positive quantity that is served
without database failure and is not granted is answered 400 "Insufficient
stock", the available stock reported being less than the quantity asked. -/
theorem reserve_no_oversell (db : Database) (calls : List ReserveCall) (p s : Int)
    (hs : stockOf db.products p = some s) (h0 : 0 ≤ s)
    (hp : ∀ c ∈ calls, c.req.id = p) :
    ((reserveAll db calls).2.map ReserveResponse.granted).sum ≤ s ∧
    stockOf (reserveAll db calls).1.products p =
      some (s - ((reserveAll db calls).2.map ReserveResponse.granted).sum) ∧
    ∀ x ∈ calls.zip (reserveAll db calls).2, (∀ k, x.1.fails k = false) →
      ∀ q, x.1.req.quantity = some q → 0 < q → x.2.isSuccess = false →
        ∃ a, x.2 = .insufficientStock a ∧ a < q ∧
          x.2.status = 400 ∧ x.2.error = some "Insufficient stock" := by
  have hrefuse : ∀ x ∈ calls.zip (reserveAll db calls).2, (∀ k, x.1.fails k = false) →
      ∀ q, x.1.req.quantity = some q → 0 < q → x.2.isSuccess = false →
        ∃ a, x.2 = .insufficientStock a ∧ a < q ∧
          x.2.status = 400 ∧ x.2.error = some "Insufficient stock" := by
    induction calls generalizing db s with
    | nil => intro x hx; simp at hx
    | cons c cs ih =>
      intro x hx hf q hq hpos hno
      rw [reserveAll_cons] at hx
      simp only [List.zip_cons_cons, List.mem_cons] at hx
      have hcp : c.req.id = p := hp c (List.mem_cons_self _ _)
      rcases hx with rfl | hx
      · have hs2 : stockOf db.products c.req.id = some s := by rw [hcp]; exact hs
        obtain ⟨e1, e2⟩ := reserve_refusal c.fails hf db c.req q s hq hpos hs2 hno
        refine ⟨s, e1, e2, ?_, ?_⟩ <;> simp only [] <;> rw [e1] <;> rfl
      · have hstep := reserve_step c.fails db c.req p
        have hs1 : stockOf (reserve c.fails db c.req).1.products p =
            some (s - grantedOf p c.req.id (reserve c.fails db c.req).2) := by
          rw [hstep.1, hs]; rfl
        have hnn : 0 ≤ s - grantedOf p c.req.id (reserve c.fails db c.req).2 := by
          rcases hstep.2.2.2 s hs with h | h <;> omega
        exact ih (reserve c.fails db c.req).1 _ hs1 hnn
          (fun c2 hc2 => hp c2 (List.mem_cons_of_mem _ hc2)) x hx hf q hq hpos hno
  have hsum : grantedSum p calls (reserveAll db calls).2 =
      ((reserveAll db calls).2.map ReserveResponse.granted).sum := by
    rw [grantedSum_same_product p calls _ hp,
      zip_map_snd_of_length calls _ (reserveAll_length db calls)]
  have hall := reserveAll_step db calls p
  refine ⟨?_, ?_, hrefuse⟩
  · rw [← hsum]; exact hall.2.2.2 s hs h0
  · rw [← hsum, hall.1, hs]; rfl

/-- Witness of C2: stock 5 and two requests of 3 units each, for the orders A and
B. In both orders of arrival the first is granted, the stock becomes 2, and the
second is answered "Insufficient stock" (available 2) and leaves the stock at 2. -/
theorem reserve_no_oversell_witness :
    (stockOf sampleDb.products 1 = some 5 ∧
     (reserveAll sampleDb [sampleCall 1 3 "A", sampleCall 1 3 "B"]).2 =
        [.success 1 3 (some "A"), .insufficientStock 2] ∧
     (reserveAll sampleDb [sampleCall 1 3 "B", sampleCall 1 3 "A"]).2 =
        [.success 1 3 (some "B"), .insufficientStock 2] ∧
     stockOf (reserve noFault sampleDb (sampleCall 1 3 "A").req).1.products 1 = some 2 ∧
     stockOf (reserve noFault sampleDb (sampleCall 1 3 "B").req).1.products 1 = some 2 ∧
     stockOf (reserveAll sampleDb [sampleCall 1 3 "A", sampleCall 1 3 "B"]).1.products 1
        = some 2 ∧
     stockOf (reserveAll sampleDb [sampleCall 1 3 "B", sampleCall 1 3 "A"]).1.products 1
        = some 2) ∧
    (((reserveAll sampleDb [sampleCall 1 3 "A", sampleCall 1 3 "B"]).2.map
        ReserveResponse.granted).sum ≤ 5 ∧
    stockOf (reserveAll sampleDb [sampleCall 1 3 "A", sampleCall 1 3 "B"]).1.products 1 =
      some (5 - ((reserveAll sampleDb [sampleCall 1 3 "A", sampleCall 1 3 "B"]).2.map
        ReserveResponse.granted).sum) ∧
    ∀ x ∈ [sampleCall 1 3 "A", sampleCall 1 3 "B"].zip
        (reserveAll sampleDb [sampleCall 1 3 "A", sampleCall 1 3 "B"]).2,
      (∀ k, x.1.fails k = false) →
      ∀ q, x.1.req.quantity = some q → 0 < q → x.2.isSuccess = false →
        ∃ a, x.2 = .insufficientStock a ∧ a < q ∧
          x.2.status = 400 ∧ x.2.error = some "Insufficient stock") :=
  ⟨by decide,
   reserve_no_oversell sampleDb [sampleCall 1 3 "A", sampleCall 1 3 "B"] 1 5
     (by decide) (by decide) (by intro c hc; simp at hc; rcases hc with rfl | rfl <;> rfl)⟩

/-- C3: while no database call throws, a reserve request whose quantity is
missing, zero or negative is answered 400 "Invalid quantity"; with a positive
quantity `q` it is answered 404 "Product not found" exactly when no row has the
id, 400 "Insufficient stock" with `available` the current stock exactly when the
row exists with stock below `q`, and success exactly when the row exists with
stock at least `q`. -/
theorem reserve_answers (db : Database) (req : ReserveRequest) :
    ((req.quantity = none ∨ ∃ q, req.quantity = some q ∧ q ≤ 0) →
      (reserve noFault db req).2 = .invalidQuantity ∧
      (reserve noFault db req).2.status = 400 ∧
      (reserve noFault db req).2.error = some "Invalid quantity") ∧
    (∀ q, req.quantity = some q → 0 < q →
      (((reserve noFault db req).2 = .notFound ∧
          (reserve noFault db req).2.status = 404 ∧
          (reserve noFault db req).2.error = some "Product not found") ↔
        ∀ r ∈ db.products, r.id ≠ req.id) ∧
      (∀ a, ((reserve noFault db req).2 = .insufficientStock a ∧
          (reserve noFault db req).2.status = 400 ∧
          (reserve noFault db req).2.error = some "Insufficient stock") ↔
        (stockOf db.products req.id = some a ∧ a < q)) ∧
      (((reserve noFault db req).2 = .success req.id q req.orderId ∧
          (reserve noFault db req).2.status = 200) ↔
        ∃ a, stockOf db.products req.id = some a ∧ q ≤ a) ∧
      ((reserve noFault db req).2.isSuccess = true ↔
        ∃ a, stockOf db.products req.id = some a ∧ q ≤ a)) := by
  constructor
  · intro h
    have : (reserve noFault db req).2 = .invalidQuantity := by
      unfold reserve
      rcases h with h | ⟨q, hq, hle⟩
      · simp [h]
      · have : q = 0 ∨ q ≤ 0 := Or.inr hle
        simp [hq, this]
    rw [this]
    exact ⟨rfl, rfl, rfl⟩
  · intro q hq hpos
    rw [reserve_of_noFault noFault (fun _ => rfl) db req q hq hpos,
      ← stockOf_eq_none_iff]
    cases hs : stockOf db.products req.id with
    | none => simp [ReserveResponse.isSuccess, ReserveResponse.status, ReserveResponse.error]
    | some a =>
      by_cases hlt : a < q
      · have hnle : ¬ q ≤ a := by omega
        simp [hlt, hnle, ReserveResponse.isSuccess, ReserveResponse.status,
          ReserveResponse.error]
      · have hle : q ≤ a := by omega
        simp [hlt, hle, ReserveResponse.isSuccess, ReserveResponse.status,
          ReserveResponse.error]

/-- Witness of C3: on the sample database a request for 0 units is answered
"Invalid quantity", one for the unknown product 9 "Product not found", one for 3
units of product 2 (stock 1) "Insufficient stock" with `available = 1`, and one
for 5 units of product 1 (stock 5) success. -/
theorem reserve_answers_witness :
    (reserve noFault sampleDb { id := 1, quantity := some 0, orderId := none }).2 =
      .invalidQuantity ∧
    (reserve noFault sampleDb { id := 9, quantity := some 1, orderId := none }).2 =
      .notFound ∧
    (reserve noFault sampleDb { id := 2, quantity := some 3, orderId := none }).2 =
      .insufficientStock 1 ∧
    (reserve noFault sampleDb { id := 1, quantity := some 5, orderId := some "A" }).2 =
      .success 1 5 (some "A") :=
  ⟨((reserve_answers sampleDb { id := 1, quantity := some 0, orderId := none }).1
      (Or.inr ⟨0, rfl, le_refl _⟩)).1,
   (((reserve_answers sampleDb { id := 9, quantity := some 1, orderId := none }).2 1 rfl
      (by decide)).1.mpr (by decide)).1,
   ((((reserve_answers sampleDb { id := 2, quantity := some 3, orderId := none }).2 3 rfl
      (by decide)).2.1 1).mpr ⟨by decide, by decide⟩).1,
   (((reserve_answers sampleDb { id := 1, quantity := some 5, orderId := some "A" }).2 5 rfl
      (by decide)).2.2.1.mpr ⟨5, by decide, by decide⟩).1⟩

theorem updateStock_filter_other (rows : List ProductRow) (q id : Int) :
    (updateStock rows q id).filter (fun r => decide (r.id ≠ id)) =
      rows.filter (fun r => decide (r.id ≠ id)) := by
  induction rows with
  | nil => rfl
  | cons r rs ih =>
    rw [updateStock_cons]
    by_cases h : r.id = id
    · simpa [List.filter_cons, h] using ih
    · simpa [List.filter_cons, h] using ih

/-- C4: a successful reserve of `q` units of product `p` for order `o` lowers the
stock of `p` by exactly `q`, appends exactly the movement record
`(p, -q, 'sale', o)` after the unchanged earlier records, changes no row of
another product, and reports `reservedQuantity = q` and `orderId = o`. -/
theorem reserve_success_effect (fails : DbCall → Bool) (db : Database) (req : ReserveRequest)
    (hok : (reserve fails db req).2.isSuccess = true) :
    ∃ q s, req.quantity = some q ∧ 0 < q ∧
      (reserve fails db req).2 = .success req.id q req.orderId ∧
      stockOf db.products req.id = some s ∧
      stockOf (reserve fails db req).1.products req.id = some (s - q) ∧
      (∀ p, p ≠ req.id →
        stockOf (reserve fails db req).1.products p = stockOf db.products p) ∧
      (reserve fails db req).1.products.filter (fun r => decide (r.id ≠ req.id)) =
        db.products.filter (fun r => decide (r.id ≠ req.id)) ∧
      (reserve fails db req).1.stock_movements =
        db.stock_movements ++
          [{ product_id := req.id, quantity := -q, movement_type := "sale",
             reference_id := req.orderId, note := reservedNote req.orderId }] := by
  rcases reserve_cases fails db req with ⟨_, h2⟩ | ⟨q, cur, rest, hq, hpos, hsel, hle, heq⟩
  · rw [h2] at hok; exact absurd hok (by decide)
  · have hcur : stockOf db.products req.id = some cur := by
      rw [← selectStockForUpdate_head, hsel]; rfl
    refine ⟨q, cur, hq, hpos, by rw [heq], hcur, ?_, ?_, ?_, ?_⟩
    · rw [heq]; simp [stockOf_updateStock_same, hcur]
    · intro p hp; rw [heq]; exact stockOf_updateStock_other _ _ _ _ hp
    · rw [heq]; exact updateStock_filter_other _ _ _
    · rw [heq]; rfl

/-- Witness of C4: 3 units of product 1 (stock 5) reserved for order A. -/
theorem reserve_success_effect_witness :
    (reserve noFault sampleDb (sampleCall 1 3 "A").req).2.isSuccess = true ∧
    ∃ q s, (sampleCall 1 3 "A").req.quantity = some q ∧ 0 < q ∧
      (reserve noFault sampleDb (sampleCall 1 3 "A").req).2 =
        .success (sampleCall 1 3 "A").req.id q (sampleCall 1 3 "A").req.orderId ∧
      stockOf sampleDb.products (sampleCall 1 3 "A").req.id = some s ∧
      stockOf (reserve noFault sampleDb (sampleCall 1 3 "A").req).1.products
        (sampleCall 1 3 "A").req.id = some (s - q) ∧
      (∀ p, p ≠ (sampleCall 1 3 "A").req.id →
        stockOf (reserve noFault sampleDb (sampleCall 1 3 "A").req).1.products p =
          stockOf sampleDb.products p) ∧
      (reserve noFault sampleDb (sampleCall 1 3 "A").req).1.products.filter
          (fun r => decide (r.id ≠ (sampleCall 1 3 "A").req.id)) =
        sampleDb.products.filter (fun r => decide (r.id ≠ (sampleCall 1 3 "A").req.id)) ∧
      (reserve noFault sampleDb (sampleCall 1 3 "A").req).1.stock_movements =
        sampleDb.stock_movements ++
          [{ product_id := (sampleCall 1 3 "A").req.id, quantity := -q,
             movement_type := "sale",
             reference_id := (sampleCall 1 3 "A").req.orderId,
             note := reservedNote (sampleCall 1 3 "A").req.orderId }] :=
  ⟨by decide, reserve_success_effect noFault sampleDb (sampleCall 1 3 "A").req (by decide)⟩

/-- C5: a reserve request that is not answered with success (invalid quantity,
product not found, insufficient stock, or a failed database call) leaves both
tables exactly as they were; in every run either nothing changes or the stock
decrement and the movement record are committed together. -/
theorem reserve_failure_no_effect (fails : DbCall → Bool) (db : Database)
    (req : ReserveRequest) :
    ((reserve fails db req).2.isSuccess = false → (reserve fails db req).1 = db) ∧
    ((reserve fails db req).1 = db ∨
      ∃ q s, 0 < q ∧ stockOf db.products req.id = some s ∧
        stockOf (reserve fails db req).1.products req.id = some (s - q) ∧
        (reserve fails db req).1.stock_movements =
          db.stock_movements ++
            [{ product_id := req.id, quantity := -q, movement_type := "sale",
               reference_id := req.orderId, note := reservedNote req.orderId }]) := by
  rcases reserve_cases fails db req with ⟨h1, _⟩ | ⟨q, cur, rest, hq, hpos, hsel, hle, heq⟩
  · exact ⟨fun _ => h1, Or.inl h1⟩
  · have hcur : stockOf db.products req.id = some cur := by
      rw [← selectStockForUpdate_head, hsel]; rfl
    refine ⟨?_, Or.inr ⟨q, cur, hpos, hcur, ?_, ?_⟩⟩
    · intro h; rw [heq] at h; simp [ReserveResponse.isSuccess] at h
    · rw [heq]; simp [stockOf_updateStock_same, hcur]
    · rw [heq]; rfl

/-- Witness of C5: the `INSERT` of the movement record throws after the `UPDATE`
of the stock; the request is answered 500 and both tables are as before. -/
theorem reserve_failure_no_effect_witness :
    (reserve (fun c => decide (c = DbCall.insertMovement)) sampleDb
      (sampleCall 1 3 "A").req).2 = .internalError ∧
    (reserve (fun c => decide (c = DbCall.insertMovement)) sampleDb
      (sampleCall 1 3 "A").req).1 = sampleDb :=
  ⟨by decide,
   (reserve_failure_no_effect (fun c => decide (c = DbCall.insertMovement)) sampleDb
      (sampleCall 1 3 "A").req).1 (by decide)⟩

/-- C6: from a product with initial stock `s0` and no movement record, after
every finite sequence of reserve requests, granted or rejected, the quantity
deltas of the product's movement records sum to its current stock minus `s0`. -/
theorem movement_sum_reconciles (db : Database) (calls : List ReserveCall) (p s0 : Int)
    (hs : stockOf db.products p = some s0)
    (hlog : ∀ m ∈ db.stock_movements, m.product_id ≠ p) :
    ∃ s, stockOf (reserveAll db calls).1.products p = some s ∧
      movementSum (reserveAll db calls).1.stock_movements p = s - s0 := by
  have hall := reserveAll_step db calls p
  have h0 : movementSum db.stock_movements p = 0 := by
    have : db.stock_movements.filter (fun m => decide (m.product_id = p)) = [] := by
      simp [List.filter_eq_nil_iff]; exact hlog
    simp [movementSum, this]
  refine ⟨s0 - grantedSum p calls (reserveAll db calls).2, ?_, ?_⟩
  · rw [hall.1, hs]; rfl
  · rw [hall.2.1, h0]; ring

/-- Witness of C6: product 1 with initial stock 5, a granted request of 3 units,
a rejected one of 3 units and a granted one of 2 units: the log sums to -5. -/
theorem movement_sum_reconciles_witness :
    (stockOf sampleDb.products 1 = some 5 ∧
     movementSum (reserveAll sampleDb
        [sampleCall 1 3 "A", sampleCall 1 3 "B", sampleCall 1 2 "C"]).1.stock_movements 1
        = -5) ∧
    ∃ s, stockOf (reserveAll sampleDb
        [sampleCall 1 3 "A", sampleCall 1 3 "B", sampleCall 1 2 "C"]).1.products 1 = some s ∧
      movementSum (reserveAll sampleDb
        [sampleCall 1 3 "A", sampleCall 1 3 "B", sampleCall 1 2 "C"]).1.stock_movements 1
        = s - 5 :=
  ⟨by decide, movement_sum_reconciles sampleDb _ 1 5 (by decide) (by decide)⟩

/-! ## Properties of the checkout of the Firestore orders service -/

open OrdersFirestore

/-- The runs of the Firestore checkout: rejected before any call; aborted by the
first loop; failed when writing the order; or past the write of the order, where
the order stays stored whatever the reserve calls return. -/
theorem createOrder_cases (env : Env) (w : World) (user : User) (body : OrderRequest) :
    ((createOrder env w user body).world = w ∧ (createOrder env w user body).calls = [] ∧
      (createOrder env w user body).reserved = [] ∧
      ((createOrder env w user body).response = .invalidShippingAddress ∨
       (createOrder env w user body).response = .cartEmpty ∨
       (createOrder env w user body).response = .internalError)) ∨
    ∃ shippingAddress cartData,
      body.shippingAddress = some shippingAddress ∧
      truthy shippingAddress.street = true ∧ truthy shippingAddress.city = true ∧
      env.cartGetFails = false ∧
      getCart w.carts user.userId = some cartData ∧ cartData.items ≠ [] ∧
      ((∃ response,
          (validateItems env 0 w.db [] [] 0 cartData.items).result = .error response ∧
          createOrder env w user body =
            { world := { w with db := (validateItems env 0 w.db [] [] 0 cartData.items).db },
              response := response,
              calls := (validateItems env 0 w.db [] [] 0 cartData.items).calls,
              reserved := [] }) ∨
       (∃ orderItems totalAmount,
          (validateItems env 0 w.db [] [] 0 cartData.items).result =
            .ok (orderItems, totalAmount) ∧
          ((env.addFails = true ∧
            createOrder env w user body =
              { world :=
                  { w with db := (validateItems env 0 w.db [] [] 0 cartData.items).db },
                response := .internalError,
                calls := (validateItems env 0 w.db [] [] 0 cartData.items).calls,
                reserved := [] }) ∨
           (env.addFails = false ∧
            (createOrder env w user body).world.db =
              (reserveItems env env.newId 0
                (validateItems env 0 w.db [] [] 0 cartData.items).db orderItems).db ∧
            (createOrder env w user body).world.orders =
              w.orders ++ [(env.newId,
                { userId := user.userId, items := orderItems,
                  totalAmount := toFixed2 totalAmount, shippingAddress := shippingAddress,
                  paymentMethod := body.paymentMethod.getD "cod", status := "pending" })] ∧
            (createOrder env w user body).calls =
              (validateItems env 0 w.db [] [] 0 cartData.items).calls ++
              (reserveItems env env.newId 0
                (validateItems env 0 w.db [] [] 0 cartData.items).db orderItems).calls ∧
            (createOrder env w user body).reserved =
              (reserveItems env env.newId 0
                (validateItems env 0 w.db [] [] 0 cartData.items).db orderItems).results ∧
            ((env.deleteFails = true ∧
              (createOrder env w user body).response = .internalError ∧
              (createOrder env w user body).world.carts = w.carts) ∨
             (env.deleteFails = false ∧
              (createOrder env w user body).response = .created env.newId
                { userId := user.userId, items := orderItems,
                  totalAmount := toFixed2 totalAmount, shippingAddress := shippingAddress,
                  paymentMethod := body.paymentMethod.getD "cod", status := "pending" } ∧
              (createOrder env w user body).world.carts =
                deleteCart w.carts user.userId)))))) := by
  unfold createOrder
  cases hb : body.shippingAddress with
  | none => left; simp
  | some shippingAddress =>
    by_cases hst : truthy shippingAddress.street = true
    swap
    · left; simp [hst]
    by_cases hci : truthy shippingAddress.city = true
    swap
    · left; simp [hci]
    by_cases hcg : env.cartGetFails = true
    · left; simp [hst, hci, hcg]
    cases hcart : getCart w.carts user.userId with
    | none => left; simp [hst, hci, hcg]
    | some cartData =>
      by_cases hemp : cartData.items.length = 0
      · left; simp [hst, hci, hcg, hemp]
      right
      refine ⟨shippingAddress, cartData, rfl, hst, hci, by simpa using hcg, rfl, ?_, ?_⟩
      · intro h; apply hemp; simp [h]
      · simp only [hst, hci, hcg, hemp, Bool.not_true, Bool.or_self, Bool.false_eq_true,
          if_false]
        cases hv : (validateItems env 0 w.db [] [] 0 cartData.items).result with
        | error response => left; exact ⟨response, rfl, rfl⟩
        | ok pair =>
          obtain ⟨orderItems, totalAmount⟩ := pair
          right
          refine ⟨orderItems, totalAmount, rfl, ?_⟩
          by_cases hadd : env.addFails = true
          · left; simp [hadd]
          · right
            by_cases hdel : env.deleteFails = true
            · simp [hadd, hdel]
            · simp [hadd, hdel]

namespace OrdersFirestore

theorem eraseViews_incrementViewCount (rows : List ProductRow) (id : Int) :
    eraseViews (incrementViewCount rows id) = eraseViews rows := by
  induction rows with
  | nil => rfl
  | cons r rs ih =>
    have ih2 : List.map (fun r : ProductRow => { r with view_count := 0 })
        (incrementViewCount rs id) =
        List.map (fun r : ProductRow => { r with view_count := 0 }) rs := ih
    by_cases h : r.id = id <;>
      simp [eraseViews, incrementViewCount, h] <;>
      simpa [incrementViewCount] using ih2

theorem stockOf_eraseViews (rows : List ProductRow) (p : Int) :
    stockOf (eraseViews rows) p = stockOf rows p := by
  induction rows with
  | nil => rfl
  | cons r rs ih =>
    have hc : eraseViews (r :: rs) = { r with view_count := 0 } :: eraseViews rs := rfl
    rw [hc, stockOf_cons, stockOf_cons, ih]

theorem stockOf_congr_eraseViews (rows1 rows2 : List ProductRow) (p : Int)
    (h : eraseViews rows1 = eraseViews rows2) : stockOf rows1 p = stockOf rows2 p := by
  rw [← stockOf_eraseViews rows1, ← stockOf_eraseViews rows2, h]

theorem getProduct_db (fails : Bool) (db : Database) (id : Int) :
    eraseViews (getProduct fails db id).1.products = eraseViews db.products ∧
    (getProduct fails db id).1.stock_movements = db.stock_movements := by
  unfold getProduct
  by_cases hf : fails = true
  · simp [hf]
  · simp only [hf, if_false]
    cases db.products.filter (fun r => decide (r.id = id) && r.is_active) with
    | nil => simp
    | cons row rest => simp [eraseViews_incrementViewCount]

/-- The first loop changes nothing but view counters and makes no reserve call. -/
theorem validateItems_inv (env : Env) (items : List CartItem) :
    ∀ (i : Nat) (db : Database) (calls : List Call) (orderItems : List OrderItem)
      (total : Rat),
      eraseViews (validateItems env i db calls orderItems total items).db.products =
        eraseViews db.products ∧
      (validateItems env i db calls orderItems total items).db.stock_movements =
        db.stock_movements ∧
      ((∀ c ∈ calls, c.isReserve = false) →
        ∀ c ∈ (validateItems env i db calls orderItems total items).calls,
          c.isReserve = false) := by
  induction items with
  | nil => intro i db calls orderItems total; simp [validateItems]
  | cons cartItem rest ih =>
    intro i db calls orderItems total
    have hdb := getProduct_db (env.fetchFails i) db cartItem.productId
    rw [validateItems]
    rcases hfp : fetchProduct (env.fetchFails i) db cartItem.productId with ⟨db1, _ | product⟩
    · have e1 : (getProduct (env.fetchFails i) db cartItem.productId).1 = db1 := by
        have := congrArg Prod.fst hfp; simpa [fetchProduct] using this
      rw [e1] at hdb
      refine ⟨hdb.1, hdb.2, ?_⟩
      intro hc c hmem
      simp only [List.mem_append, List.mem_singleton] at hmem
      rcases hmem with hmem | rfl
      · exact hc c hmem
      · rfl
    · have e1 : (getProduct (env.fetchFails i) db cartItem.productId).1 = db1 := by
        have := congrArg Prod.fst hfp; simpa [fetchProduct] using this
      rw [e1] at hdb
      have hcalls : (∀ c ∈ calls, c.isReserve = false) →
          ∀ c ∈ calls ++ [Call.fetchProduct cartItem.productId,
            Call.checkStock cartItem.productId cartItem.quantity], c.isReserve = false := by
        intro hc c hmem
        simp only [List.mem_append, List.mem_cons, List.mem_singleton, List.not_mem_nil,
          or_false] at hmem
        rcases hmem with hmem | rfl | rfl
        · exact hc c hmem
        · rfl
        · rfl
      by_cases hcs : checkStock (env.stockFails i) db1 cartItem.productId cartItem.quantity = true
      · simp only [hcs, if_true]
        obtain ⟨i1, i2, i3⟩ := ih (i + 1) db1
          (calls ++ [Call.fetchProduct cartItem.productId,
            Call.checkStock cartItem.productId cartItem.quantity])
          (orderItems ++ [{ productId := cartItem.productId, productName := product.name,
                            quantity := cartItem.quantity, price := product.price,
                            subtotal := product.price * cartItem.quantity }])
          (total + product.price * cartItem.quantity)
        exact ⟨i1.trans hdb.1, i2.trans hdb.2, fun hc => i3 (hcalls hc)⟩
      · simp only [hcs]
        exact ⟨hdb.1, hdb.2, hcalls⟩

/-- The answer with which the first loop aborts is one of its two 400 answers. -/
theorem validateItems_error_answer (env : Env) (items : List CartItem) :
    ∀ (i : Nat) (db : Database) (calls : List Call) (orderItems : List OrderItem)
      (total : Rat) (response : CheckoutResponse),
      (validateItems env i db calls orderItems total items).result = .error response →
      (∃ productId, response = .productNotFound productId) ∨
      (∃ name, response = .insufficientStock name) := by
  induction items with
  | nil => intro i db calls orderItems total response h; simp [validateItems] at h
  | cons cartItem rest ih =>
    intro i db calls orderItems total response h
    rw [validateItems] at h
    rcases hfp : fetchProduct (env.fetchFails i) db cartItem.productId with ⟨db1, _ | product⟩
    · rw [hfp] at h
      simp only [Except.error.injEq] at h
      exact Or.inl ⟨_, h.symm⟩
    · rw [hfp] at h
      by_cases hcs : checkStock (env.stockFails i) db1 cartItem.productId cartItem.quantity = true
      · simp only [hcs, if_true] at h
        exact ih _ _ _ _ _ _ h
      · simp only [hcs] at h
        simp only [Bool.false_eq_true, if_false, Except.error.injEq] at h
        exact Or.inr ⟨_, h.symm⟩

theorem mem_of_eraseViews_eq (rows1 rows2 : List ProductRow)
    (h : eraseViews rows1 = eraseViews rows2) (row : ProductRow) (hrow : row ∈ rows1) :
    ∃ row2 ∈ rows2, row2.id = row.id ∧ row2.name = row.name ∧
      row2.is_active = row.is_active := by
  have h1 : ({ row with view_count := 0 } : ProductRow) ∈ eraseViews rows1 :=
    List.mem_map.mpr ⟨row, hrow, rfl⟩
  rw [h] at h1
  obtain ⟨row2, hmem, heq⟩ := List.mem_map.mp h1
  simp only [ProductRow.mk.injEq] at heq
  exact ⟨row2, hmem, heq.1, heq.2.1, heq.2.2.2.2.2.1⟩

theorem noActiveProduct_congr (rows1 rows2 : List ProductRow)
    (h : eraseViews rows1 = eraseViews rows2) (id : Int)
    (hno : NoActiveProduct rows1 id) : NoActiveProduct rows2 id := by
  intro r hr hid
  obtain ⟨r1, hmem, e1, _, e3⟩ := mem_of_eraseViews_eq rows2 rows1 h.symm r hr
  rw [← e3]
  exact hno r1 hmem (by rw [e1, hid])

theorem stockBelow_congr (rows1 rows2 : List ProductRow)
    (h : eraseViews rows1 = eraseViews rows2) (id q : Int)
    (hb : StockBelow rows1 id q) : StockBelow rows2 id q := by
  intro a ha
  exact hb a (by rw [stockOf_congr_eraseViews rows1 rows2 id h]; exact ha)

theorem getProduct_none_of_noActive (fails : Bool) (db : Database) (id : Int)
    (hno : NoActiveProduct db.products id) : (getProduct fails db id).2 = none := by
  unfold getProduct
  by_cases hf : fails = true
  · simp [hf]
  · have hnil : db.products.filter (fun r => decide (r.id = id) && r.is_active) = [] := by
      rw [List.filter_eq_nil_iff]
      intro r hr
      by_cases hid : r.id = id
      · simp [hid, hno r hr hid]
      · simp [hid]
    simp [hf, hnil]

theorem getProduct_none (fails : Bool) (db : Database) (id : Int)
    (h : (getProduct fails db id).2 = none) :
    fails = true ∨ NoActiveProduct db.products id := by
  unfold getProduct at h
  by_cases hf : fails = true
  · exact Or.inl hf
  · right
    simp only [hf, if_false] at h
    cases hfl : db.products.filter (fun r => decide (r.id = id) && r.is_active) with
    | nil =>
      intro r hr hid
      have := List.filter_eq_nil_iff.mp hfl r hr
      simpa [hid] using this
    | cons row rest => rw [hfl] at h; simp at h

theorem getProduct_some (fails : Bool) (db : Database) (id : Int) (row : ProductRow)
    (h : (getProduct fails db id).2 = some row) :
    row ∈ db.products ∧ row.id = id ∧ row.is_active = true := by
  unfold getProduct at h
  by_cases hf : fails = true
  · simp [hf] at h
  · simp only [hf, if_false] at h
    cases hfl : db.products.filter (fun r => decide (r.id = id) && r.is_active) with
    | nil => rw [hfl] at h; simp at h
    | cons row1 rest =>
      rw [hfl] at h
      simp at h
      subst h
      have hmem : row1 ∈ db.products.filter (fun r => decide (r.id = id) && r.is_active) := by
        rw [hfl]; exact List.mem_cons_self _ _
      have := List.mem_filter.mp hmem
      simpa using this

theorem checkStock_eq (fails : Bool) (db : Database) (id q : Int) :
    checkStock fails db id q =
      (!fails && (match stockOf db.products id with
        | some a => decide (a ≥ q)
        | none => false)) := by
  rw [← selectStockForUpdate_head]
  unfold checkStock getStock selectStockForUpdate
  by_cases hf : fails = true
  · simp [hf]
  · simp only [hf, if_false]
    cases db.products.filter (fun r => decide (r.id = id)) with
    | nil => simp
    | cons row rest => simp

theorem checkStock_false_of_stockBelow (fails : Bool) (db : Database) (id q : Int)
    (hb : StockBelow db.products id q) : checkStock fails db id q = false := by
  rw [checkStock_eq]
  cases hs : stockOf db.products id with
  | none => simp
  | some a =>
    have := hb a hs
    have hna : ¬ q ≤ a := by omega
    simp [hna]

theorem checkStock_false (fails : Bool) (db : Database) (id q : Int)
    (h : checkStock fails db id q = false) :
    fails = true ∨ StockBelow db.products id q := by
  rw [checkStock_eq] at h
  by_cases hf : fails = true
  · exact Or.inl hf
  · right
    intro a ha
    rw [ha] at h
    simp [hf] at h
    exact h

/-- The first loop aborts exactly with an answer that names a line of the cart:
`Product <id> not found` for a line whose lookup returned nothing, `Insufficient
stock for <name>` with the name of the product of a line whose stock check
failed. It aborts whenever a line has no active product or too little stock. -/
theorem validateItems_abort (env : Env) (items : List CartItem) :
    ∀ (i : Nat) (db : Database) (calls : List Call) (orderItems : List OrderItem)
      (total : Rat),
      (∀ response,
        (validateItems env i db calls orderItems total items).result = .error response →
        ∃ l ∈ items,
          (response = .productNotFound l.productId ∧
            (NoActiveProduct db.products l.productId ∨ ∃ j, env.fetchFails j = true)) ∨
          (∃ row ∈ db.products, row.id = l.productId ∧ row.is_active = true ∧
            response = .insufficientStock row.name ∧
            (StockBelow db.products l.productId l.quantity ∨
              ∃ j, env.stockFails j = true))) ∧
      ((∃ k l, items[k]? = some l ∧
          (NoActiveProduct db.products l.productId ∨
           StockBelow db.products l.productId l.quantity ∨
           env.fetchFails (i + k) = true ∨ env.stockFails (i + k) = true)) →
        ∃ response,
          (validateItems env i db calls orderItems total items).result =
            .error response) := by
  induction items with
  | nil =>
    intro i db calls orderItems total
    constructor
    · intro response h; simp [validateItems] at h
    · rintro ⟨k, l, hl, _⟩; simp at hl
  | cons cartItem rest ih =>
    intro i db calls orderItems total
    have hdb := getProduct_db (env.fetchFails i) db cartItem.productId
    rw [validateItems]
    rcases hfp : fetchProduct (env.fetchFails i) db cartItem.productId with ⟨db1, _ | product⟩
    · have e2 : (getProduct (env.fetchFails i) db cartItem.productId).2 = none := by
        have := congrArg Prod.snd hfp; simpa [fetchProduct] using this
      constructor
      · intro response h
        simp only [Except.error.injEq] at h
        refine ⟨cartItem, List.mem_cons_self _ _, Or.inl ⟨h.symm, ?_⟩⟩
        rcases getProduct_none _ _ _ e2 with hf | hno
        · exact Or.inr ⟨i, hf⟩
        · exact Or.inl hno
      · intro _; exact ⟨_, rfl⟩
    · have e1 : (getProduct (env.fetchFails i) db cartItem.productId).1 = db1 := by
        have := congrArg Prod.fst hfp; simpa [fetchProduct] using this
      have e2 : (getProduct (env.fetchFails i) db cartItem.productId).2 = some product := by
        have := congrArg Prod.snd hfp; simpa [fetchProduct] using this
      rw [e1] at hdb
      obtain ⟨hpm, hpid, hpact⟩ := getProduct_some _ _ _ _ e2
      by_cases hcs : checkStock (env.stockFails i) db1 cartItem.productId cartItem.quantity = true
      · simp only [hcs, if_true]
        obtain ⟨ihA, ihB⟩ := ih (i + 1) db1
          (calls ++ [Call.fetchProduct cartItem.productId,
            Call.checkStock cartItem.productId cartItem.quantity])
          (orderItems ++ [{ productId := cartItem.productId, productName := product.name,
                            quantity := cartItem.quantity, price := product.price,
                            subtotal := product.price * cartItem.quantity }])
          (total + product.price * cartItem.quantity)
        constructor
        · intro response h
          obtain ⟨l, hl, hcase⟩ := ihA response h
          refine ⟨l, List.mem_cons_of_mem _ hl, ?_⟩
          rcases hcase with ⟨hr, hwhy⟩ | ⟨row, hrow, hid, hact, hr, hwhy⟩
          · left
            refine ⟨hr, ?_⟩
            rcases hwhy with hno | hj
            · exact Or.inl (noActiveProduct_congr _ _ hdb.1 _ hno)
            · exact Or.inr hj
          · right
            obtain ⟨row2, hmem2, a1, a2, a3⟩ := mem_of_eraseViews_eq _ _ hdb.1 row hrow
            refine ⟨row2, hmem2, by rw [a1, hid], by rw [a3, hact], by rw [a2, hr], ?_⟩
            rcases hwhy with hb | hj
            · exact Or.inl (stockBelow_congr _ _ hdb.1 _ _ hb)
            · exact Or.inr hj
        · rintro ⟨k, l, hl, hbad⟩
          apply ihB
          cases k with
          | zero =>
            exfalso
            have hl0 : cartItem = l := by simpa using hl
            subst hl0
            rcases hbad with hno | hb | hff | hsf
            · have := getProduct_none_of_noActive (env.fetchFails i) db cartItem.productId hno
              rw [e2] at this; simp at this
            · have := checkStock_false_of_stockBelow (env.stockFails i) db1
                cartItem.productId cartItem.quantity (stockBelow_congr _ _ hdb.1.symm _ _ hb)
              rw [hcs] at this; simp at this
            · have hff2 : env.fetchFails i = true := by simpa using hff
              have : (getProduct (env.fetchFails i) db cartItem.productId).2 = none := by
                simp [getProduct, hff2]
              rw [e2] at this; simp at this
            · have hsf2 : env.stockFails i = true := by simpa using hsf
              have : checkStock (env.stockFails i) db1 cartItem.productId
                  cartItem.quantity = false := by
                simp [checkStock, getStock, hsf2]
              rw [hcs] at this; simp at this
          | succ k1 =>
            have hl1 : rest[k1]? = some l := by simpa using hl
            have hidx : i + (k1 + 1) = i + 1 + k1 := by omega
            rw [hidx] at hbad
            refine ⟨k1, l, hl1, ?_⟩
            rcases hbad with hno | hb | hff | hsf
            · exact Or.inl (noActiveProduct_congr _ _ hdb.1.symm _ hno)
            · exact Or.inr (Or.inl (stockBelow_congr _ _ hdb.1.symm _ _ hb))
            · exact Or.inr (Or.inr (Or.inl hff))
            · exact Or.inr (Or.inr (Or.inr hsf))
      · simp only [hcs]
        constructor
        · intro response h
          simp only [Bool.false_eq_true, if_false, Except.error.injEq] at h
          refine ⟨cartItem, List.mem_cons_self _ _, Or.inr ⟨product, hpm, hpid, hpact,
            h.symm, ?_⟩⟩
          have hcs2 : checkStock (env.stockFails i) db1 cartItem.productId
              cartItem.quantity = false := by simpa using hcs
          rcases checkStock_false _ _ _ _ hcs2 with hf | hb
          · exact Or.inr ⟨i, hf⟩
          · exact Or.inl (stockBelow_congr _ _ hdb.1 _ _ hb)
        · intro _; exact ⟨.insufficientStock product.name, by simp⟩

theorem reserveItems_cons (env : Env) (orderId : String) (i : Nat) (db : Database)
    (item : OrderItem) (rest : List OrderItem) :
    reserveItems env orderId i db (item :: rest) =
      { db := (reserveItems env orderId (i + 1)
            (reserveStock (env.reserveFails i) (reserveAll db (env.others i)).1
              item.productId item.quantity orderId).1 rest).db,
        calls := .reserveStock item.productId item.quantity orderId ::
          (reserveItems env orderId (i + 1)
            (reserveStock (env.reserveFails i) (reserveAll db (env.others i)).1
              item.productId item.quantity orderId).1 rest).calls,
        results :=
          (reserveStock (env.reserveFails i) (reserveAll db (env.others i)).1
              item.productId item.quantity orderId).2 ::
          (reserveItems env orderId (i + 1)
            (reserveStock (env.reserveFails i) (reserveAll db (env.others i)).1
              item.productId item.quantity orderId).1 rest).results } := rfl

theorem reserveItems_length (env : Env) (orderId : String) (items : List OrderItem) :
    ∀ (i : Nat) (db : Database),
      (reserveItems env orderId i db items).results.length = items.length := by
  induction items with
  | nil => intro i db; rfl
  | cons item rest ih => intro i db; rw [reserveItems_cons]; simp [ih]

theorem reserveItems_calls (env : Env) (orderId : String) (items : List OrderItem) :
    ∀ (i : Nat) (db : Database),
      (reserveItems env orderId i db items).calls =
        items.map (fun item => Call.reserveStock item.productId item.quantity orderId) := by
  induction items with
  | nil => intro i db; rfl
  | cons item rest ih => intro i db; rw [reserveItems_cons]; simp [ih]

/-- The quantity of product `p` that the helper `reserveStock` takes from the
stock: the quantity asked when it returns `true` for product `p`, nothing
otherwise. -/
theorem reserveStock_step (fails : DbCall → Bool) (db : Database) (productId quantity : Int)
    (orderId : String) (p : Int) :
    stockOf (reserveStock fails db productId quantity orderId).1.products p =
      (stockOf db.products p).map (fun s => s -
        (if (reserveStock fails db productId quantity orderId).2 = true ∧ productId = p
          then quantity else 0)) ∧
    (∀ s, stockOf db.products p = some s →
      ∃ s1, stockOf (reserveStock fails db productId quantity orderId).1.products p =
        some s1 ∧ s1 ≤ s) := by
  have hstep := reserve_step fails db
    { id := productId, quantity := some quantity, orderId := some orderId } p
  have hg : grantedOf p productId (reserve fails db
      { id := productId, quantity := some quantity, orderId := some orderId }).2 =
      (if (reserveStock fails db productId quantity orderId).2 = true ∧ productId = p
        then quantity else 0) := by
    unfold reserveStock grantedOf
    rcases reserve_cases fails db
      { id := productId, quantity := some quantity, orderId := some orderId } with
      ⟨_, h2⟩ | ⟨q, cur, rest, hq, _, _, _, heq⟩
    · have hgr : (reserve fails db
          { id := productId, quantity := some quantity, orderId := some orderId }).2.granted
          = 0 := by
        cases hr : (reserve fails db
          { id := productId, quantity := some quantity, orderId := some orderId }).2 <;>
          simp_all [ReserveResponse.isSuccess, ReserveResponse.granted]
      simp [h2, hgr]
    · have hqq : quantity = q := by simpa using hq
      subst hqq
      rw [heq]
      simp [ReserveResponse.isSuccess, ReserveResponse.granted]
  simp only [hg] at hstep
  have hfst : (reserveStock fails db productId quantity orderId).1 =
      (reserve fails db
        { id := productId, quantity := some quantity, orderId := some orderId }).1 := rfl
  rw [hfst]
  refine ⟨hstep.1, ?_⟩
  intro s hs
  refine ⟨s - (if (reserveStock fails db productId quantity orderId).2 = true ∧
      productId = p then quantity else 0), by rw [hstep.1, hs]; rfl, ?_⟩
  have := hstep.2.2.1
  omega

theorem reserveAll_stock_le (db : Database) (calls : List ReserveCall) (p s : Int)
    (hs : stockOf db.products p = some s) :
    ∃ s1, stockOf (reserveAll db calls).1.products p = some s1 ∧ s1 ≤ s := by
  have hall := reserveAll_step db calls p
  refine ⟨s - grantedSum p calls (reserveAll db calls).2, by rw [hall.1, hs]; rfl, ?_⟩
  have := hall.2.2.1
  omega

/-- The second loop never raises the stock of a product. -/
theorem reserveItems_stock_le (env : Env) (orderId : String) (items : List OrderItem) :
    ∀ (i : Nat) (db : Database) (p s : Int), stockOf db.products p = some s →
      ∃ s1, stockOf (reserveItems env orderId i db items).db.products p = some s1 ∧
        s1 ≤ s := by
  induction items with
  | nil => intro i db p s hs; exact ⟨s, hs, le_refl _⟩
  | cons item rest ih =>
    intro i db p s hs
    rw [reserveItems_cons]
    obtain ⟨s1, h1, l1⟩ := reserveAll_stock_le db (env.others i) p s hs
    obtain ⟨s2, h2, l2⟩ := (reserveStock_step (env.reserveFails i)
      (reserveAll db (env.others i)).1 item.productId item.quantity orderId p).2 s1 h1
    obtain ⟨s3, h3, l3⟩ := ih (i + 1) _ p s2 h2
    exact ⟨s3, h3, by omega⟩

/-- Without other clients the second loop lowers the stock of every product by
exactly the quantities of its lines whose reserve call returned `true`. -/
theorem reserveItems_stock_exact (env : Env) (orderId : String) (items : List OrderItem)
    (hq : ∀ i, env.others i = []) :
    ∀ (i : Nat) (db : Database) (p : Int),
      stockOf (reserveItems env orderId i db items).db.products p =
        (stockOf db.products p).map (fun s => s -
          reservedQuantity p items (reserveItems env orderId i db items).results) := by
  induction items with
  | nil =>
    intro i db p
    cases h : stockOf db.products p <;> simp [reserveItems, reservedQuantity, h]
  | cons item rest ih =>
    intro i db p
    rw [reserveItems_cons]
    simp only [hq i]
    have hnil : (reserveAll db []).1 = db := rfl
    rw [hnil]
    rw [ih (i + 1) _ p,
      (reserveStock_step (env.reserveFails i) db item.productId item.quantity orderId p).1]
    cases h : stockOf db.products p with
    | none => rfl
    | some s => simp [reservedQuantity]; ring

theorem getCart_deleteCart (carts : List (Nat × Cart)) (userId : Nat) :
    getCart (deleteCart carts userId) userId = none := by
  simp [getCart, deleteCart, List.find?_eq_none]

end OrdersFirestore

/-! ### The claims on the Firestore checkout -/

/-- C7, as the claim states it, fails: product 2 loses its last unit to another
client between the stock check and the reserve call, the reserve call for the
second line fails, and the checkout still answers 201, stores the order and
deletes the cart. -/
theorem checkout_reserve_failure_counterexample :
    (createOrder racingEnv sampleWorld sampleUser sampleBody).reserved = [true, false] ∧
    (createOrder racingEnv sampleWorld sampleUser sampleBody).response.status = 201 ∧
    (createOrder racingEnv sampleWorld sampleUser sampleBody).response.text =
      "Order created successfully" ∧
    sampleWorld.orders = [] ∧
    (createOrder racingEnv sampleWorld sampleUser sampleBody).world.orders.length = 1 ∧
    (getCart sampleWorld.carts 7).isSome = true ∧
    getCart (createOrder racingEnv sampleWorld sampleUser sampleBody).world.carts 7 = none ∧
    ¬ (false ∈ (createOrder racingEnv sampleWorld sampleUser sampleBody).reserved →
        (createOrder racingEnv sampleWorld sampleUser sampleBody).response.isCreated = false ∧
        (createOrder racingEnv sampleWorld sampleUser sampleBody).world.orders =
          sampleWorld.orders ∧
        (createOrder racingEnv sampleWorld sampleUser sampleBody).world.carts =
          sampleWorld.carts) := by
  decide

/-- C7 amended: the handler drops the results of its reserve calls. In every
checkout in which the reserve call for at least one order line fails, the order
has been added to the orders store with status `pending`; unless deleting the
cart throws, the checkout answers 201 "Order created successfully" and the
user's cart is deleted; when deleting the cart throws, it answers 500 and the
cart is unchanged. -/
theorem checkout_ignores_reserve_failure (env : Env) (w : World) (user : User)
    (body : OrderRequest)
    (hfail : false ∈ (createOrder env w user body).reserved) :
    ∃ order : Order,
      (createOrder env w user body).world.orders = w.orders ++ [(env.newId, order)] ∧
      order.status = "pending" ∧ order.userId = user.userId ∧
      (env.deleteFails = false →
        (createOrder env w user body).response = .created env.newId order ∧
        (createOrder env w user body).response.status = 201 ∧
        (createOrder env w user body).response.text = "Order created successfully" ∧
        (createOrder env w user body).world.carts = deleteCart w.carts user.userId ∧
        getCart (createOrder env w user body).world.carts user.userId = none) ∧
      (env.deleteFails = true →
        (createOrder env w user body).response = .internalError ∧
        (createOrder env w user body).response.status = 500 ∧
        (createOrder env w user body).world.carts = w.carts) := by
  rcases createOrder_cases env w user body with
    ⟨_, _, h3, _⟩ | ⟨addr, cartData, _, _, _, _, _, _, hcase⟩
  · rw [h3] at hfail; simp at hfail
  · rcases hcase with ⟨response, _, heq⟩ | ⟨orderItems, totalAmount, _, hcase2⟩
    · rw [heq] at hfail; simp at hfail
    · rcases hcase2 with ⟨_, heq⟩ | ⟨_, _, horders, _, _, hdel⟩
      · rw [heq] at hfail; simp at hfail
      · refine ⟨_, horders, rfl, rfl, ?_, ?_⟩
        · intro hd
          rcases hdel with ⟨hd2, _, _⟩ | ⟨_, hresp, hcarts⟩
          · rw [hd] at hd2; exact absurd hd2 (by decide)
          · refine ⟨hresp, by rw [hresp]; rfl, by rw [hresp]; rfl, hcarts, ?_⟩
            rw [hcarts]; exact getCart_deleteCart _ _
        · intro hd
          rcases hdel with ⟨_, hresp, hcarts⟩ | ⟨hd2, _, _⟩
          · exact ⟨hresp, by rw [hresp]; rfl, hcarts⟩
          · rw [hd] at hd2; exact absurd hd2 (by decide)

/-- Witness of C7 amended: the checkout of the racing scenario. -/
theorem checkout_ignores_reserve_failure_witness :
    false ∈ (createOrder racingEnv sampleWorld sampleUser sampleBody).reserved ∧
    ∃ order : Order,
      (createOrder racingEnv sampleWorld sampleUser sampleBody).world.orders =
        sampleWorld.orders ++ [(racingEnv.newId, order)] ∧
      order.status = "pending" ∧ order.userId = sampleUser.userId ∧
      (racingEnv.deleteFails = false →
        (createOrder racingEnv sampleWorld sampleUser sampleBody).response =
          .created racingEnv.newId order ∧
        (createOrder racingEnv sampleWorld sampleUser sampleBody).response.status = 201 ∧
        (createOrder racingEnv sampleWorld sampleUser sampleBody).response.text =
          "Order created successfully" ∧
        (createOrder racingEnv sampleWorld sampleUser sampleBody).world.carts =
          deleteCart sampleWorld.carts sampleUser.userId ∧
        getCart (createOrder racingEnv sampleWorld sampleUser sampleBody).world.carts
          sampleUser.userId = none) ∧
      (racingEnv.deleteFails = true →
        (createOrder racingEnv sampleWorld sampleUser sampleBody).response = .internalError ∧
        (createOrder racingEnv sampleWorld sampleUser sampleBody).response.status = 500 ∧
        (createOrder racingEnv sampleWorld sampleUser sampleBody).world.carts =
          sampleWorld.carts) :=
  ⟨by decide,
   checkout_ignores_reserve_failure racingEnv sampleWorld sampleUser sampleBody (by decide)⟩

/-- C8, as the claim states it, fails on its own scenario: the cart holds 2 units
of product 1 and 1 unit of product 2, the reserve call for product 1 succeeds
and the one for product 2 fails (its last unit went to another client). The
stock of product 1 stays at 8 instead of returning to 10, its sale record is the
only record of the order, the order is stored and the cart is deleted. -/
theorem checkout_compensation_counterexample :
    (createOrder racingEnv sampleWorld sampleUser sampleBody).reserved = [true, false] ∧
    (reserve noFault (reserveAll (reserve noFault sampleWorld.db
        { id := 1, quantity := some 2, orderId := some "O1" }).1 (racingEnv.others 1)).1
        { id := 2, quantity := some 1, orderId := some "O1" }).2 = .insufficientStock 0 ∧
    stockOf sampleWorld.db.products 1 = some 10 ∧
    stockOf (createOrder racingEnv sampleWorld sampleUser sampleBody).world.db.products 1
      = some 8 ∧
    (createOrder racingEnv sampleWorld sampleUser sampleBody).world.db.stock_movements.filter
        (fun m => decide (m.reference_id = some "O1")) =
      [{ product_id := 1, quantity := -2, movement_type := "sale",
         reference_id := some "O1", note := "Reserved for order O1" }] ∧
    (createOrder racingEnv sampleWorld sampleUser sampleBody).world.orders.length = 1 ∧
    getCart (createOrder racingEnv sampleWorld sampleUser sampleBody).world.carts 7 = none ∧
    ¬ (false ∈ (createOrder racingEnv sampleWorld sampleUser sampleBody).reserved →
        ∀ p, stockOf
          (createOrder racingEnv sampleWorld sampleUser sampleBody).world.db.products p =
          stockOf sampleWorld.db.products p) := by
  refine ⟨by decide, by decide, by decide, by decide, by decide, by decide, by decide, ?_⟩
  intro h
  have h1 := h (by decide) 1
  revert h1
  decide

/-- C8 amended: a checkout that fails at the order-persistence step has made no
reserve call, so the stock of every product and the movement log are as before
the attempt, no order is created and the cart is unchanged. At the reserve step
nothing is compensated: no checkout ever raises the stock of a product, so the
units taken by the reserve calls that succeeded stay taken when a later reserve
call fails. -/
theorem checkout_no_compensation (env : Env) (w : World) (user : User) (body : OrderRequest) :
    (env.addFails = true →
      (∀ p, stockOf (createOrder env w user body).world.db.products p =
        stockOf w.db.products p) ∧
      (createOrder env w user body).world.db.stock_movements = w.db.stock_movements ∧
      (createOrder env w user body).world.orders = w.orders ∧
      (createOrder env w user body).world.carts = w.carts ∧
      (createOrder env w user body).response.isCreated = false ∧
      (∀ c ∈ (createOrder env w user body).calls, c.isReserve = false)) ∧
    (∀ p s, stockOf w.db.products p = some s →
      ∃ s1, stockOf (createOrder env w user body).world.db.products p = some s1 ∧
        s1 ≤ s) := by
  rcases createOrder_cases env w user body with
    ⟨h1, h2, _, h4⟩ | ⟨addr, cartData, _, _, _, _, _, _, hcase⟩
  · refine ⟨fun _ => ⟨by rw [h1]; simp, by rw [h1], by rw [h1], by rw [h1], ?_,
      by rw [h2]; simp⟩, ?_⟩
    · rcases h4 with h | h | h <;> rw [h] <;> rfl
    · intro p s hs; rw [h1]; exact ⟨s, hs, le_refl _⟩
  · have hinv := validateItems_inv env cartData.items 0 w.db [] [] 0
    have hstock : ∀ p, stockOf (validateItems env 0 w.db [] [] 0 cartData.items).db.products p
        = stockOf w.db.products p :=
      fun p => stockOf_congr_eraseViews _ _ p hinv.1
    have hnores := hinv.2.2 (by simp)
    rcases hcase with ⟨response, hv, heq⟩ | ⟨orderItems, totalAmount, hv, hcase2⟩
    · rw [heq]
      refine ⟨fun _ => ⟨hstock, hinv.2.1, rfl, rfl, ?_, hnores⟩, ?_⟩
      · have hresp := (validateItems_error_answer env cartData.items 0 w.db [] [] 0
          response hv)
        rcases hresp with ⟨_, h⟩ | ⟨_, h⟩ <;> rw [h] <;> rfl
      · intro p s hs; exact ⟨s, by rw [← hs]; exact hstock p, le_refl _⟩
    · rcases hcase2 with ⟨_, heq⟩ | ⟨hadd, hdb, _, _, _, _⟩
      · rw [heq]
        refine ⟨fun _ => ⟨hstock, hinv.2.1, rfl, rfl, rfl, hnores⟩, ?_⟩
        intro p s hs; exact ⟨s, by rw [← hs]; exact hstock p, le_refl _⟩
      · refine ⟨fun h => ?_, ?_⟩
        · rw [hadd] at h; exact absurd h (by decide)
        · intro p s hs
          rw [hdb]
          exact reserveItems_stock_le env env.newId orderItems 0 _ p s
            (by rw [← hs]; exact hstock p)

/-- Witness of C8 amended: the checkout of the sample cart when writing the order
fails. -/
theorem checkout_no_compensation_witness :
    addFailsEnv.addFails = true ∧
    (∀ p, stockOf (createOrder addFailsEnv sampleWorld sampleUser sampleBody).world.db.products p
        = stockOf sampleWorld.db.products p) ∧
    (createOrder addFailsEnv sampleWorld sampleUser sampleBody).world.orders =
      sampleWorld.orders ∧
    (createOrder addFailsEnv sampleWorld sampleUser sampleBody).world.carts =
      sampleWorld.carts ∧
    (createOrder addFailsEnv sampleWorld sampleUser sampleBody).response = .internalError :=
  ⟨rfl,
   ((checkout_no_compensation addFailsEnv sampleWorld sampleUser sampleBody).1 rfl).1,
   ((checkout_no_compensation addFailsEnv sampleWorld sampleUser sampleBody).1 rfl).2.2.1,
   ((checkout_no_compensation addFailsEnv sampleWorld sampleUser sampleBody).1 rfl).2.2.2.1,
   by decide⟩

theorem OrdersMemory.getCart_deleteCart_memory (carts : List (Nat × OrdersMemory.Cart))
    (userId : Nat) :
    OrdersMemory.getCart (OrdersMemory.deleteCart carts userId) userId = none := by
  simp [OrdersMemory.getCart, OrdersMemory.deleteCart, List.find?_eq_none]

/-- C9, as the claim states it, fails in both orders services. In memory: the
checkout of 2 units of product 1 answers 201, stores the order and clears the
cart, and the stock of product 1 is 25 before and after, since this handler
makes no reserve call. Firestore: the reserve request for the first line (2
units of product 1) is answered 500, the checkout answers 201 all the same, and
the stock of product 1 is 10 before and after. -/
theorem checkout_success_counterexample :
    ((OrdersMemory.createOrder (fun _ => false) OrdersMemory.sampleWorld
      OrdersMemory.sampleUser (some OrdersMemory.sampleAddress)).2.status = 201 ∧
    (OrdersMemory.createOrder (fun _ => false) OrdersMemory.sampleWorld
      OrdersMemory.sampleUser (some OrdersMemory.sampleAddress)).1.orders.map
        (fun o => o.items.map (fun l => (l.productId, l.quantity))) = [[(1, 2)]] ∧
    OrdersMemory.getCart (OrdersMemory.createOrder (fun _ => false) OrdersMemory.sampleWorld
      OrdersMemory.sampleUser (some OrdersMemory.sampleAddress)).1.carts 7 = none ∧
    (ProductsMemory.getStock OrdersMemory.sampleWorld.products 1).map
      (fun d => d.stockQuantity) = some 25 ∧
    (ProductsMemory.getStock (OrdersMemory.createOrder (fun _ => false)
      OrdersMemory.sampleWorld OrdersMemory.sampleUser
      (some OrdersMemory.sampleAddress)).1.products 1).map
      (fun d => d.stockQuantity) = some 25) ∧
    ((createOrder reserveDownEnv sampleWorld sampleUser sampleBody).response.status = 201 ∧
    (createOrder reserveDownEnv sampleWorld sampleUser sampleBody).world.orders.map
        (fun d => d.2.items.map (fun l => (l.productId, l.quantity))) = [[(1, 2), (2, 1)]] ∧
    (createOrder reserveDownEnv sampleWorld sampleUser sampleBody).reserved = [false, true] ∧
    stockOf sampleWorld.db.products 1 = some 10 ∧
    stockOf (createOrder reserveDownEnv sampleWorld sampleUser sampleBody).world.db.products 1
      = some 10) := by
  decide

/-- The stock loop of the in-memory checkout never produces the success answer. -/
theorem OrdersMemory.checkItems_not_created (stockFails : Nat → Bool)
    (products : List ProductsMemory.Product) (items : List OrdersMemory.CartItem) :
    ∀ (i : Nat) (response : OrdersMemory.CheckoutResponse),
      OrdersMemory.checkItems stockFails products i items = some response →
      response.isCreated = false := by
  induction items with
  | nil => intro i response h; simp [OrdersMemory.checkItems] at h
  | cons item rest ih =>
    intro i response h
    rw [OrdersMemory.checkItems] at h
    cases hcs : OrdersMemory.checkStock (stockFails i) products item.productId with
    | none =>
      rw [hcs] at h
      simp only [Option.some.injEq] at h
      rw [← h]; rfl
    | some stockInfo =>
      rw [hcs] at h
      simp only at h
      by_cases hlt : stockInfo.stockQuantity < item.quantity
      · simp only [hlt, if_true, Option.some.injEq] at h
        rw [← h]; rfl
      · simp only [hlt, if_false] at h
        exact ih _ _ h

/-- A successful checkout of the in-memory orders service. -/
theorem OrdersMemory.createOrder_created (stockFails : Nat → Bool) (w : OrdersMemory.World)
    (user : OrdersMemory.User) (shippingAddress : Option ShippingAddress)
    (hok : (OrdersMemory.createOrder stockFails w user shippingAddress).2.isCreated = true) :
    ∃ order : OrdersMemory.Order,
      (OrdersMemory.createOrder stockFails w user shippingAddress).2 = .created order ∧
      (OrdersMemory.createOrder stockFails w user shippingAddress).1.orders =
        w.orders ++ [order] ∧
      (OrdersMemory.createOrder stockFails w user shippingAddress).1.carts =
        OrdersMemory.deleteCart w.carts user.id ∧
      (OrdersMemory.createOrder stockFails w user shippingAddress).1.products =
        w.products := by
  unfold OrdersMemory.createOrder at hok ⊢
  cases shippingAddress with
  | none => simp [OrdersMemory.CheckoutResponse.isCreated] at hok
  | some addr =>
    simp only at hok ⊢
    cases hcart : OrdersMemory.getCart w.carts user.id with
    | none => rw [hcart] at hok; simp [OrdersMemory.CheckoutResponse.isCreated] at hok
    | some cart =>
      rw [hcart] at hok
      simp only at hok ⊢
      by_cases hemp : cart.items.length = 0
      · simp [hemp, OrdersMemory.CheckoutResponse.isCreated] at hok
      · simp only [hemp, if_false] at hok ⊢
        cases hchk : OrdersMemory.checkItems stockFails w.products 0 cart.items with
        | some response =>
          rw [hchk] at hok
          simp only at hok
          have hne : response.isCreated = false := by
            have := OrdersMemory.checkItems_not_created stockFails w.products cart.items 0
              response hchk
            exact this
          rw [hne] at hok; exact absurd hok (by decide)
        | none => exact ⟨_, rfl, rfl, rfl, rfl⟩

/-- C9 amended: a checkout that answers 201 "Order created successfully" has
stored the order and cleared the cart of the requesting user, in both orders
services. The in-memory service leaves the stock of every product as it was.
In the Firestore service there is one reserve call per order line, and, when
no other client reserves in between, the stock of every product has gone down
by exactly the ordered quantities of its lines whose reserve call succeeded. -/
theorem checkout_success_effect :
    (∀ (stockFails : Nat → Bool) (w : OrdersMemory.World) (user : OrdersMemory.User)
        (shippingAddress : Option ShippingAddress),
      (OrdersMemory.createOrder stockFails w user shippingAddress).2.isCreated = true →
      ∃ order : OrdersMemory.Order,
        (OrdersMemory.createOrder stockFails w user shippingAddress).2 = .created order ∧
        (OrdersMemory.createOrder stockFails w user shippingAddress).1.orders =
          w.orders ++ [order] ∧
        OrdersMemory.getCart
          (OrdersMemory.createOrder stockFails w user shippingAddress).1.carts user.id
          = none ∧
        (OrdersMemory.createOrder stockFails w user shippingAddress).1.products =
          w.products) ∧
    (∀ (env : Env) (w : World) (user : User) (body : OrderRequest),
      (createOrder env w user body).response.isCreated = true →
      ∃ order : Order,
        (createOrder env w user body).response = .created env.newId order ∧
        (createOrder env w user body).world.orders = w.orders ++ [(env.newId, order)] ∧
        getCart (createOrder env w user body).world.carts user.userId = none ∧
        (createOrder env w user body).calls.filter Call.isReserve =
          order.items.map
            (fun item => Call.reserveStock item.productId item.quantity env.newId) ∧
        (createOrder env w user body).reserved.length = order.items.length ∧
        ((∀ i, env.others i = []) →
          ∀ p, stockOf (createOrder env w user body).world.db.products p =
            (stockOf w.db.products p).map (fun s => s -
              reservedQuantity p order.items (createOrder env w user body).reserved))) := by
  constructor
  · intro stockFails w user shippingAddress hok
    obtain ⟨order, h1, h2, h3, h4⟩ :=
      OrdersMemory.createOrder_created stockFails w user shippingAddress hok
    exact ⟨order, h1, h2, by rw [h3]; exact OrdersMemory.getCart_deleteCart_memory _ _, h4⟩
  · intro env w user body hok
    rcases createOrder_cases env w user body with
      ⟨_, _, _, h4⟩ | ⟨addr, cartData, _, _, _, _, _, _, hcase⟩
    · rcases h4 with h | h | h <;> rw [h] at hok <;> exact absurd hok (by decide)
    · have hinv := validateItems_inv env cartData.items 0 w.db [] [] 0
      rcases hcase with ⟨response, hv, heq⟩ | ⟨orderItems, totalAmount, hv, hcase2⟩
      · rw [heq] at hok
        rcases validateItems_error_answer env cartData.items 0 w.db [] [] 0 response hv with
          ⟨_, h⟩ | ⟨_, h⟩ <;> rw [h] at hok <;>
          simp [CheckoutResponse.isCreated] at hok
      · rcases hcase2 with ⟨_, heq⟩ | ⟨_, hdb, horders, hcalls, hres, hdel⟩
        · rw [heq] at hok; simp [CheckoutResponse.isCreated] at hok
        · rcases hdel with ⟨_, hresp, _⟩ | ⟨_, hresp, hcarts⟩
          · rw [hresp] at hok; exact absurd hok (by decide)
          · refine ⟨_, hresp, horders, by rw [hcarts]; exact getCart_deleteCart _ _,
              ?_, ?_, ?_⟩
            · rw [hcalls, reserveItems_calls, List.filter_append]
              have h1 : List.filter Call.isReserve
                  (validateItems env 0 w.db [] [] 0 cartData.items).calls = [] := by
                rw [List.filter_eq_nil_iff]
                intro c hc
                simp [hinv.2.2 (by simp) c hc]
              have h2 : ∀ l : List OrderItem, List.filter Call.isReserve
                  (l.map (fun item =>
                    Call.reserveStock item.productId item.quantity env.newId)) =
                  l.map (fun item =>
                    Call.reserveStock item.productId item.quantity env.newId) := by
                intro l
                rw [List.filter_eq_self]
                intro c hc
                obtain ⟨item, _, rfl⟩ := List.mem_map.mp hc
                rfl
              rw [h1, h2]; rfl
            · rw [hres]; exact reserveItems_length _ _ _ _ _
            · intro hq p
              rw [hdb, hres, reserveItems_stock_exact env env.newId orderItems hq 0 _ p,
                stockOf_congr_eraseViews _ _ p hinv.1]

/-- Witness of C9 amended: the in-memory checkout of the sample cart, and the
Firestore checkout of the sample cart without failures and other clients, after
which the stock of product 1 is 8 and the stock of product 2 is 0. -/
theorem checkout_success_effect_witness :
    ((OrdersMemory.createOrder (fun _ => false) OrdersMemory.sampleWorld
        OrdersMemory.sampleUser (some OrdersMemory.sampleAddress)).2.isCreated = true ∧
      (OrdersMemory.createOrder (fun _ => false) OrdersMemory.sampleWorld
        OrdersMemory.sampleUser (some OrdersMemory.sampleAddress)).1.products =
        OrdersMemory.sampleWorld.products) ∧
    ((createOrder (quiet "O1") sampleWorld sampleUser sampleBody).response.isCreated = true ∧
      (createOrder (quiet "O1") sampleWorld sampleUser sampleBody).reserved = [true, true] ∧
      stockOf (createOrder (quiet "O1") sampleWorld sampleUser sampleBody).world.db.products 1
        = some 8 ∧
      stockOf (createOrder (quiet "O1") sampleWorld sampleUser sampleBody).world.db.products 2
        = some 0 ∧
      ∃ order : Order,
        (createOrder (quiet "O1") sampleWorld sampleUser sampleBody).response =
          .created "O1" order ∧
        (createOrder (quiet "O1") sampleWorld sampleUser sampleBody).world.orders =
          sampleWorld.orders ++ [("O1", order)] ∧
        getCart (createOrder (quiet "O1") sampleWorld sampleUser sampleBody).world.carts 7
          = none) := by
  refine ⟨⟨by decide, ?_⟩, by decide, by decide, by decide, by decide, ?_⟩
  · obtain ⟨_, _, _, _, h⟩ := checkout_success_effect.1 (fun _ => false)
      OrdersMemory.sampleWorld OrdersMemory.sampleUser (some OrdersMemory.sampleAddress)
      (by decide)
    exact h
  · obtain ⟨order, h1, h2, h3, _⟩ := checkout_success_effect.2 (quiet "O1") sampleWorld
      sampleUser sampleBody (by decide)
    exact ⟨order, h1, h2, h3⟩

/-- C10: in the Firestore orders service, when a checkout with a valid address
has a cart line whose product lookup returns no product (no active row, or the
lookup fails) or whose stock pre-check finds less stock than the quantity of the
line (or fails), the checkout answers 400 with a message that names a line of
the cart: `Product <id> not found` for a line whose lookup returned no product,
`Insufficient stock for <name>` with the name of the product of a line whose
stock check failed. No reserve call is made, no order is stored, the cart is
unchanged, and stock and movement log are untouched. -/
theorem checkout_precheck_abort (env : Env) (w : World) (user : User) (body : OrderRequest)
    (shippingAddress : ShippingAddress) (cartData : Cart) (k : Nat) (line : CartItem)
    (haddr : body.shippingAddress = some shippingAddress)
    (hstreet : truthy shippingAddress.street = true)
    (hcity : truthy shippingAddress.city = true)
    (hget : env.cartGetFails = false)
    (hcart : getCart w.carts user.userId = some cartData)
    (hline : cartData.items[k]? = some line)
    (hbad : NoActiveProduct w.db.products line.productId ∨
      StockBelow w.db.products line.productId line.quantity ∨
      env.fetchFails k = true ∨ env.stockFails k = true) :
    (createOrder env w user body).response.status = 400 ∧
    (∃ l ∈ cartData.items,
      ((createOrder env w user body).response = .productNotFound l.productId ∧
        (createOrder env w user body).response.text =
          "Product " ++ toString l.productId ++ " not found" ∧
        (NoActiveProduct w.db.products l.productId ∨ ∃ j, env.fetchFails j = true)) ∨
      (∃ row ∈ w.db.products, row.id = l.productId ∧ row.is_active = true ∧
        (createOrder env w user body).response = .insufficientStock row.name ∧
        (createOrder env w user body).response.text =
          "Insufficient stock for " ++ row.name ∧
        (StockBelow w.db.products l.productId l.quantity ∨
          ∃ j, env.stockFails j = true))) ∧
    (∀ c ∈ (createOrder env w user body).calls, c.isReserve = false) ∧
    (createOrder env w user body).reserved = [] ∧
    (createOrder env w user body).world.orders = w.orders ∧
    (createOrder env w user body).world.carts = w.carts ∧
    (∀ p, stockOf (createOrder env w user body).world.db.products p =
      stockOf w.db.products p) ∧
    (createOrder env w user body).world.db.stock_movements = w.db.stock_movements := by
  have hne : ¬ cartData.items.length = 0 := by
    intro h
    have : cartData.items = [] := List.length_eq_zero.mp h
    rw [this] at hline; simp at hline
  obtain ⟨hA, hB⟩ := validateItems_abort env cartData.items 0 w.db [] [] 0
  obtain ⟨response, hv⟩ := hB ⟨k, line, hline, by simpa using hbad⟩
  have hinv := validateItems_inv env cartData.items 0 w.db [] [] 0
  have heq : createOrder env w user body =
      { world := { w with db := (validateItems env 0 w.db [] [] 0 cartData.items).db },
        response := response,
        calls := (validateItems env 0 w.db [] [] 0 cartData.items).calls,
        reserved := [] } := by
    unfold createOrder
    simp only [haddr, hstreet, hcity, hget, hcart, hne, Bool.not_true, Bool.or_self,
      Bool.false_eq_true, if_false, hv]
  obtain ⟨l, hl, hcase⟩ := hA response hv
  rw [heq]
  refine ⟨?_, ⟨l, hl, ?_⟩, hinv.2.2 (by simp), rfl, rfl, rfl,
    fun p => stockOf_congr_eraseViews _ _ p hinv.1, hinv.2.1⟩
  · rcases hcase with ⟨hr, _⟩ | ⟨row, _, _, _, hr, _⟩ <;> rw [hr] <;> rfl
  · rcases hcase with ⟨hr, hwhy⟩ | ⟨row, hrow, hid, hact, hr, hwhy⟩
    · exact Or.inl ⟨hr, by rw [hr]; rfl, hwhy⟩
    · exact Or.inr ⟨row, hrow, hid, hact, hr, by rw [hr]; rfl, hwhy⟩

/-- Witness of C10: the cart asks for 3 units of product 2 (`Laptop`), of which 1
is in stock: the checkout answers 400 `Insufficient stock for Laptop`. -/
theorem checkout_precheck_abort_witness :
    (StockBelow shortWorld.db.products 2 3 ∧
     (createOrder (quiet "O1") shortWorld sampleUser sampleBody).response =
        .insufficientStock "Laptop" ∧
     (createOrder (quiet "O1") shortWorld sampleUser sampleBody).calls =
        [.fetchProduct 1, .checkStock 1 2, .fetchProduct 2, .checkStock 2 3]) ∧
    ((createOrder (quiet "O1") shortWorld sampleUser sampleBody).response.status = 400 ∧
     (∀ c ∈ (createOrder (quiet "O1") shortWorld sampleUser sampleBody).calls,
        c.isReserve = false) ∧
     (createOrder (quiet "O1") shortWorld sampleUser sampleBody).reserved = [] ∧
     (createOrder (quiet "O1") shortWorld sampleUser sampleBody).world.orders =
        shortWorld.orders ∧
     (createOrder (quiet "O1") shortWorld sampleUser sampleBody).world.carts =
        shortWorld.carts) := by
  have hbelow : StockBelow shortWorld.db.products 2 3 := by
    intro a ha
    have h2 : stockOf shortWorld.db.products 2 = some 1 := by decide
    rw [h2] at ha
    simp only [Option.some.injEq] at ha
    omega
  have h := checkout_precheck_abort (quiet "O1") shortWorld sampleUser sampleBody
    { street := some "1 Main St", city := some "Hanoi" }
    { userId := 7, items := [{ productId := 1, quantity := 2, price := 10 },
                             { productId := 2, quantity := 3, price := 10 }] }
    1 { productId := 2, quantity := 3, price := 10 }
    rfl (by decide) (by decide) rfl (by decide) (by decide) (Or.inr (Or.inl hbelow))
  exact ⟨⟨hbelow, by decide, by decide⟩, h.1, h.2.2.1, h.2.2.2.1, h.2.2.2.2.1, h.2.2.2.2.2.1⟩

/-! ### Validation of a checkout -/

/-- C11: in the Firestore orders service, `POST /orders` answers 400 and leaves the
carts store, the orders store and the database of products-service as they were
whenever the shipping address is missing or has no street or no city, or (the
cart being readable) the cart of the user does not exist or has no items; no
product lookup, no stock check and no reserve call is made. -/
theorem checkout_validation_rejects (env : Env) (w : World) (user : User)
    (body : OrderRequest)
    (hbad : (body.shippingAddress = none ∨
        ∃ a, body.shippingAddress = some a ∧
          (truthy a.street = false ∨ truthy a.city = false)) ∨
      (env.cartGetFails = false ∧
        (getCart w.carts user.userId = none ∨
          ∃ cartData, getCart w.carts user.userId = some cartData ∧ cartData.items = []))) :
    (createOrder env w user body).response.status = 400 ∧
    ((createOrder env w user body).response = .invalidShippingAddress ∨
      (createOrder env w user body).response = .cartEmpty) ∧
    (createOrder env w user body).world = w ∧
    (createOrder env w user body).calls = [] ∧
    (createOrder env w user body).reserved = [] := by
  unfold createOrder
  cases hb : body.shippingAddress with
  | none => simp [CheckoutResponse.status]
  | some a =>
    by_cases hst : truthy a.street = true
    swap
    · simp [hst, CheckoutResponse.status]
    by_cases hci : truthy a.city = true
    swap
    · simp [hci, CheckoutResponse.status]
    rcases hbad with hbad | ⟨hget, hcart⟩
    · rcases hbad with h | ⟨a2, h, hf⟩
      · rw [hb] at h; simp at h
      · rw [hb] at h
        have ha : a = a2 := by simpa using h
        subst ha
        rcases hf with hf | hf
        · rw [hf] at hst; simp at hst
        · rw [hf] at hci; simp at hci
    · rcases hcart with hnone | ⟨cartData, hsome, hempty⟩
      · simp [hst, hci, hget, hnone, CheckoutResponse.status]
      · simp [hst, hci, hget, hsome, hempty, CheckoutResponse.status]

/-- Witness of C11: a body whose address has no street, and a user without a
cart. -/
theorem checkout_validation_rejects_witness :
    ((createOrder (quiet "O1") sampleWorld sampleUser
        { shippingAddress := some { street := none, city := some "Hanoi" },
          paymentMethod := none }).response = .invalidShippingAddress ∧
     (createOrder (quiet "O1") sampleWorld { sampleUser with userId := 8 }
        sampleBody).response = .cartEmpty) ∧
    ((createOrder (quiet "O1") sampleWorld sampleUser
        { shippingAddress := some { street := none, city := some "Hanoi" },
          paymentMethod := none }).response.status = 400 ∧
     (createOrder (quiet "O1") sampleWorld sampleUser
        { shippingAddress := some { street := none, city := some "Hanoi" },
          paymentMethod := none }).world = sampleWorld ∧
     (createOrder (quiet "O1") sampleWorld sampleUser
        { shippingAddress := some { street := none, city := some "Hanoi" },
          paymentMethod := none }).calls = []) :=
  ⟨by decide,
   (checkout_validation_rejects (quiet "O1") sampleWorld sampleUser
      { shippingAddress := some { street := none, city := some "Hanoi" },
        paymentMethod := none }
      (Or.inl (Or.inr ⟨{ street := none, city := some "Hanoi" }, rfl,
        Or.inl (by decide)⟩))).1,
   (checkout_validation_rejects (quiet "O1") sampleWorld sampleUser
      { shippingAddress := some { street := none, city := some "Hanoi" },
        paymentMethod := none }
      (Or.inl (Or.inr ⟨{ street := none, city := some "Hanoi" }, rfl,
        Or.inl (by decide)⟩))).2.2.1,
   (checkout_validation_rejects (quiet "O1") sampleWorld sampleUser
      { shippingAddress := some { street := none, city := some "Hanoi" },
        paymentMethod := none }
      (Or.inl (Or.inr ⟨{ street := none, city := some "Hanoi" }, rfl,
        Or.inl (by decide)⟩))).2.2.2.1⟩

/-- C12, as the claim states it, fails: the in-memory handler only tests that a
shipping address is present. With an address that has a city and no street, the
checkout of the sample cart answers 201, stores an order and deletes the cart. -/
theorem checkout_memory_address_counterexample :
    (OrdersMemory.createOrder (fun _ => false) OrdersMemory.sampleWorld
      OrdersMemory.sampleUser (some { street := none, city := some "Hanoi" })).2.status
      = 201 ∧
    OrdersMemory.sampleWorld.orders = [] ∧
    (OrdersMemory.createOrder (fun _ => false) OrdersMemory.sampleWorld
      OrdersMemory.sampleUser
      (some { street := none, city := some "Hanoi" })).1.orders.length = 1 ∧
    (OrdersMemory.getCart OrdersMemory.sampleWorld.carts 7).isSome = true ∧
    OrdersMemory.getCart (OrdersMemory.createOrder (fun _ => false)
      OrdersMemory.sampleWorld OrdersMemory.sampleUser
      (some { street := none, city := some "Hanoi" })).1.carts 7 = none ∧
    (OrdersMemory.createOrder (fun _ => false) OrdersMemory.sampleWorld
      OrdersMemory.sampleUser (some { street := none, city := none })).2.status = 201 := by
  decide

/-- C12 amended: in the in-memory orders service, `POST /orders` is rejected with
400, creates no order and leaves the cart and every other store untouched
whenever the shipping address is missing or the cart of the user is missing or
empty; the fields of the address are not looked at. -/
theorem checkout_memory_validation (stockFails : Nat → Bool) (w : OrdersMemory.World)
    (user : OrdersMemory.User) (shippingAddress : Option ShippingAddress)
    (hbad : shippingAddress = none ∨ OrdersMemory.getCart w.carts user.id = none ∨
      ∃ cart, OrdersMemory.getCart w.carts user.id = some cart ∧ cart.items = []) :
    (OrdersMemory.createOrder stockFails w user shippingAddress).2.status = 400 ∧
    ((OrdersMemory.createOrder stockFails w user shippingAddress).2 = .addressRequired ∨
      (OrdersMemory.createOrder stockFails w user shippingAddress).2 = .cartEmpty) ∧
    (OrdersMemory.createOrder stockFails w user shippingAddress).1 = w := by
  unfold OrdersMemory.createOrder
  cases shippingAddress with
  | none => simp [OrdersMemory.CheckoutResponse.status]
  | some a =>
    rcases hbad with h | hnone | ⟨cart, hsome, hempty⟩
    · simp at h
    · simp [hnone, OrdersMemory.CheckoutResponse.status]
    · simp [hsome, hempty, OrdersMemory.CheckoutResponse.status]

/-- Witness of C12 amended: a request without shipping address. -/
theorem checkout_memory_validation_witness :
    (OrdersMemory.createOrder (fun _ => false) OrdersMemory.sampleWorld
      OrdersMemory.sampleUser none).2 = .addressRequired ∧
    (OrdersMemory.createOrder (fun _ => false) OrdersMemory.sampleWorld
      OrdersMemory.sampleUser none).2.status = 400 ∧
    (OrdersMemory.createOrder (fun _ => false) OrdersMemory.sampleWorld
      OrdersMemory.sampleUser none).1 = OrdersMemory.sampleWorld :=
  ⟨by decide,
   (checkout_memory_validation (fun _ => false) OrdersMemory.sampleWorld
      OrdersMemory.sampleUser none (Or.inl rfl)).1,
   (checkout_memory_validation (fun _ => false) OrdersMemory.sampleWorld
      OrdersMemory.sampleUser none (Or.inl rfl)).2.2⟩

/-! ### The items of a created order -/

namespace OrdersFirestore

/-- The first active row with an id, up to its view counter, is the same in two
tables that differ in view counters only. -/
theorem activeRow_congr (rows1 rows2 : List ProductRow) (id : Int)
    (h : eraseViews rows1 = eraseViews rows2) :
    ((rows1.filter (fun r => decide (r.id = id) && r.is_active)).head?).map
        (fun r => (r.name, r.price)) =
      ((rows2.filter (fun r => decide (r.id = id) && r.is_active)).head?).map
        (fun r => (r.name, r.price)) := by
  induction rows1 generalizing rows2 with
  | nil =>
    cases rows2 with
    | nil => rfl
    | cons r2 rs2 => simp [eraseViews] at h
  | cons r1 rs1 ih =>
    cases rows2 with
    | nil => simp [eraseViews] at h
    | cons r2 rs2 =>
      simp only [eraseViews, List.map_cons, List.cons.injEq, ProductRow.mk.injEq] at h
      obtain ⟨⟨hid, hname, hprice, _, _, hact, _⟩, htail⟩ := h
      have ih2 := ih rs2 htail
      by_cases hp : (decide (r1.id = id) && r1.is_active) = true
      · have hp2 : (decide (r2.id = id) && r2.is_active) = true := by
          rw [← hid, ← hact]; exact hp
        simp [List.filter_cons, hp, hp2, hname, hprice]
      · have hp2 : ¬ (decide (r2.id = id) && r2.is_active) = true := by
          rw [← hid, ← hact]; exact hp
        simpa [List.filter_cons, hp, hp2] using ih2

theorem getProduct_snd (fails : Bool) (db : Database) (id : Int) :
    (getProduct fails db id).2 =
      if fails then none
      else (db.products.filter (fun r => decide (r.id = id) && r.is_active)).head? := by
  unfold getProduct
  by_cases hf : fails = true
  · simp [hf]
  · simp only [hf, if_false]
    cases db.products.filter (fun r => decide (r.id = id) && r.is_active) with
    | nil => rfl
    | cons row rest => rfl

/-- A product that a lookup returns carries the name and the price of the product
that the lookup returns in any state that differs in view counters only. -/
theorem getProduct_some_congr (fails : Bool) (db1 db2 : Database) (id : Int)
    (product : ProductRow)
    (h : eraseViews db1.products = eraseViews db2.products)
    (hp : (getProduct fails db1 id).2 = some product) :
    ∃ row, (getProduct false db2 id).2 = some row ∧ row.name = product.name ∧
      row.price = product.price := by
  rw [getProduct_snd] at hp
  by_cases hf : fails = true
  · simp [hf] at hp
  · simp only [hf, Bool.false_eq_true, if_false] at hp
    have hc := activeRow_congr db1.products db2.products id h
    rw [hp] at hc
    have hsnd : (getProduct false db2 id).2 =
        (db2.products.filter (fun r => decide (r.id = id) && r.is_active)).head? := by
      rw [getProduct_snd]; simp
    rw [hsnd]
    cases hrow : (db2.products.filter (fun r => decide (r.id = id) && r.is_active)).head? with
    | none => rw [hrow] at hc; simp at hc
    | some row =>
      rw [hrow] at hc
      simp only [Option.map_some', Option.some.injEq, Prod.mk.injEq] at hc
      exact ⟨row, rfl, hc.1.symm, hc.2.symm⟩

/-- When the first loop ends without aborting, it has appended one order item
per cart line, in cart order, with the product id and the quantity of the line,
the name and the price of the product that the lookup of the line returned, and
the subtotal `price * quantity`; `totalAmount` has grown by the subtotals. -/
theorem validateItems_ok (env : Env) (items : List CartItem) :
    ∀ (i : Nat) (db : Database) (calls : List Call) (orderItems : List OrderItem)
      (total : Rat) (result : List OrderItem) (resultTotal : Rat),
      (validateItems env i db calls orderItems total items).result =
        .ok (result, resultTotal) →
      ∃ added : List OrderItem,
        result = orderItems ++ added ∧
        List.Forall₂ (fun (line : CartItem) (item : OrderItem) =>
          item.productId = line.productId ∧ item.quantity = line.quantity ∧
          item.subtotal = item.price * item.quantity ∧
          ∃ row, (getProduct false db line.productId).2 = some row ∧
            item.productName = row.name ∧ item.price = row.price) items added ∧
        resultTotal =
          total + (added.map (fun (item : OrderItem) => item.price * (item.quantity : Rat))).sum := by
  induction items with
  | nil =>
    intro i db calls orderItems total result resultTotal h
    simp only [validateItems, Except.ok.injEq, Prod.mk.injEq] at h
    exact ⟨[], by simp [h.1], List.Forall₂.nil, by simp [h.2]⟩
  | cons cartItem rest ih =>
    intro i db calls orderItems total result resultTotal h
    have hdb := getProduct_db (env.fetchFails i) db cartItem.productId
    rw [validateItems] at h
    rcases hfp : fetchProduct (env.fetchFails i) db cartItem.productId with ⟨db1, _ | product⟩
    · rw [hfp] at h; simp at h
    · rw [hfp] at h
      have e1 : (getProduct (env.fetchFails i) db cartItem.productId).1 = db1 := by
        have := congrArg Prod.fst hfp; simpa [fetchProduct] using this
      have e2 : (getProduct (env.fetchFails i) db cartItem.productId).2 = some product := by
        have := congrArg Prod.snd hfp; simpa [fetchProduct] using this
      rw [e1] at hdb
      by_cases hcs : checkStock (env.stockFails i) db1 cartItem.productId cartItem.quantity = true
      · simp only [hcs, if_true] at h
        obtain ⟨added, hres, hall, htot⟩ := ih _ _ _ _ _ _ _ h
        refine ⟨{ productId := cartItem.productId, productName := product.name,
                  quantity := cartItem.quantity, price := product.price,
                  subtotal := product.price * cartItem.quantity } :: added, ?_, ?_, ?_⟩
        · rw [hres]; simp
        · refine List.Forall₂.cons ⟨rfl, rfl, rfl, ?_⟩ ?_
          · obtain ⟨row, hrow, hn, hpr⟩ :=
              getProduct_some_congr (env.fetchFails i) db db cartItem.productId product rfl e2
            exact ⟨row, hrow, hn.symm, hpr.symm⟩
          · refine List.Forall₂.imp ?_ hall
            rintro line item ⟨h1, h2, h3, row, hrow, hn, hpr⟩
            obtain ⟨row2, hrow2, hn2, hpr2⟩ :=
              getProduct_some_congr false db1 db line.productId row hdb.1 hrow
            exact ⟨h1, h2, h3, row2, hrow2, by rw [hn, hn2], by rw [hpr, hpr2]⟩
        · rw [htot]; simp; ring
      · simp only [hcs] at h
        simp at h

end OrdersFirestore

/-- C14: the order that a successful checkout of the Firestore orders service
stores has one item per cart line, in cart order; item `i` has the product id
and the quantity of line `i` and the name and the price of the product that the
catalog lookup returns for that id; the order carries the id of the requesting
user and the status `pending`. -/
theorem checkout_order_items (env : Env) (w : World) (user : User) (body : OrderRequest)
    (hok : (createOrder env w user body).response.isCreated = true) :
    ∃ (cartData : Cart) (order : Order),
      getCart w.carts user.userId = some cartData ∧
      (createOrder env w user body).response = .created env.newId order ∧
      (createOrder env w user body).world.orders = w.orders ++ [(env.newId, order)] ∧
      order.userId = user.userId ∧ order.status = "pending" ∧
      order.items.length = cartData.items.length ∧
      List.Forall₂ (fun (line : CartItem) (item : OrderItem) =>
        item.productId = line.productId ∧ item.quantity = line.quantity ∧
        ∃ row, (getProduct false w.db line.productId).2 = some row ∧
          item.productName = row.name ∧ item.price = row.price)
        cartData.items order.items := by
  rcases createOrder_cases env w user body with
    ⟨_, _, _, h4⟩ | ⟨addr, cartData, _, _, _, _, hcart, _, hcase⟩
  · rcases h4 with h | h | h <;> rw [h] at hok <;> exact absurd hok (by decide)
  · rcases hcase with ⟨response, hv, heq⟩ | ⟨orderItems, totalAmount, hv, hcase2⟩
    · rw [heq] at hok
      rcases validateItems_error_answer env cartData.items 0 w.db [] [] 0 response hv with
        ⟨_, h⟩ | ⟨_, h⟩ <;> rw [h] at hok <;>
        simp [CheckoutResponse.isCreated] at hok
    · rcases hcase2 with ⟨_, heq⟩ | ⟨_, _, horders, _, _, hdel⟩
      · rw [heq] at hok; simp [CheckoutResponse.isCreated] at hok
      · rcases hdel with ⟨_, hresp, _⟩ | ⟨_, hresp, _⟩
        · rw [hresp] at hok; exact absurd hok (by decide)
        · obtain ⟨added, hres, hall, _⟩ :=
            validateItems_ok env cartData.items 0 w.db [] [] 0 orderItems totalAmount hv
          have hadded : orderItems = added := by simpa using hres
          subst hadded
          refine ⟨cartData, _, hcart, hresp, horders, rfl, rfl, ?_, ?_⟩
          · exact (List.Forall₂.length_eq hall).symm
          · refine List.Forall₂.imp ?_ hall
            rintro line item ⟨h1, h2, _, hrow⟩
            exact ⟨h1, h2, hrow⟩

/-- Witness of C14: the checkout of the sample cart stores the order with the
items `Mouse` (2 units) and `Laptop` (1 unit). -/
theorem checkout_order_items_witness :
    ((createOrder (quiet "O1") sampleWorld sampleUser sampleBody).response.isCreated = true ∧
     (createOrder (quiet "O1") sampleWorld sampleUser sampleBody).world.orders.map
        (fun d => d.2.items.map (fun item => (item.productId, item.productName,
          item.quantity))) = [[(1, "Mouse", 2), (2, "Laptop", 1)]]) ∧
    ∃ (cartData : Cart) (order : Order),
      getCart sampleWorld.carts sampleUser.userId = some cartData ∧
      (createOrder (quiet "O1") sampleWorld sampleUser sampleBody).response =
        .created (quiet "O1").newId order ∧
      order.userId = sampleUser.userId ∧ order.status = "pending" ∧
      order.items.length = cartData.items.length := by
  refine ⟨⟨by decide, by decide⟩, ?_⟩
  obtain ⟨cartData, order, h1, h2, _, h4, h5, h6, _⟩ :=
    checkout_order_items (quiet "O1") sampleWorld sampleUser sampleBody (by decide)
  exact ⟨cartData, order, h1, h2, h4, h5, h6⟩

theorem forall₂_mem_right {α β : Type} {R : α → β → Prop} {l1 : List α} {l2 : List β}
    (h : List.Forall₂ R l1 l2) : ∀ b ∈ l2, ∃ a ∈ l1, R a b := by
  induction h with
  | nil => intro b hb; simp at hb
  | cons hab _ ih =>
    intro b hb
    rcases List.mem_cons.mp hb with rfl | hb
    · exact ⟨_, List.mem_cons_self _ _, hab⟩
    · obtain ⟨a, ha, hr⟩ := ih b hb
      exact ⟨a, List.mem_cons_of_mem _ ha, hr⟩

/-- In exact arithmetic the total of a created order is the sum of
`price * quantity` over its items brought to two decimals, and every subtotal
is `price * quantity`. The handler computes in binary floating point, which this
statement does not cover. -/
theorem checkout_total_exact (env : Env) (w : World) (user : User) (body : OrderRequest)
    (order : Order) (id : String)
    (hok : (createOrder env w user body).response = .created id order) :
    order.totalAmount =
      toFixed2 ((order.items.map
        (fun (item : OrderItem) => item.price * (item.quantity : Rat))).sum) ∧
    ∀ item ∈ order.items, item.subtotal = item.price * item.quantity := by
  rcases createOrder_cases env w user body with
    ⟨_, _, _, h4⟩ | ⟨addr, cartData, _, _, _, _, hcart, _, hcase⟩
  · rcases h4 with h | h | h <;> rw [h] at hok <;> simp at hok
  · rcases hcase with ⟨response, hv, heq⟩ | ⟨orderItems, totalAmount, hv, hcase2⟩
    · rw [heq] at hok
      rcases validateItems_error_answer env cartData.items 0 w.db [] [] 0 response hv with
        ⟨_, h⟩ | ⟨_, h⟩ <;> rw [h] at hok <;> simp at hok
    · rcases hcase2 with ⟨_, heq⟩ | ⟨_, _, _, _, _, hdel⟩
      · rw [heq] at hok; simp at hok
      · rcases hdel with ⟨_, hresp, _⟩ | ⟨_, hresp, _⟩
        · rw [hresp] at hok; simp at hok
        · obtain ⟨added, hres, hall, htot⟩ :=
            validateItems_ok env cartData.items 0 w.db [] [] 0 orderItems totalAmount hv
          have hadded : orderItems = added := by simpa using hres
          subst hadded
          rw [hresp] at hok
          simp only [CheckoutResponse.created.injEq] at hok
          obtain ⟨_, hord⟩ := hok
          subst hord
          refine ⟨by simp [htot], ?_⟩
          intro item hitem
          obtain ⟨line, _, hrel⟩ := forall₂_mem_right hall item hitem
          exact hrel.2.2.1

/-! ### Cart totals of the in-memory orders service -/

namespace OrdersMemory

theorem getCart_setCart (carts : List (Nat × Cart)) (userId : Nat) (cart : Cart) :
    getCart (setCart carts userId cart) userId = some cart := by
  unfold setCart
  by_cases hany : carts.any (fun d => decide (d.1 = userId)) = true
  · simp only [hany, if_true]
    induction carts with
    | nil => simp at hany
    | cons d ds ih =>
      by_cases hd : d.1 = userId
      · simp [getCart, List.find?_cons, hd]
      · have hany2 : ds.any (fun d => decide (d.1 = userId)) = true := by
          simpa [List.any_cons, hd] using hany
        have := ih hany2
        simpa [getCart, List.find?_cons, hd] using this
  · simp only [hany]
    have hnone : ∀ d ∈ carts, ¬ d.1 = userId := by
      intro d hd
      have := hany
      simp only [List.any_eq_true, decide_eq_true_eq, not_exists, not_and] at this
      exact this d hd
    have hfind : carts.find? (fun d => decide (d.1 = userId)) = none := by
      rw [List.find?_eq_none]
      intro d hd
      simpa using hnone d hd
    simp [getCart, List.find?_append, hfind]

theorem mem_setCart (carts : List (Nat × Cart)) (userId : Nat) (cart : Cart)
    (d : Nat × Cart) (hd : d ∈ setCart carts userId cart) :
    d ∈ carts ∨ d = (userId, cart) := by
  unfold setCart at hd
  by_cases hany : carts.any (fun d => decide (d.1 = userId)) = true
  · simp only [hany, if_true, List.mem_map] at hd
    obtain ⟨e, he, heq⟩ := hd
    by_cases h : e.1 = userId
    · simp only [h, if_true] at heq; exact Or.inr heq.symm
    · simp only [h, if_false] at heq; exact Or.inl (heq ▸ he)
  · simp only [hany] at hd
    simp only [Bool.false_eq_true, if_false, List.mem_append, List.mem_singleton] at hd
    exact hd

theorem mem_of_getCart (carts : List (Nat × Cart)) (userId : Nat) (cart : Cart)
    (h : getCart carts userId = some cart) : (userId, cart) ∈ carts := by
  unfold getCart at h
  cases hf : carts.find? (fun d => decide (d.1 = userId)) with
  | none => rw [hf] at h; simp at h
  | some d =>
    rw [hf] at h
    have hmem := List.mem_of_find?_eq_some hf
    have hkey := List.find?_some hf
    simp only [Option.map_some', Option.some.injEq] at h
    simp only [decide_eq_true_eq] at hkey
    have : d = (userId, cart) := by
      cases d; simp_all
    exact this ▸ hmem

/-- A run of `POST /cart/items` either changes nothing and carries no cart, or
stores the cart it answers with, whose total is recomputed from its items. -/
theorem addItem_cases (fetchFails stockFails : Bool) (w : World) (user : User)
    (productId quantity : Option Int) :
    ((addItem fetchFails stockFails w user productId quantity).1 = w ∧
      (addItem fetchFails stockFails w user productId quantity).2.cart = none) ∨
    ∃ cart : Cart,
      addItem fetchFails stockFails w user productId quantity =
        ({ w with carts := setCart w.carts user.id cart }, .itemAdded cart) ∧
      cart.totalAmount = cartTotal cart.items := by
  unfold addItem
  cases productId with
  | none => left; cases quantity <;> simp [CartResponse.cart]
  | some productId =>
    cases quantity with
    | none => left; simp [CartResponse.cart]
    | some quantity =>
      simp only
      by_cases hv : productId = 0 ∨ quantity = 0 ∨ quantity ≤ 0
      · left; simp [hv, CartResponse.cart]
      · simp only [hv, if_false]
        cases fetchProduct fetchFails w.products productId with
        | none => left; simp [CartResponse.cart]
        | some product =>
          simp only
          cases checkStock stockFails w.products productId with
          | none => left; simp [CartResponse.cart]
          | some stockInfo =>
            simp only
            by_cases hs : (!stockInfo.isInStock ||
                decide (stockInfo.stockQuantity < quantity)) = true
            · left; simp [hs, CartResponse.cart]
            · right
              simp only [hs]
              exact ⟨_, rfl, rfl⟩

/-- A run of `PUT /cart/items/:productId` either changes nothing and carries no
cart, or stores the cart it answers with, whose total is recomputed. -/
theorem updateItem_cases (stockFails : Bool) (w : World) (user : User) (productId : Int)
    (quantity : Option Int) :
    ((updateItem stockFails w user productId quantity).1 = w ∧
      (updateItem stockFails w user productId quantity).2.cart = none) ∨
    ∃ cart : Cart,
      updateItem stockFails w user productId quantity =
        ({ w with carts := setCart w.carts user.id cart }, .cartUpdated cart) ∧
      cart.totalAmount = cartTotal cart.items := by
  unfold updateItem
  cases quantity with
  | none => left; simp [CartResponse.cart]
  | some quantity =>
    simp only
    by_cases hv : quantity = 0 ∨ quantity < 0
    · left; simp [hv, CartResponse.cart]
    · simp only [hv, if_false]
      cases getCart w.carts user.id with
      | none => left; simp [CartResponse.cart]
      | some cart =>
        simp only
        cases findIndex cart.items productId with
        | none => left; simp [CartResponse.cart]
        | some itemIndex =>
          simp only
          by_cases hz : quantity = 0
          · right; simp only [hz, if_true]; exact ⟨_, rfl, rfl⟩
          · simp only [hz, if_false]
            cases checkStock stockFails w.products productId with
            | none => left; simp [CartResponse.cart]
            | some stockInfo =>
              simp only
              by_cases hs : stockInfo.stockQuantity < quantity
              · left; simp [hs, CartResponse.cart]
              · right; simp only [hs, if_false]; exact ⟨_, rfl, rfl⟩

/-- A run of `DELETE /cart/items/:productId` either changes nothing and carries no
cart, or stores the cart it answers with, whose total is recomputed. -/
theorem removeItem_cases (w : World) (user : User) (productId : Int) :
    ((removeItem w user productId).1 = w ∧ (removeItem w user productId).2.cart = none) ∨
    ∃ cart : Cart,
      removeItem w user productId =
        ({ w with carts := setCart w.carts user.id cart }, .itemRemoved cart) ∧
      cart.totalAmount = cartTotal cart.items := by
  unfold removeItem
  cases getCart w.carts user.id with
  | none => left; simp [CartResponse.cart]
  | some cart =>
    simp only
    cases findIndex cart.items productId with
    | none => left; simp [CartResponse.cart]
    | some itemIndex => right; exact ⟨_, rfl, rfl⟩

end OrdersMemory

namespace OrdersMemory

/-- The order of a successful in-memory checkout copies the items and the stored
total of the cart of the user. -/
theorem createOrder_order (stockFails : Nat → Bool) (w : World) (user : User)
    (shippingAddress : Option ShippingAddress) (order : Order)
    (hok : (createOrder stockFails w user shippingAddress).2 = .created order) :
    ∃ cart : Cart, getCart w.carts user.id = some cart ∧
      order.items = cart.items ∧ order.totalAmount = cart.totalAmount ∧
      order.userId = user.id ∧ order.id = w.orderIdCounter ∧
      (createOrder stockFails w user shippingAddress).1.orders = w.orders ++ [order] ∧
      (createOrder stockFails w user shippingAddress).1.carts =
        deleteCart w.carts user.id := by
  unfold createOrder at hok ⊢
  cases shippingAddress with
  | none => simp at hok
  | some addr =>
    simp only at hok ⊢
    cases hcart : getCart w.carts user.id with
    | none => rw [hcart] at hok; simp at hok
    | some cart =>
      rw [hcart] at hok
      simp only at hok ⊢
      by_cases hemp : cart.items.length = 0
      · simp [hemp] at hok
      · simp only [hemp, if_false] at hok ⊢
        cases hchk : checkItems stockFails w.products 0 cart.items with
        | some response =>
          rw [hchk] at hok
          simp only at hok
          have hne := checkItems_not_created stockFails w.products cart.items 0 response hchk
          rw [hok] at hne
          simp [CheckoutResponse.isCreated] at hne
        | none =>
          rw [hchk] at hok
          simp only [CheckoutResponse.created.injEq] at hok
          subst hok
          exact ⟨cart, rfl, rfl, rfl, rfl, rfl, rfl, rfl⟩

/-- A checkout that does not answer 201 leaves the stores as they were. -/
theorem createOrder_rejected (stockFails : Nat → Bool) (w : World) (user : User)
    (shippingAddress : Option ShippingAddress)
    (hno : (createOrder stockFails w user shippingAddress).2.isCreated = false) :
    (createOrder stockFails w user shippingAddress).1 = w := by
  unfold createOrder at hno ⊢
  cases shippingAddress with
  | none => rfl
  | some addr =>
    simp only at hno ⊢
    cases hcart : getCart w.carts user.id with
    | none => rfl
    | some cart =>
      rw [hcart] at hno
      simp only at hno ⊢
      by_cases hemp : cart.items.length = 0
      · simp [hemp]
      · simp only [hemp, if_false] at hno ⊢
        cases hchk : checkItems stockFails w.products 0 cart.items with
        | some response => rfl
        | none => rw [hchk] at hno; simp [CheckoutResponse.isCreated] at hno

theorem consistent_setCart (w : World) (userId : Nat) (cart : Cart)
    (hw : Consistent w) (hc : cart.totalAmount = cartTotal cart.items) :
    Consistent { w with carts := setCart w.carts userId cart } := by
  refine ⟨?_, hw.2⟩
  intro d hd
  rcases mem_setCart _ _ _ d hd with h | h
  · exact hw.1 d h
  · rw [h]; exact hc

/-- Every request keeps the stored totals derived from the lines. -/
theorem consistent_step (w : World) (request : Request) (hw : Consistent w) :
    Consistent (step w request) := by
  cases request with
  | addItem fetchFails stockFails user productId quantity =>
    rcases addItem_cases fetchFails stockFails w user productId quantity with
      ⟨h, _⟩ | ⟨cart, heq, hc⟩
    · simp only [step]; rw [h]; exact hw
    · simp only [step]; rw [heq]; exact consistent_setCart w user.id cart hw hc
  | updateItem stockFails user productId quantity =>
    rcases updateItem_cases stockFails w user productId quantity with
      ⟨h, _⟩ | ⟨cart, heq, hc⟩
    · simp only [step]; rw [h]; exact hw
    · simp only [step]; rw [heq]; exact consistent_setCart w user.id cart hw hc
  | removeItem user productId =>
    rcases removeItem_cases w user productId with ⟨h, _⟩ | ⟨cart, heq, hc⟩
    · simp only [step]; rw [h]; exact hw
    · simp only [step]; rw [heq]; exact consistent_setCart w user.id cart hw hc
  | createOrder stockFails user shippingAddress =>
    simp only [step]
    by_cases hcr : (createOrder stockFails w user shippingAddress).2.isCreated = true
    · obtain ⟨order, hresp, _, _, _⟩ :=
        createOrder_created stockFails w user shippingAddress hcr
      obtain ⟨cart, hcart, hitems, htotal, _, _, horders, hcarts⟩ :=
        createOrder_order stockFails w user shippingAddress order hresp
      refine ⟨?_, ?_⟩
      · intro d hd
        rw [hcarts] at hd
        exact hw.1 d (List.mem_filter.mp hd).1
      · intro o ho
        rw [horders] at ho
        rcases List.mem_append.mp ho with h | h
        · exact hw.2 o h
        · have ho2 : o = order := by simpa using h
          rw [ho2, htotal, hitems]
          exact hw.1 _ (mem_of_getCart _ _ _ hcart)
    · have hno : (createOrder stockFails w user shippingAddress).2.isCreated = false := by
        simpa using hcr
      rw [createOrder_rejected stockFails w user shippingAddress hno]
      exact hw

theorem consistent_run (requests : List Request) :
    ∀ w : World, Consistent w → Consistent (run w requests) := by
  induction requests with
  | nil => intro w hw; exact hw
  | cons request rest ih =>
    intro w hw
    exact ih (step w request) (consistent_step w request hw)

end OrdersMemory

/-- C15: in the in-memory orders service the stored total of a cart is derived from
its lines: the cart that a successful `POST /cart/items`,
`PUT /cart/items/:productId` or `DELETE /cart/items/:productId` answers with is
the cart now stored for the user and its `totalAmount` is the sum over its items
of `price * quantity`; an order created by `POST /orders` from a cart with a
derived total has as `totalAmount` the sum over its items of
`price * quantity`; and in every state reached from the start of the service by
such requests every cart and every order has that total. -/
theorem cart_total_derived :
    (∀ (fetchFails stockFails : Bool) (w : OrdersMemory.World) (user : OrdersMemory.User)
        (productId quantity : Option Int) (cart : OrdersMemory.Cart),
      (OrdersMemory.addItem fetchFails stockFails w user productId quantity).2.cart
        = some cart →
      cart.totalAmount = OrdersMemory.cartTotal cart.items ∧
      OrdersMemory.getCart
        (OrdersMemory.addItem fetchFails stockFails w user productId quantity).1.carts
        user.id = some cart) ∧
    (∀ (stockFails : Bool) (w : OrdersMemory.World) (user : OrdersMemory.User)
        (productId : Int) (quantity : Option Int) (cart : OrdersMemory.Cart),
      (OrdersMemory.updateItem stockFails w user productId quantity).2.cart = some cart →
      cart.totalAmount = OrdersMemory.cartTotal cart.items ∧
      OrdersMemory.getCart
        (OrdersMemory.updateItem stockFails w user productId quantity).1.carts user.id
        = some cart) ∧
    (∀ (w : OrdersMemory.World) (user : OrdersMemory.User) (productId : Int)
        (cart : OrdersMemory.Cart),
      (OrdersMemory.removeItem w user productId).2.cart = some cart →
      cart.totalAmount = OrdersMemory.cartTotal cart.items ∧
      OrdersMemory.getCart (OrdersMemory.removeItem w user productId).1.carts user.id
        = some cart) ∧
    (∀ (stockFails : Nat → Bool) (w : OrdersMemory.World) (user : OrdersMemory.User)
        (shippingAddress : Option ShippingAddress) (order : OrdersMemory.Order),
      (∀ d ∈ w.carts, d.2.totalAmount = OrdersMemory.cartTotal d.2.items) →
      (OrdersMemory.createOrder stockFails w user shippingAddress).2 = .created order →
      order.totalAmount = OrdersMemory.cartTotal order.items) ∧
    (∀ (products : List ProductsMemory.Product) (requests : List OrdersMemory.Request),
      (∀ d ∈ (OrdersMemory.run (OrdersMemory.initial products) requests).carts,
        d.2.totalAmount = OrdersMemory.cartTotal d.2.items) ∧
      (∀ o ∈ (OrdersMemory.run (OrdersMemory.initial products) requests).orders,
        o.totalAmount = OrdersMemory.cartTotal o.items)) := by
  refine ⟨?_, ?_, ?_, ?_, ?_⟩
  · intro fetchFails stockFails w user productId quantity cart hcart
    rcases OrdersMemory.addItem_cases fetchFails stockFails w user productId quantity with
      ⟨_, h⟩ | ⟨cart2, heq, hc⟩
    · rw [h] at hcart; simp at hcart
    · rw [heq] at hcart ⊢
      have : cart2 = cart := by simpa [OrdersMemory.CartResponse.cart] using hcart
      subst this
      exact ⟨hc, OrdersMemory.getCart_setCart _ _ _⟩
  · intro stockFails w user productId quantity cart hcart
    rcases OrdersMemory.updateItem_cases stockFails w user productId quantity with
      ⟨_, h⟩ | ⟨cart2, heq, hc⟩
    · rw [h] at hcart; simp at hcart
    · rw [heq] at hcart ⊢
      have : cart2 = cart := by simpa [OrdersMemory.CartResponse.cart] using hcart
      subst this
      exact ⟨hc, OrdersMemory.getCart_setCart _ _ _⟩
  · intro w user productId cart hcart
    rcases OrdersMemory.removeItem_cases w user productId with ⟨_, h⟩ | ⟨cart2, heq, hc⟩
    · rw [h] at hcart; simp at hcart
    · rw [heq] at hcart ⊢
      have : cart2 = cart := by simpa [OrdersMemory.CartResponse.cart] using hcart
      subst this
      exact ⟨hc, OrdersMemory.getCart_setCart _ _ _⟩
  · intro stockFails w user shippingAddress order hw hresp
    obtain ⟨cart, hcart, hitems, htotal, _⟩ :=
      OrdersMemory.createOrder_order stockFails w user shippingAddress order hresp
    rw [htotal, hitems]
    exact hw _ (OrdersMemory.mem_of_getCart _ _ _ hcart)
  · intro products requests
    have hinit : OrdersMemory.Consistent (OrdersMemory.initial products) := by
      constructor <;> intro x hx <;> simp [OrdersMemory.initial] at hx
    exact OrdersMemory.consistent_run requests _ hinit

/-- Witness of C15: user 7, whose cart holds 2 units of product 1 (price 100), adds
3 units and gets the total 500; setting the line to 4 units gives 400; and from
the start of the service the requests add 2, add 3, set 4 and check out store
one order with total 400 for 4 units. -/
theorem cart_total_derived_witness :
    ((OrdersMemory.addItem false false OrdersMemory.sampleWorld OrdersMemory.sampleUser
        (some 1) (some 3)).2.cart.map (fun c => c.totalAmount) = some 500 ∧
     (OrdersMemory.updateItem false OrdersMemory.sampleWorld OrdersMemory.sampleUser 1
        (some 4)).2.cart.map (fun c => c.totalAmount) = some 400 ∧
     (OrdersMemory.run (OrdersMemory.initial OrdersMemory.sampleWorld.products)
        [.addItem false false OrdersMemory.sampleUser (some 1) (some 2),
         .addItem false false OrdersMemory.sampleUser (some 1) (some 3),
         .updateItem false OrdersMemory.sampleUser 1 (some 4),
         .createOrder (fun _ => false) OrdersMemory.sampleUser
           (some OrdersMemory.sampleAddress)]).orders.map
        (fun o => (o.totalAmount, o.items.map (fun l => (l.productId, l.quantity))))
        = [(400, [(1, 4)])]) ∧
    (∀ o ∈ (OrdersMemory.run (OrdersMemory.initial OrdersMemory.sampleWorld.products)
        [.addItem false false OrdersMemory.sampleUser (some 1) (some 2),
         .addItem false false OrdersMemory.sampleUser (some 1) (some 3),
         .updateItem false OrdersMemory.sampleUser 1 (some 4),
         .createOrder (fun _ => false) OrdersMemory.sampleUser
           (some OrdersMemory.sampleAddress)]).orders,
      o.totalAmount = OrdersMemory.cartTotal o.items) := by
  refine ⟨⟨?_, ?_, ?_⟩, (cart_total_derived.2.2.2.2 OrdersMemory.sampleWorld.products _).2⟩
  · simp [OrdersMemory.addItem, OrdersMemory.sampleWorld, OrdersMemory.fetchProduct,
      ProductsMemory.getProduct, OrdersMemory.checkStock, ProductsMemory.getStock,
      OrdersMemory.getCart, OrdersMemory.findIndex, OrdersMemory.cartTotal,
      OrdersMemory.CartResponse.cart, OrdersMemory.sampleUser, List.modify, List.modifyHead]
    norm_num
  · simp [OrdersMemory.updateItem, OrdersMemory.sampleWorld, OrdersMemory.checkStock,
      ProductsMemory.getStock, OrdersMemory.getCart, OrdersMemory.findIndex,
      OrdersMemory.cartTotal, OrdersMemory.CartResponse.cart, OrdersMemory.sampleUser,
      List.modify, List.modifyHead]
    norm_num
  · simp [OrdersMemory.run, OrdersMemory.step, OrdersMemory.initial, OrdersMemory.addItem,
      OrdersMemory.updateItem, OrdersMemory.createOrder, OrdersMemory.checkItems,
      OrdersMemory.sampleWorld, OrdersMemory.fetchProduct, ProductsMemory.getProduct,
      OrdersMemory.checkStock, ProductsMemory.getStock, OrdersMemory.getCart,
      OrdersMemory.findIndex, OrdersMemory.cartTotal, OrdersMemory.sampleUser, List.modify,
      List.modifyHead, OrdersMemory.setCart]
    norm_num

/-! ### Access to orders -/

/-- C16: no order is disclosed to a user who neither owns it nor is an admin. In
both orders services `GET /orders/:id` answers 404 when no order has the id and
403 `Access denied` when the user id of the order differs from the id of the
requester and the role of the requester is not `admin`, and an order it returns
belongs to the requester or (Firestore only) goes to an admin. In the in-memory
service `GET /orders` returns exactly the stored orders of the requester, in
stored order, with `count` their number. -/
theorem order_access_restricted :
    (∀ (w : World) (user : User) (id : String),
      ((∀ d ∈ w.orders, d.1 ≠ id) →
        getOrderById false w user id = .notFound ∧
        (getOrderById false w user id).status = 404) ∧
      (∀ orderDoc, getOrderDoc w.orders id = some orderDoc →
        orderDoc.2.userId ≠ user.userId → user.role ≠ "admin" →
        getOrderById false w user id = .accessDenied ∧
        (getOrderById false w user id).status = 403 ∧
        (getOrderById false w user id).error = some "Access denied") ∧
      (∀ (getFails : Bool) (orderId : String) (order : Order),
        getOrderById getFails w user id = .found orderId order →
        order.userId = user.userId ∨ user.role = "admin")) ∧
    (∀ (w : OrdersMemory.World) (user : OrdersMemory.User) (orderId : Option Int),
      ((∀ o ∈ w.orders, some (o.id : Int) ≠ orderId) →
        OrdersMemory.getOrderById w user orderId = .notFound ∧
        (OrdersMemory.getOrderById w user orderId).status = 404) ∧
      (∀ order, w.orders.find? (fun o => decide (some (o.id : Int) = orderId)) = some order →
        order.userId ≠ user.id →
        OrdersMemory.getOrderById w user orderId = .accessDenied ∧
        (OrdersMemory.getOrderById w user orderId).status = 403 ∧
        (OrdersMemory.getOrderById w user orderId).text = some "Access denied") ∧
      (∀ order, OrdersMemory.getOrderById w user orderId = .found order →
        order.userId = user.id)) ∧
    (∀ (w : OrdersMemory.World) (user : OrdersMemory.User),
      (OrdersMemory.getOrders w user).1 =
        w.orders.filter (fun o => decide (o.userId = user.id)) ∧
      (OrdersMemory.getOrders w user).1.Sublist w.orders ∧
      (∀ o, o ∈ (OrdersMemory.getOrders w user).1 ↔ o ∈ w.orders ∧ o.userId = user.id) ∧
      (OrdersMemory.getOrders w user).2 = (OrdersMemory.getOrders w user).1.length) := by
  refine ⟨?_, ?_, ?_⟩
  · intro w user id
    refine ⟨?_, ?_, ?_⟩
    · intro hno
      have hnone : getOrderDoc w.orders id = none := by
        unfold getOrderDoc
        rw [List.find?_eq_none]
        intro d hd
        simpa using hno d hd
      have : getOrderById false w user id = .notFound := by
        simp [getOrderById, hnone]
      rw [this]; exact ⟨rfl, rfl⟩
    · intro orderDoc hdoc hne hrole
      have : getOrderById false w user id = .accessDenied := by
        simp [getOrderById, hdoc, hne, hrole]
      rw [this]; exact ⟨rfl, rfl, rfl⟩
    · intro getFails orderId order hfound
      unfold getOrderById at hfound
      by_cases hf : getFails = true
      · simp [hf] at hfound
      · simp only [hf, Bool.false_eq_true, if_false] at hfound
        cases hdoc : getOrderDoc w.orders id with
        | none => rw [hdoc] at hfound; simp at hfound
        | some orderDoc =>
          rw [hdoc] at hfound
          simp only at hfound
          by_cases hden : orderDoc.2.userId ≠ user.userId ∧ user.role ≠ "admin"
          · simp [hden] at hfound
          · simp only [hden, if_false, OrderResponse.found.injEq] at hfound
            obtain ⟨_, hord⟩ := hfound
            subst hord
            by_cases hu : orderDoc.2.userId = user.userId
            · exact Or.inl hu
            · right
              by_contra hr
              exact hden ⟨hu, hr⟩
  · intro w user orderId
    refine ⟨?_, ?_, ?_⟩
    · intro hno
      have hnone : w.orders.find? (fun o => decide (some (o.id : Int) = orderId)) = none := by
        rw [List.find?_eq_none]
        intro o ho
        simpa using hno o ho
      have : OrdersMemory.getOrderById w user orderId = .notFound := by
        simp [OrdersMemory.getOrderById, hnone]
      rw [this]; exact ⟨rfl, rfl⟩
    · intro order hfind hne
      have : OrdersMemory.getOrderById w user orderId = .accessDenied := by
        simp [OrdersMemory.getOrderById, hfind, hne]
      rw [this]; exact ⟨rfl, rfl, rfl⟩
    · intro order hfound
      unfold OrdersMemory.getOrderById at hfound
      cases hfind : w.orders.find? (fun o => decide (some (o.id : Int) = orderId)) with
      | none => rw [hfind] at hfound; simp at hfound
      | some o =>
        rw [hfind] at hfound
        simp only at hfound
        by_cases hu : o.userId ≠ user.id
        · simp [hu] at hfound
        · simp only [hu, if_false, OrdersMemory.OrderResponse.found.injEq] at hfound
          subst hfound
          simpa using hu
  · intro w user
    refine ⟨rfl, List.filter_sublist _, ?_, rfl⟩
    intro o
    simp [OrdersMemory.getOrders, List.mem_filter]

/-- Witness of C16: the order `O1` (in memory: order 1) of user 7 is refused to the
customer 8 and not found under another id; user 8 lists no order and user 7
lists the one order. -/
theorem order_access_restricted_witness :
    getOrderById false orderWorld otherUser "O1" = .accessDenied ∧
    getOrderById false orderWorld otherUser "O2" = .notFound ∧
    OrdersMemory.getOrderById OrdersMemory.orderWorld OrdersMemory.otherUser (some 1)
      = .accessDenied ∧
    OrdersMemory.getOrderById OrdersMemory.orderWorld OrdersMemory.otherUser (some 5)
      = .notFound ∧
    (OrdersMemory.getOrders OrdersMemory.orderWorld OrdersMemory.otherUser).2 = 0 ∧
    (OrdersMemory.getOrders OrdersMemory.orderWorld OrdersMemory.sampleUser).2 = 1 :=
  ⟨((order_access_restricted.1 orderWorld otherUser "O1").2.1 _ rfl
      (by decide) (by decide)).1,
   ((order_access_restricted.1 orderWorld otherUser "O2").1 (by decide)).1,
   ((order_access_restricted.2.1 OrdersMemory.orderWorld OrdersMemory.otherUser
      (some 1)).2.1 _ rfl (by decide)).1,
   ((order_access_restricted.2.1 OrdersMemory.orderWorld OrdersMemory.otherUser
      (some 5)).1 (by decide)).1,
   by decide, by decide⟩

/-- C17, as the claim states it, fails for the in-memory orders service: its handler
refuses every requester who is not the owner, an admin included. The admin
(user 1) asks for order 1 of user 7 and is answered 403 `Access denied`. -/
theorem admin_order_access_counterexample :
    OrdersMemory.adminUser.role = "admin" ∧
    OrdersMemory.orderWorld.orders.map (fun o => (o.id, o.userId)) = [(1, 7)] ∧
    OrdersMemory.getOrderById OrdersMemory.orderWorld OrdersMemory.adminUser (some 1)
      = .accessDenied ∧
    (OrdersMemory.getOrderById OrdersMemory.orderWorld OrdersMemory.adminUser
      (some 1)).status = 403 ∧
    (OrdersMemory.getOrderById OrdersMemory.orderWorld OrdersMemory.adminUser
      (some 1)).text = some "Access denied" := by
  decide

/-- C17 amended: in the Firestore orders service, for every existing order and
every authenticated requester whose role is `admin`, `GET /orders/:id` returns
that order, whether or not the admin owns it. In the in-memory orders service
`GET /orders/:id` returns an existing order exactly to its owner: a requester
with another id is answered 403 whatever the role. -/
theorem admin_order_access :
    (∀ (w : World) (user : User) (id : String) (orderDoc : String × Order),
      getOrderDoc w.orders id = some orderDoc → user.role = "admin" →
      getOrderById false w user id = .found orderDoc.1 orderDoc.2 ∧
      (getOrderById false w user id).status = 200 ∧ orderDoc.1 = id) ∧
    (∀ (w : OrdersMemory.World) (user : OrdersMemory.User) (orderId : Option Int)
        (order : OrdersMemory.Order),
      w.orders.find? (fun o => decide (some (o.id : Int) = orderId)) = some order →
      (order.userId = user.id →
        OrdersMemory.getOrderById w user orderId = .found order) ∧
      (order.userId ≠ user.id →
        OrdersMemory.getOrderById w user orderId = .accessDenied)) := by
  constructor
  · intro w user id orderDoc hdoc hrole
    have hid : orderDoc.1 = id := by
      unfold getOrderDoc at hdoc
      simpa using List.find?_some hdoc
    have : getOrderById false w user id = .found orderDoc.1 orderDoc.2 := by
      simp [getOrderById, hdoc, hrole]
    rw [this]; exact ⟨rfl, rfl, hid⟩
  · intro w user orderId order hfind
    constructor
    · intro hown; simp [OrdersMemory.getOrderById, hfind, hown]
    · intro hne; simp [OrdersMemory.getOrderById, hfind, hne]

/-- Witness of C17 amended: in the Firestore service the admin (user 1) reads the
order `O1` of user 7; in memory user 7 reads the own order 1. -/
theorem admin_order_access_witness :
    (getOrderById false orderWorld adminUser "O1").status = 200 ∧
    (∃ order, OrdersMemory.getOrderById OrdersMemory.orderWorld OrdersMemory.sampleUser
      (some 1) = .found order ∧ order.userId = 7) := by
  refine ⟨?_, ?_⟩
  · exact ((admin_order_access.1 orderWorld adminUser "O1" _ rfl rfl).2).1
  · exact ⟨_, (admin_order_access.2 OrdersMemory.orderWorld OrdersMemory.sampleUser (some 1)
      _ rfl).1 rfl, rfl⟩

/-! ### Authentication of the orders routes -/

theorem truthy_mk (part : List Char) : truthy (some (String.mk part)) = !part.isEmpty := by
  cases part with
  | nil => rfl
  | cons c cs =>
    have hne : String.mk (c :: cs) ≠ "" := by
      intro h
      have := congrArg String.data h
      simp at this
    simp [truthy, hne]

/-- A header that is absent, has no second part or an empty second part yields no
usable token. -/
theorem bearerToken_falsy (authHeader : Option String)
    (h : authHeader = none ∨ ∃ header, authHeader = some header ∧
      ((splitSpace header.toList)[1]? = none ∨ (splitSpace header.toList)[1]? = some [])) :
    truthy (bearerToken authHeader) = false := by
  rcases h with rfl | ⟨header, rfl, hpart⟩
  · rfl
  · unfold bearerToken
    by_cases he : header = ""
    · simp [he, truthy]
    · simp only [he, if_false]
      rcases hpart with hp | hp
      · rw [hp]; rfl
      · rw [hp]; rfl

/-- The token of a header is its second part between spaces, when that part is
not empty. -/
theorem bearerToken_part (header : String) (part : List Char)
    (hpart : (splitSpace header.toList)[1]? = some part) (hne : part ≠ []) :
    bearerToken (some header) = some (String.mk part) ∧
    truthy (some (String.mk part)) = true := by
  have he : header ≠ "" := by
    intro h
    rw [h] at hpart
    simp [splitSpace] at hpart
  constructor
  · unfold bearerToken
    simp only [he, if_false]
    rw [hpart]; rfl
  · rw [truthy_mk]
    cases part with
    | nil => exact absurd rfl hne
    | cons c cs => rfl

/-- C18: every route of the orders service runs behind the authentication
middleware (`authenticateUser` in the Firestore service, `authenticateToken` in
memory), whatever its handler `next`. A request whose `authorization` header is
absent or has no second part between spaces (or an empty one) is answered 401,
a request whose token `verifyToken` rejects is answered 403, and in both cases
the stores are unchanged and the handler does not run; otherwise the handler
runs with `req.user` the claims that `verifyToken` returns for the second part
of the header. -/
theorem orders_routes_authenticated {W R : Type} (authHeader : Option String) (w : W) :
    (∀ (verifyToken : String → Option User) (next : User → W → W × R),
      ((authHeader = none ∨ ∃ header, authHeader = some header ∧
          ((splitSpace header.toList)[1]? = none ∨
            (splitSpace header.toList)[1]? = some [])) →
        authenticateUser verifyToken authHeader next w = (w, .unauthorized) ∧
        OrdersFirestore.authError (R := R) .unauthorized =
          some (401, "Access token required")) ∧
      (∀ header part, authHeader = some header →
        (splitSpace header.toList)[1]? = some part → part ≠ [] →
        (verifyToken (String.mk part) = none →
          authenticateUser verifyToken authHeader next w = (w, .forbidden) ∧
          OrdersFirestore.authError (R := R) .forbidden =
            some (403, "Invalid or expired token")) ∧
        (∀ user, verifyToken (String.mk part) = some user →
          authenticateUser verifyToken authHeader next w =
            ((next user w).1, .handled (next user w).2)))) ∧
    (∀ (verifyToken : String → Option OrdersMemory.User)
        (next : OrdersMemory.User → W → W × R),
      ((authHeader = none ∨ ∃ header, authHeader = some header ∧
          ((splitSpace header.toList)[1]? = none ∨
            (splitSpace header.toList)[1]? = some [])) →
        OrdersMemory.authenticateToken verifyToken authHeader next w = (w, .unauthorized) ∧
        OrdersMemory.authError (R := R) .unauthorized =
          some (401, "Access token is required")) ∧
      (∀ header part, authHeader = some header →
        (splitSpace header.toList)[1]? = some part → part ≠ [] →
        (verifyToken (String.mk part) = none →
          OrdersMemory.authenticateToken verifyToken authHeader next w = (w, .forbidden) ∧
          OrdersMemory.authError (R := R) .forbidden =
            some (403, "Invalid or expired token")) ∧
        (∀ user, verifyToken (String.mk part) = some user →
          OrdersMemory.authenticateToken verifyToken authHeader next w =
            ((next user w).1, .handled (next user w).2)))) := by
  constructor
  · intro verifyToken next
    constructor
    · intro h
      have hf := bearerToken_falsy authHeader h
      exact ⟨by simp [authenticateUser, hf], rfl⟩
    · intro header part hh hpart hne
      subst hh
      obtain ⟨ht, htr⟩ := bearerToken_part header part hpart hne
      constructor
      · intro hv
        exact ⟨by simp [authenticateUser, ht, htr, hv], rfl⟩
      · intro user hv
        simp [authenticateUser, ht, htr, hv]
  · intro verifyToken next
    constructor
    · intro h
      have hf := bearerToken_falsy authHeader h
      exact ⟨by simp [OrdersMemory.authenticateToken, hf], rfl⟩
    · intro header part hh hpart hne
      subst hh
      obtain ⟨ht, htr⟩ := bearerToken_part header part hpart hne
      constructor
      · intro hv
        exact ⟨by simp [OrdersMemory.authenticateToken, ht, htr, hv], rfl⟩
      · intro user hv
        simp [OrdersMemory.authenticateToken, ht, htr, hv]

/-- Witness of C18: the route `POST /orders` of the Firestore service. Without
header and with the header `Bearer` alone it answers 401, with a token that the
users service rejects 403, the stores unchanged; with the header `Bearer tok`
and a token verified as user 7 the checkout of user 7 runs. -/
theorem orders_routes_authenticated_witness :
    authenticateUser (fun _ => none) none
      (fun user w => ((createOrder (quiet "O1") w user sampleBody).world,
        (createOrder (quiet "O1") w user sampleBody).response)) sampleWorld
      = (sampleWorld, .unauthorized) ∧
    authenticateUser (fun _ => none) (some "Bearer")
      (fun user w => ((createOrder (quiet "O1") w user sampleBody).world,
        (createOrder (quiet "O1") w user sampleBody).response)) sampleWorld
      = (sampleWorld, .unauthorized) ∧
    authenticateUser (fun _ => none) (some "Bearer tok")
      (fun user w => ((createOrder (quiet "O1") w user sampleBody).world,
        (createOrder (quiet "O1") w user sampleBody).response)) sampleWorld
      = (sampleWorld, .forbidden) ∧
    authenticateUser (fun token => if token = "tok" then some sampleUser else none)
      (some "Bearer tok")
      (fun user w => ((createOrder (quiet "O1") w user sampleBody).world,
        (createOrder (quiet "O1") w user sampleBody).response)) sampleWorld
      = ((createOrder (quiet "O1") sampleWorld sampleUser sampleBody).world,
         .handled (createOrder (quiet "O1") sampleWorld sampleUser sampleBody).response) :=
  ⟨((orders_routes_authenticated none sampleWorld).1 _ _).1 (Or.inl rfl) |>.1,
   ((orders_routes_authenticated (some "Bearer") sampleWorld).1 _ _).1
      (Or.inr ⟨"Bearer", rfl, Or.inl (by decide)⟩) |>.1,
   (((orders_routes_authenticated (some "Bearer tok") sampleWorld).1 _ _).2
      "Bearer tok" ['t', 'o', 'k'] rfl (by decide) (by decide)).1 rfl |>.1,
   (((orders_routes_authenticated (some "Bearer tok") sampleWorld).1
      (fun token => if token = "tok" then some sampleUser else none) _).2
      "Bearer tok" ['t', 'o', 'k'] rfl (by decide) (by decide)).2 sampleUser (by decide)⟩

/-! ### The users service -/

theorem splitSpace_of_no_space (cs : List Char) (h : ' ' ∉ cs) : splitSpace cs = [cs] := by
  induction cs with
  | nil => rfl
  | cons c cs ih =>
    have hc : c ≠ ' ' := fun e => h (e ▸ List.mem_cons_self _ _)
    have hcs : ' ' ∉ cs := fun e => h (List.mem_cons_of_mem _ e)
    simp [splitSpace, hc, ih hcs]

/-- The header `Bearer <token>` carries the token, when the token is not empty and
has no space. -/
theorem bearerToken_bearer (token : String) (hne : token ≠ "") (hsp : ' ' ∉ token.toList) :
    bearerToken (some ("Bearer " ++ token)) = some token ∧ truthy (some token) = true := by
  have hdata : ("Bearer " ++ token).toList =
      'B' :: 'e' :: 'a' :: 'r' :: 'e' :: 'r' :: ' ' :: token.toList := by
    show ("Bearer " ++ token).data = _
    rw [String.data_append]
    rfl
  have hsplit : splitSpace ("Bearer " ++ token).toList =
      [['B', 'e', 'a', 'r', 'e', 'r'], token.toList] := by
    rw [hdata]
    have hs : splitSpace token.data = [token.data] := splitSpace_of_no_space _ hsp
    simp [splitSpace, hs]
  have hpart : (splitSpace ("Bearer " ++ token).toList)[1]? = some token.toList := by
    rw [hsplit]; rfl
  have hne2 : token.toList ≠ [] := by
    intro h
    apply hne
    have : token = String.mk token.toList := rfl
    rw [this, h]
  have := bearerToken_part ("Bearer " ++ token) token.toList hpart hne2
  exact this

/-- C19, the behaviour of the code: in the PostgreSQL users service the payload
that `generateToken` signs has the property `id` and no property `userId`, and
the handler of `GET /users/me` selects by `req.user.userId`. For every user `u`,
whatever the table `users` holds, the request `GET /users/me` with the header
`Bearer <generateToken(u)>` passes the middleware, sends `NULL` as the id, and is
answered 404 `User not found` instead of the profile of `u`. -/
theorem users_me_lookup_misses (jwt : JwtLib) (users : List UsersPostgres.UserRow)
    (u : UsersPostgres.UserRow)
    (hdec : jwt.Decodes (UsersPostgres.tokenPayload u))
    (hsend : jwt.Sendable (UsersPostgres.tokenPayload u)) :
    UsersPostgres.getMe jwt false users
      (some ("Bearer " ++ UsersPostgres.generateToken jwt u)) = .handled .notFound ∧
    (∀ decoded, jwt.verify (UsersPostgres.generateToken jwt u) = some decoded →
      decoded.get "userId" = none ∧ decoded.get "id" = some (.num u.id)) := by
  obtain ⟨iat, exp, hver⟩ := hdec
  obtain ⟨hne, hsp⟩ := hsend
  obtain ⟨htok, htr⟩ := bearerToken_bearer (jwt.sign (UsersPostgres.tokenPayload u)) hne hsp
  have hget : (UsersPostgres.tokenPayload u ++
      [("iat", JsValue.num iat), ("exp", JsValue.num exp)]).get "userId" = none := by
    simp [JsObject.get, UsersPostgres.tokenPayload, List.find?_cons]
  constructor
  · unfold UsersPostgres.getMe UsersPostgres.authenticateToken UsersPostgres.generateToken
    simp only [htok, htr, Bool.not_true, Bool.false_eq_true, if_false, Option.getD_some, hver]
    unfold UsersPostgres.getMeHandler
    simp only [Bool.false_eq_true, if_false, hget]
    rfl
  · intro decoded hd
    unfold UsersPostgres.generateToken at hd
    rw [hver] at hd
    have : decoded = UsersPostgres.tokenPayload u ++
        [("iat", JsValue.num iat), ("exp", JsValue.num exp)] := by
      simpa using hd.symm
    subst this
    refine ⟨hget, ?_⟩
    simp [JsObject.get, UsersPostgres.tokenPayload, List.find?_cons]

/-- The failing input of C19: the table holds the user 7, the request carries the
token that `generateToken` made for this user, and `GET /users/me` answers 404
although the row with id 7 exists. -/
theorem users_me_lookup_misses_witness :
    UsersPostgres.sampleUserRow ∈ [UsersPostgres.sampleUserRow] ∧
    UsersPostgres.generateToken UsersPostgres.sampleJwt UsersPostgres.sampleUserRow = "tok" ∧
    UsersPostgres.getMe UsersPostgres.sampleJwt false [UsersPostgres.sampleUserRow]
      (some ("Bearer " ++
        UsersPostgres.generateToken UsersPostgres.sampleJwt UsersPostgres.sampleUserRow))
      = .handled .notFound ∧
    (UsersPostgres.MeResponse.notFound).status = 404 :=
  ⟨by decide, rfl,
   (users_me_lookup_misses UsersPostgres.sampleJwt [UsersPostgres.sampleUserRow]
      UsersPostgres.sampleUserRow ⟨1, 2, rfl⟩ ⟨by decide, by decide⟩).1,
   rfl⟩

theorem get_formatUserResponse (o : JsObject) (key : String) (hkey : key ≠ "password") :
    (UsersMemory.formatUserResponse o).get key = o.get key := by
  unfold UsersMemory.formatUserResponse JsObject.get
  rw [List.find?_filter]
  have hfun : (fun (a : String × JsValue) =>
      decide ((!decide (a.1 = "password")) = true ∧ decide (a.1 = key) = true)) =
      (fun a => decide (a.1 = key)) := by
    funext a
    by_cases h : a.1 = key
    · have hp : ¬ a.1 = "password" := fun e => hkey (h ▸ e)
      simp [h, hp, hkey]
    · simp [h]
  rw [hfun]

theorem get_password_formatUserResponse (o : JsObject) :
    (UsersMemory.formatUserResponse o).get "password" = none := by
  unfold UsersMemory.formatUserResponse JsObject.get
  have : (o.filter (fun kv => !decide (kv.1 = "password"))).find?
      (fun kv => decide (kv.1 = "password")) = none := by
    rw [List.find?_eq_none]
    intro kv hkv
    have := (List.mem_filter.mp hkv).2
    simpa using this
  rw [this]; rfl

/-- C20: `formatUserResponse` removes the password and nothing else. The result has
no property `password`, every other property has the value it has in the
record, in the same order, and two user records that differ only in their
password give equal results. Every user object in an answer of register,
login, `GET /users/me`, `GET /users/:id` and `GET /users` of the in-memory users
service is `formatUserResponse` of a stored user. -/
theorem format_user_response_hides_password :
    (∀ o : JsObject,
      (UsersMemory.formatUserResponse o).get "password" = none ∧
      (∀ key, key ≠ "password" → (UsersMemory.formatUserResponse o).get key = o.get key) ∧
      (UsersMemory.formatUserResponse o).Sublist o) ∧
    (∀ (u : UsersMemory.UserRecord) (password : String),
      UsersMemory.formatUserResponse ({ u with password := password }).toObject =
        UsersMemory.formatUserResponse u.toObject) ∧
    (∀ (rt : UsersMemory.Runtime) (w : UsersMemory.World) (body : UsersMemory.RegisterBody),
      ∀ o ∈ (UsersMemory.register rt w body).2.userObjects,
        ∃ u ∈ (UsersMemory.register rt w body).1.users,
          o = UsersMemory.formatUserResponse u.toObject) ∧
    (∀ (rt : UsersMemory.Runtime) (w : UsersMemory.World) (email password : Option String),
      ∀ o ∈ (UsersMemory.login rt w email password).userObjects,
        ∃ u ∈ w.users, o = UsersMemory.formatUserResponse u.toObject) ∧
    (∀ (rt : UsersMemory.Runtime) (w : UsersMemory.World) (authHeader : Option String),
      ∀ o ∈ (UsersMemory.getMe rt w authHeader).userObjects,
        ∃ u ∈ w.users, o = UsersMemory.formatUserResponse u.toObject) ∧
    (∀ (w : UsersMemory.World) (userId : Option Int),
      ∀ o ∈ (UsersMemory.getUserById w userId).userObjects,
        ∃ u ∈ w.users, o = UsersMemory.formatUserResponse u.toObject) ∧
    (∀ (rt : UsersMemory.Runtime) (w : UsersMemory.World) (authHeader : Option String),
      ∀ o ∈ (UsersMemory.listUsers rt w authHeader).userObjects,
        ∃ u ∈ w.users, o = UsersMemory.formatUserResponse u.toObject) := by
  refine ⟨?_, ?_, ?_, ?_, ?_, ?_, ?_⟩
  · intro o
    exact ⟨get_password_formatUserResponse o, fun key hkey => get_formatUserResponse o key hkey,
      List.filter_sublist _⟩
  · intro u password
    simp [UsersMemory.formatUserResponse, UsersMemory.UserRecord.toObject, List.filter_cons]
  · intro rt w body o ho
    unfold UsersMemory.register at ho ⊢
    by_cases h1 : (!truthy body.email || !truthy body.password || !truthy body.firstName ||
        !truthy body.lastName) = true
    · simp [h1, UsersMemory.Response.userObjects] at ho
    · simp only [h1] at ho ⊢
      by_cases h2 : (!UsersMemory.emailRegexTest (body.email.getD "")) = true
      · simp [h2, UsersMemory.Response.userObjects] at ho
      · simp only [h2] at ho ⊢
        by_cases h3 : UsersMemory.utf16Length (body.password.getD "") < 6
        · simp [h3, UsersMemory.Response.userObjects] at ho
        · simp only [h3] at ho ⊢
          cases hfind : w.users.find? (fun u =>
              rt.toLowerCase u.email == rt.toLowerCase (body.email.getD "")) with
          | some existing =>
            rw [hfind] at ho
            simp [UsersMemory.Response.userObjects] at ho
          | none =>
            rw [hfind] at ho
            simp only [Bool.false_eq_true, if_false, UsersMemory.Response.userObjects,
              List.mem_singleton] at ho
            simp only [Bool.false_eq_true, if_false]
            exact ⟨_, by simp, ho⟩
  · intro rt w email password o ho
    unfold UsersMemory.login at ho
    by_cases h1 : (!truthy email || !truthy password) = true
    · simp [h1, UsersMemory.Response.userObjects] at ho
    · simp only [h1] at ho
      cases hfind : w.users.find? (fun u =>
          rt.toLowerCase u.email == rt.toLowerCase (email.getD "")) with
      | none => rw [hfind] at ho; simp [UsersMemory.Response.userObjects] at ho
      | some user =>
        rw [hfind] at ho
        by_cases h2 : (!rt.bcryptCompare (password.getD "") user.password) = true
        · simp [h2, UsersMemory.Response.userObjects] at ho
        · simp only [h2, Bool.false_eq_true, if_false, UsersMemory.Response.userObjects,
            List.mem_singleton] at ho
          exact ⟨user, List.mem_of_find?_eq_some hfind, ho⟩
  · intro rt w authHeader o ho
    unfold UsersMemory.getMe UsersMemory.authenticateToken at ho
    by_cases h1 : (!truthy (bearerToken authHeader)) = true
    · simp [h1, UsersMemory.Response.userObjects] at ho
    · simp only [h1] at ho
      cases hver : rt.jwt.verify ((bearerToken authHeader).getD "") with
      | none => rw [hver] at ho; simp [UsersMemory.Response.userObjects] at ho
      | some reqUser =>
        rw [hver] at ho
        simp only [Bool.false_eq_true, if_false] at ho
        cases hfind : w.users.find? (fun u =>
            decide (some (JsValue.num u.id) = reqUser.get "id")) with
        | none => rw [hfind] at ho; simp [UsersMemory.Response.userObjects] at ho
        | some user =>
          rw [hfind] at ho
          simp only [UsersMemory.Response.userObjects, List.mem_singleton] at ho
          exact ⟨user, List.mem_of_find?_eq_some hfind, ho⟩
  · intro w userId o ho
    unfold UsersMemory.getUserById at ho
    cases hfind : w.users.find? (fun u => decide (some u.id = userId)) with
    | none => rw [hfind] at ho; simp [UsersMemory.Response.userObjects] at ho
    | some user =>
      rw [hfind] at ho
      simp only [UsersMemory.Response.userObjects, List.mem_singleton] at ho
      exact ⟨user, List.mem_of_find?_eq_some hfind, ho⟩
  · intro rt w authHeader o ho
    unfold UsersMemory.listUsers UsersMemory.authenticateToken at ho
    by_cases h1 : (!truthy (bearerToken authHeader)) = true
    · simp [h1, UsersMemory.Response.userObjects] at ho
    · simp only [h1] at ho
      cases hver : rt.jwt.verify ((bearerToken authHeader).getD "") with
      | none => rw [hver] at ho; simp [UsersMemory.Response.userObjects] at ho
      | some reqUser =>
        rw [hver] at ho
        simp only [Bool.false_eq_true, if_false] at ho
        by_cases hrole : reqUser.get "role" ≠ some (.str "admin")
        · simp [hrole, UsersMemory.Response.userObjects] at ho
        · simp only [hrole, if_false, UsersMemory.Response.userObjects, List.mem_map] at ho
          obtain ⟨u, hu, heq⟩ := ho
          exact ⟨u, hu, heq.symm⟩

/-- Witness of C20: the answer of `GET /users/:id` for the sample user has the six
properties other than `password`. -/
theorem format_user_response_hides_password_witness :
    UsersMemory.getUserById { users := [UsersMemory.sampleRecord], userIdCounter := 3 }
        (some 2) =
      .user [("id", .num 2), ("email", .str "customer@example.com"),
             ("firstName", .str "John"), ("lastName", .str "Doe"),
             ("role", .str "customer"), ("createdAt", .date 1)] ∧
    (UsersMemory.formatUserResponse UsersMemory.sampleRecord.toObject).get "password"
      = none ∧
    (UsersMemory.sampleRecord.toObject).get "password" = some (.str "$2a$10$hash") ∧
    (UsersMemory.formatUserResponse UsersMemory.sampleRecord.toObject).get "email" =
      (UsersMemory.sampleRecord.toObject).get "email" :=
  ⟨by decide,
   (format_user_response_hides_password.1 UsersMemory.sampleRecord.toObject).1,
   by decide,
   (format_user_response_hides_password.1 UsersMemory.sampleRecord.toObject).2.1 "email"
     (by decide)⟩

/-! ### Registration in the in-memory users service -/

namespace UsersMemory

theorem emailSplit_iff (cs : List Char) :
    (∃ i, i < cs.length ∧ ∃ j, j < cs.length ∧
      (((((((0 < i ∧ i + 1 < j) ∧ j + 1 < cs.length) ∧ cs[i]? = some '@') ∧
        cs[j]? = some '.') ∧ ∀ x ∈ cs.take i, isEmailChar x = true) ∧
        ∀ x ∈ (cs.drop (i + 1)).take (j - (i + 1)), isEmailChar x = true) ∧
        ∀ x ∈ cs.drop (j + 1), isEmailChar x = true)) ↔
    ∃ a b c : List Char, cs = a ++ '@' :: (b ++ '.' :: c) ∧
      a ≠ [] ∧ b ≠ [] ∧ c ≠ [] ∧
      (∀ x ∈ a, isEmailChar x = true) ∧ (∀ x ∈ b, isEmailChar x = true) ∧
      (∀ x ∈ c, isEmailChar x = true) := by
  constructor
  · rintro ⟨i, hi, j, hj, ⟨⟨⟨⟨⟨⟨⟨h0, hij⟩, hjl⟩, hat⟩, hdot⟩, ha⟩, hb⟩, hc⟩⟩
    refine ⟨cs.take i, (cs.drop (i + 1)).take (j - (i + 1)), cs.drop (j + 1),
      ?_, ?_, ?_, ?_, ha, hb, hc⟩
    · have hi2 : cs[i] = '@' := by
        rw [List.getElem?_eq_getElem hi] at hat; simpa using hat
      have hj2 : cs[j] = '.' := by
        rw [List.getElem?_eq_getElem hj] at hdot; simpa using hdot
      have h1 : cs.drop i = '@' :: cs.drop (i + 1) := by
        rw [List.drop_eq_getElem_cons hi, hi2]
      have h2 : cs.drop j = '.' :: cs.drop (j + 1) := by
        rw [List.drop_eq_getElem_cons hj, hj2]
      have h3 : (cs.drop (i + 1)).drop (j - (i + 1)) = cs.drop j := by
        rw [List.drop_drop]; congr 1; omega
      calc cs
          = cs.take i ++ cs.drop i := (List.take_append_drop i _).symm
        _ = cs.take i ++ '@' :: cs.drop (i + 1) := by rw [h1]
        _ = cs.take i ++ '@' ::
              ((cs.drop (i + 1)).take (j - (i + 1)) ++
                (cs.drop (i + 1)).drop (j - (i + 1))) := by
            rw [List.take_append_drop]
        _ = _ := by rw [h3, h2]
    · intro h
      have hl : (cs.take i).length = min i cs.length := List.length_take _ _
      rw [h, List.length_nil] at hl
      omega
    · intro h
      have hl : ((cs.drop (i + 1)).take (j - (i + 1))).length =
          min (j - (i + 1)) (cs.length - (i + 1)) := by
        rw [List.length_take, List.length_drop]
      rw [h, List.length_nil] at hl
      omega
    · intro h
      have hl : (cs.drop (j + 1)).length = cs.length - (j + 1) := List.length_drop _ _
      rw [h, List.length_nil] at hl
      omega
  · rintro ⟨a, b, c, heq, ha0, hb0, hc0, ha, hb, hc⟩
    have hla : 0 < a.length := List.length_pos.mpr ha0
    have hlb : 0 < b.length := List.length_pos.mpr hb0
    have hlc : 0 < c.length := List.length_pos.mpr hc0
    have hlen : cs.length = a.length + (1 + (b.length + (1 + c.length))) := by
      rw [heq]; simp; omega
    refine ⟨a.length, by omega, a.length + 1 + b.length, by omega, ?_⟩
    refine ⟨⟨⟨⟨⟨⟨⟨hla, by omega⟩, by omega⟩, ?_⟩, ?_⟩, ?_⟩, ?_⟩, ?_⟩
    · rw [heq, List.getElem?_append_right (le_refl _)]; simp
    · rw [heq]
      rw [List.getElem?_append_right (by omega)]
      have : a.length + 1 + b.length - a.length = b.length + 1 := by omega
      rw [this, List.getElem?_cons_succ, List.getElem?_append_right (le_refl _)]
      simp
    · rw [heq]; simpa using ha
    · have : cs.drop (a.length + 1) = b ++ '.' :: c := by
        rw [heq, ← List.drop_drop, List.drop_left]; rfl
      rw [this]
      have h2 : a.length + 1 + b.length - (a.length + 1) = b.length := by omega
      rw [h2]
      simpa using hb
    · have : cs.drop (a.length + 1 + b.length + 1) = c := by
        have e : cs = (a ++ '@' :: b ++ ['.']) ++ c := by rw [heq]; simp
        have hl : (a ++ '@' :: b ++ ['.']).length = a.length + 1 + b.length + 1 := by
          simp; omega
        rw [e, ← hl, List.drop_left]
      rw [this]
      exact hc

/-- The regular expression of the register handler accepts exactly the addresses
of the form `EmailForm`. -/
theorem emailRegexTest_iff (email : String) :
    emailRegexTest email = true ↔ EmailForm email := by
  unfold emailRegexTest EmailForm
  rw [← emailSplit_iff]
  simp only [List.any_eq_true, List.mem_range, Bool.and_eq_true, decide_eq_true_eq,
    List.all_eq_true]

end UsersMemory
namespace UsersMemory

/-- The register handler once its first test has passed: the remaining three
tests in the order of the source, then the new record. -/
theorem register_of_present (rt : Runtime) (w : World) (body : RegisterBody)
    (he : truthy body.email = true) (hp : truthy body.password = true)
    (hf : truthy body.firstName = true) (hl : truthy body.lastName = true) :
    register rt w body =
      if emailRegexTest (body.email.getD "") = false then
        (w, .failure 400 "Invalid email format")
      else if utf16Length (body.password.getD "") < 6 then
        (w, .failure 400 "Password must be at least 6 characters long")
      else if ∃ u ∈ w.users, rt.toLowerCase u.email = rt.toLowerCase (body.email.getD "") then
        (w, .failure 409 "Email already registered")
      else
        ({ users := w.users ++
            [{ id := w.userIdCounter, email := rt.toLowerCase (body.email.getD ""),
               password := rt.bcryptHash (body.password.getD ""),
               firstName := body.firstName.getD "", lastName := body.lastName.getD "",
               role := "customer", createdAt := rt.now }],
           userIdCounter := w.userIdCounter + 1 },
         .registered
           (formatUserResponse (UserRecord.toObject
             { id := w.userIdCounter, email := rt.toLowerCase (body.email.getD ""),
               password := rt.bcryptHash (body.password.getD ""),
               firstName := body.firstName.getD "", lastName := body.lastName.getD "",
               role := "customer", createdAt := rt.now }))
           (generateToken rt.jwt
             { id := w.userIdCounter, email := rt.toLowerCase (body.email.getD ""),
               password := rt.bcryptHash (body.password.getD ""),
               firstName := body.firstName.getD "", lastName := body.lastName.getD "",
               role := "customer", createdAt := rt.now })) := by
  unfold register
  simp only [he, hp, hf, hl, Bool.not_true, Bool.or_self, Bool.false_eq_true, if_false]
  by_cases hre : emailRegexTest (body.email.getD "") = true
  · simp only [hre, Bool.not_true, Bool.false_eq_true, if_false, Bool.true_eq_false]
    by_cases hlen : utf16Length (body.password.getD "") < 6
    · simp only [hlen, if_true]
    · simp only [hlen, if_false]
      by_cases hd : ∃ u ∈ w.users, rt.toLowerCase u.email = rt.toLowerCase (body.email.getD "")
      · simp only [hd, if_true]
        obtain ⟨u, hu, hue⟩ := hd
        cases hfind : w.users.find?
            (fun u => rt.toLowerCase u.email == rt.toLowerCase (body.email.getD "")) with
        | none =>
          rw [List.find?_eq_none] at hfind
          exact absurd (by simpa using hue) (hfind u hu)
        | some _ => rfl
      · simp only [hd, if_false]
        have hfind : w.users.find?
            (fun u => rt.toLowerCase u.email == rt.toLowerCase (body.email.getD "")) = none := by
          rw [List.find?_eq_none]
          intro u hu hue
          exact hd ⟨u, hu, by simpa using hue⟩
        rw [hfind]
  · have hre2 : emailRegexTest (body.email.getD "") = false := by
      simpa using hre
    simp [hre2]

/-- Every stored id stays below the counter, and the stored ids are distinct. -/
theorem registerAll_ids (rt : Runtime) (bodies : List RegisterBody) :
    ∀ w : World, ((∀ u ∈ w.users, u.id < w.userIdCounter) ∧ (w.users.map (fun u => u.id)).Nodup) →
      (∀ u ∈ (registerAll rt w bodies).users, u.id < (registerAll rt w bodies).userIdCounter) ∧
      ((registerAll rt w bodies).users.map (fun u => u.id)).Nodup := by
  induction bodies with
  | nil => intro w h; exact h
  | cons body rest ih =>
    intro w h
    have hstep : registerAll rt w (body :: rest) = registerAll rt (register rt w body).1 rest := rfl
    rw [hstep]
    apply ih
    by_cases hm : truthy body.email = true ∧ truthy body.password = true ∧
        truthy body.firstName = true ∧ truthy body.lastName = true
    · obtain ⟨he, hp, hf, hl⟩ := hm
      rw [register_of_present rt w body he hp hf hl]
      split_ifs
      · exact h
      · exact h
      · exact h
      · constructor
        · intro u hu
          simp only [List.mem_append, List.mem_singleton] at hu
          rcases hu with hu | hu
          · have := h.1 u hu; simp only; omega
          · subst hu; simp only; omega
        · simp only [List.map_append, List.map_cons, List.map_nil]
          rw [List.nodup_append]
          refine ⟨h.2, by simp, ?_⟩
          intro a ha1 ha2
          simp only [List.mem_map] at ha1
          obtain ⟨u, hu, rfl⟩ := ha1
          simp only [List.mem_singleton] at ha2
          have := h.1 u hu
          omega
    · have : (register rt w body).1 = w := by
        unfold register
        have hor : (!truthy body.email || !truthy body.password || !truthy body.firstName ||
            !truthy body.lastName) = true := by
          by_contra hc
          apply hm
          simp only [Bool.or_eq_true, Bool.not_eq_true', not_or, Bool.not_eq_false] at hc
          exact ⟨hc.1.1.1, hc.1.1.2, hc.1.2, hc.2⟩
        simp only [hor, if_true]
      rw [this]; exact h

end UsersMemory
/-- C21: `POST /auth/register` of the in-memory users service. With `missing` read
as absent or empty, the form of the address as `EmailForm` and the length of the
password counted in UTF-16 code units, the request is answered 400 when a field
is missing, else 400 when the address has not the form, else 400 when the
password is shorter than 6, else 409 when a stored user has the same address
ignoring case, each time with the module state unchanged; the module state is
left unchanged and the answer is a failure exactly in these four cases.
Otherwise exactly one user is appended, with the counter as id, the address
lower-cased, the hashed password and the role `customer`, and the answer is
201. In every state reached from the start of the service the stored ids are
distinct and below the counter, so the id of a new user is used by no stored
user. -/
theorem register_outcomes (rt : UsersMemory.Runtime) :
    (∀ (w : UsersMemory.World) (body : UsersMemory.RegisterBody),
      ((truthy body.email = false ∨ truthy body.password = false ∨
          truthy body.firstName = false ∨ truthy body.lastName = false) →
        UsersMemory.register rt w body =
          (w, .failure 400 "Email, password, first name, and last name are required")) ∧
      (truthy body.email = true → truthy body.password = true →
        truthy body.firstName = true → truthy body.lastName = true →
        (¬ UsersMemory.EmailForm (body.email.getD "") →
          UsersMemory.register rt w body = (w, .failure 400 "Invalid email format")) ∧
        (UsersMemory.EmailForm (body.email.getD "") →
          UsersMemory.utf16Length (body.password.getD "") < 6 →
          UsersMemory.register rt w body =
            (w, .failure 400 "Password must be at least 6 characters long")) ∧
        (UsersMemory.EmailForm (body.email.getD "") →
          6 ≤ UsersMemory.utf16Length (body.password.getD "") →
          (∃ u ∈ w.users, rt.toLowerCase u.email = rt.toLowerCase (body.email.getD "")) →
          UsersMemory.register rt w body = (w, .failure 409 "Email already registered")) ∧
        (UsersMemory.EmailForm (body.email.getD "") →
          6 ≤ UsersMemory.utf16Length (body.password.getD "") →
          (∀ u ∈ w.users, rt.toLowerCase u.email ≠ rt.toLowerCase (body.email.getD "")) →
          ∃ newUser : UsersMemory.UserRecord,
            UsersMemory.register rt w body =
              ({ users := w.users ++ [newUser], userIdCounter := w.userIdCounter + 1 },
               .registered (UsersMemory.formatUserResponse newUser.toObject)
                 (UsersMemory.generateToken rt.jwt newUser)) ∧
            newUser.id = w.userIdCounter ∧
            newUser.email = rt.toLowerCase (body.email.getD "") ∧
            newUser.password = rt.bcryptHash (body.password.getD "") ∧
            some newUser.firstName = body.firstName ∧
            some newUser.lastName = body.lastName ∧
            newUser.role = "customer")) ∧
      (((UsersMemory.register rt w body).1 = w ∧
          ∃ status message, (UsersMemory.register rt w body).2 = .failure status message) ↔
        (truthy body.email = false ∨ truthy body.password = false ∨
          truthy body.firstName = false ∨ truthy body.lastName = false ∨
          ¬ UsersMemory.EmailForm (body.email.getD "") ∨
          UsersMemory.utf16Length (body.password.getD "") < 6 ∨
          ∃ u ∈ w.users, rt.toLowerCase u.email = rt.toLowerCase (body.email.getD "")))) ∧
    (∀ (bodies : List UsersMemory.RegisterBody),
      (∀ u ∈ (UsersMemory.registerAll rt UsersMemory.initial bodies).users,
        u.id < (UsersMemory.registerAll rt UsersMemory.initial bodies).userIdCounter) ∧
      ((UsersMemory.registerAll rt UsersMemory.initial bodies).users.map
        (fun u => u.id)).Nodup ∧
      (∀ (body : UsersMemory.RegisterBody) (newUser : UsersMemory.UserRecord),
        (UsersMemory.register rt (UsersMemory.registerAll rt UsersMemory.initial bodies)
            body).1.users =
          (UsersMemory.registerAll rt UsersMemory.initial bodies).users ++ [newUser] →
        ∀ u ∈ (UsersMemory.registerAll rt UsersMemory.initial bodies).users,
          u.id ≠ newUser.id)) := by
  have hmiss : ∀ (w : UsersMemory.World) (body : UsersMemory.RegisterBody),
      (truthy body.email = false ∨ truthy body.password = false ∨
          truthy body.firstName = false ∨ truthy body.lastName = false) →
        UsersMemory.register rt w body =
          (w, .failure 400 "Email, password, first name, and last name are required") := by
    intro w body h
    unfold UsersMemory.register
    have hor : (!truthy body.email || !truthy body.password || !truthy body.firstName ||
        !truthy body.lastName) = true := by
      rcases h with h | h | h | h <;> simp [h]
    simp only [hor, if_true]
  have hpresent : ∀ body : UsersMemory.RegisterBody,
      ¬ (truthy body.email = false ∨ truthy body.password = false ∨
          truthy body.firstName = false ∨ truthy body.lastName = false) →
      truthy body.email = true ∧ truthy body.password = true ∧
        truthy body.firstName = true ∧ truthy body.lastName = true := by
    intro body h
    simp only [not_or, Bool.not_eq_false] at h
    exact h
  have hsome : ∀ o : Option String, truthy o = true → some (o.getD "") = o := by
    intro o h
    cases o with
    | none => simp [truthy] at h
    | some s => rfl
  have hlen : ∀ (l : List UsersMemory.UserRecord) (x : UsersMemory.UserRecord),
      l ++ [x] ≠ l := by
    intro l x h
    have := congrArg List.length h
    simp at this
  have hids := fun bodies => UsersMemory.registerAll_ids rt bodies UsersMemory.initial
    ⟨by decide, by decide⟩
  refine ⟨fun w body => ⟨hmiss w body, ?_, ?_⟩, fun bodies => ⟨(hids bodies).1, (hids bodies).2, ?_⟩⟩
  · intro he hp hf hl
    have hreg := UsersMemory.register_of_present rt w body he hp hf hl
    refine ⟨?_, ?_, ?_, ?_⟩
    · intro hform
      have : UsersMemory.emailRegexTest (body.email.getD "") = false := by
        rw [← Bool.not_eq_true, UsersMemory.emailRegexTest_iff]; exact hform
      rw [hreg, if_pos this]
    · intro hform hshort
      have : UsersMemory.emailRegexTest (body.email.getD "") = true :=
        (UsersMemory.emailRegexTest_iff _).mpr hform
      rw [hreg]; simp only [this, Bool.true_eq_false, if_false, hshort, if_true]
    · intro hform hlong hdup
      have : UsersMemory.emailRegexTest (body.email.getD "") = true :=
        (UsersMemory.emailRegexTest_iff _).mpr hform
      have hnot : ¬ UsersMemory.utf16Length (body.password.getD "") < 6 := by omega
      rw [hreg]; simp only [this, Bool.true_eq_false, if_false, hnot, hdup, if_true]
    · intro hform hlong hnew
      have : UsersMemory.emailRegexTest (body.email.getD "") = true :=
        (UsersMemory.emailRegexTest_iff _).mpr hform
      have hnot : ¬ UsersMemory.utf16Length (body.password.getD "") < 6 := by omega
      have hnd : ¬ ∃ u ∈ w.users,
          rt.toLowerCase u.email = rt.toLowerCase (body.email.getD "") := by
        rintro ⟨u, hu, hue⟩; exact hnew u hu hue
      refine ⟨{ id := w.userIdCounter, email := rt.toLowerCase (body.email.getD ""),
                password := rt.bcryptHash (body.password.getD ""),
                firstName := body.firstName.getD "", lastName := body.lastName.getD "",
                role := "customer", createdAt := rt.now },
        ?_, rfl, rfl, rfl, hsome _ hf, hsome _ hl, rfl⟩
      rw [hreg]; simp only [this, Bool.true_eq_false, if_false, hnot, hnd]
  · constructor
    · rintro ⟨hw, status, message, hresp⟩
      by_contra hc
      simp only [not_or, not_not, Bool.not_eq_false, not_lt, not_exists, not_and] at hc
      obtain ⟨he, hp, hf, hl, hform, hlong, hnew⟩ := hc
      have hreg := UsersMemory.register_of_present rt w body he hp hf hl
      have : UsersMemory.emailRegexTest (body.email.getD "") = true :=
        (UsersMemory.emailRegexTest_iff _).mpr hform
      have hnot : ¬ UsersMemory.utf16Length (body.password.getD "") < 6 := by omega
      have hnd : ¬ ∃ u ∈ w.users,
          rt.toLowerCase u.email = rt.toLowerCase (body.email.getD "") := by
        rintro ⟨u, hu, hue⟩; exact hnew u hu hue
      rw [hreg] at hresp
      simp only [this, Bool.true_eq_false, if_false, hnot, hnd] at hresp
      cases hresp
    · intro h
      by_cases hm : truthy body.email = false ∨ truthy body.password = false ∨
          truthy body.firstName = false ∨ truthy body.lastName = false
      · rw [hmiss w body hm]; exact ⟨rfl, _, _, rfl⟩
      · obtain ⟨he, hp, hf, hl⟩ := hpresent body hm
        have hreg := UsersMemory.register_of_present rt w body he hp hf hl
        rw [hreg]
        split_ifs with h1 h2 h3
        · exact ⟨rfl, _, _, rfl⟩
        · exact ⟨rfl, _, _, rfl⟩
        · exact ⟨rfl, _, _, rfl⟩
        · exfalso
          rcases h with h | h | h | h | h | h | h
          · exact hm (Or.inl h)
          · exact hm (Or.inr (Or.inl h))
          · exact hm (Or.inr (Or.inr (Or.inl h)))
          · exact hm (Or.inr (Or.inr (Or.inr h)))
          · apply h
            rw [← UsersMemory.emailRegexTest_iff]
            simpa using h1
          · exact h2 h
          · exact h3 h
  · intro body newUser hreg u hu
    have hlt := (hids bodies).1 u hu
    by_cases hm : truthy body.email = false ∨ truthy body.password = false ∨
        truthy body.firstName = false ∨ truthy body.lastName = false
    · rw [hmiss _ body hm] at hreg
      exact absurd hreg.symm (hlen _ _)
    · obtain ⟨he, hp, hf, hl⟩ := hpresent body hm
      rw [UsersMemory.register_of_present rt _ body he hp hf hl] at hreg
      split_ifs at hreg
      · exact absurd hreg.symm (hlen _ _)
      · exact absurd hreg.symm (hlen _ _)
      · exact absurd hreg.symm (hlen _ _)
      · simp only at hreg
        have := List.append_cancel_left hreg
        simp only [List.cons.injEq, and_true] at this
        rw [← this]
        simp only
        omega

/-- Witness of C21: after the start of the service the body with the address
`Ann@Example.com` is registered as user 3 with the address in lower case; the
same address is then refused with 409, a password of five characters and an
address without a dot with 400, and the state stays as it was. -/
theorem register_outcomes_witness :
    (UsersMemory.register UsersMemory.sampleRuntime UsersMemory.initial
        UsersMemory.sampleBody).1.users.map (fun u => (u.id, u.email, u.role)) =
      [(1, "admin@ecommerce.com", "admin"), (2, "customer@example.com", "customer"),
       (3, "ann@example.com", "customer")] ∧
    UsersMemory.register UsersMemory.sampleRuntime
        (UsersMemory.registerAll UsersMemory.sampleRuntime UsersMemory.initial
          [UsersMemory.sampleBody])
        { UsersMemory.sampleBody with email := some "ANN@example.com" } =
      (UsersMemory.registerAll UsersMemory.sampleRuntime UsersMemory.initial
          [UsersMemory.sampleBody],
       .failure 409 "Email already registered") ∧
    (UsersMemory.register UsersMemory.sampleRuntime UsersMemory.initial
        { UsersMemory.sampleBody with password := some "abcde" }).2 =
      .failure 400 "Password must be at least 6 characters long" ∧
    (UsersMemory.register UsersMemory.sampleRuntime UsersMemory.initial
        { UsersMemory.sampleBody with email := some "ann@example" }).2 =
      .failure 400 "Invalid email format" ∧
    UsersMemory.register UsersMemory.sampleRuntime UsersMemory.initial
        { UsersMemory.sampleBody with lastName := none } =
      (UsersMemory.initial,
       .failure 400 "Email, password, first name, and last name are required") :=
  ⟨by decide, by decide, by decide, by decide,
   ((register_outcomes UsersMemory.sampleRuntime).1 UsersMemory.initial
      { UsersMemory.sampleBody with lastName := none }).1
      (Or.inr (Or.inr (Or.inr rfl)))⟩

/-! ### The stock under requests to products-service -/

/-- No request to products-service raises the stock of a product. -/
theorem step_stock_le (db : Database) (request : ProductsService.Request) (p s : Int)
    (hs : stockOf db.products p = some s) :
    ∃ s1, stockOf (ProductsService.step db request).products p = some s1 ∧ s1 ≤ s := by
  cases request with
  | getProduct fails id =>
    refine ⟨s, ?_, le_refl _⟩
    have h := (OrdersFirestore.getProduct_db fails db id).1
    rw [← hs]
    exact OrdersFirestore.stockOf_congr_eraseViews _ _ p h
  | reserve fails req =>
    have h := reserve_step fails db req p
    refine ⟨s - grantedOf p req.id (reserve fails db req).2, ?_, ?_⟩
    · show stockOf (reserve fails db req).1.products p = _
      rw [h.1, hs]; rfl
    · have := h.2.2.1
      omega

/-- No sequence of requests to products-service raises the stock of a product. -/
theorem run_stock_le (requests : List ProductsService.Request) :
    ∀ (db : Database) (p s : Int), stockOf db.products p = some s →
      ∃ s1, stockOf (ProductsService.run db requests).products p = some s1 ∧ s1 ≤ s := by
  induction requests with
  | nil => intro db p s hs; exact ⟨s, hs, le_refl _⟩
  | cons r rs ih =>
    intro db p s hs
    obtain ⟨s1, h1, hle1⟩ := step_stock_le db r p s hs
    obtain ⟨s2, h2, hle2⟩ := ih (ProductsService.step db r) p s1 h1
    exact ⟨s2, h2, by omega⟩

/-! ### The lines of a cart -/

/-- The index that `findIndex` returns splits the list at the first element that
satisfies the test. -/
theorem findIdx?_some_split {α : Type} (p : α → Bool) :
    ∀ (l : List α) (i : Nat), l.findIdx? p = some i →
      ∃ pre x post, l = pre ++ x :: post ∧ p x = true ∧ (∀ y ∈ pre, p y = false) ∧
        pre.length = i := by
  intro l
  induction l with
  | nil => intro i h; simp at h
  | cons a as ih =>
    intro i h
    rw [List.findIdx?_cons] at h
    by_cases hp : p a = true
    · simp only [hp, if_true, Option.some.injEq] at h
      exact ⟨[], a, as, rfl, hp, by simp, by simpa using h⟩
    · simp only [hp, Bool.false_eq_true, if_false] at h
      rw [List.findIdx?_succ] at h
      cases hf : as.findIdx? p with
      | none => rw [hf] at h; simp at h
      | some j =>
        rw [hf] at h
        obtain ⟨pre, x, post, hl, hx, hpre, hlen⟩ := ih j hf
        refine ⟨a :: pre, x, post, by rw [hl]; rfl, hx, ?_, ?_⟩
        · intro y hy
          rcases List.mem_cons.mp hy with rfl | hy
          · simpa using hp
          · exact hpre y hy
        · simp only [Option.map_some', Option.some.injEq] at h
          simp [hlen, h]

theorem findIdx?_none_all {α : Type} (p : α → Bool) (l : List α)
    (h : l.findIdx? p = none) : ∀ y ∈ l, p y = false :=
  List.findIdx?_eq_none_iff.mp h

theorem modify_split {α : Type} (f : α → α) (pre : List α) (x : α) (post : List α) :
    (pre ++ x :: post).modify f pre.length = pre ++ f x :: post := by
  induction pre with
  | nil => rfl
  | cons a as ih => simp [List.modify_succ_cons, ih]

theorem eraseIdx_split {α : Type} (pre : List α) (x : α) (post : List α) :
    (pre ++ x :: post).eraseIdx pre.length = pre ++ post := by
  induction pre with
  | nil => rfl
  | cons a as ih => simp [ih]
theorem linesValid_append {α : Type} (productId quantity : α → Int) (items : List α) (x : α)
    (h : LinesValid productId quantity items)
    (hnew : ∀ line ∈ items, productId line ≠ productId x) (hq : 0 < quantity x) :
    LinesValid productId quantity (items ++ [x]) := by
  constructor
  · rw [List.map_append, List.nodup_append]
    refine ⟨h.1, by simp, ?_⟩
    intro a ha1 ha2
    simp only [List.mem_map] at ha1
    obtain ⟨line, hl, rfl⟩ := ha1
    simp only [List.map_cons, List.map_nil, List.mem_singleton] at ha2
    exact hnew line hl ha2
  · intro line hl
    rcases List.mem_append.mp hl with hl | hl
    · exact h.2 line hl
    · simp only [List.mem_singleton] at hl
      rw [hl]; exact hq

theorem linesValid_replace {α : Type} (productId quantity : α → Int) (pre post : List α)
    (x y : α) (h : LinesValid productId quantity (pre ++ x :: post))
    (hid : productId y = productId x) (hq : 0 < quantity y) :
    LinesValid productId quantity (pre ++ y :: post) := by
  constructor
  · have := h.1
    simp only [List.map_append, List.map_cons] at this ⊢
    rw [hid]; exact this
  · intro line hl
    simp only [List.mem_append, List.mem_cons] at hl
    rcases hl with hl | rfl | hl
    · exact h.2 line (by simp [hl])
    · exact hq
    · exact h.2 line (by simp [hl])

theorem linesValid_remove {α : Type} (productId quantity : α → Int) (pre post : List α)
    (x : α) (h : LinesValid productId quantity (pre ++ x :: post)) :
    LinesValid productId quantity (pre ++ post) := by
  constructor
  · have := h.1
    simp only [List.map_append, List.map_cons] at this ⊢
    exact (List.Sublist.nodup
      (List.Sublist.append_left (List.sublist_cons_self _ _) _) this)
  · intro line hl
    simp only [List.mem_append] at hl
    rcases hl with hl | hl
    · exact h.2 line (by simp [hl])
    · exact h.2 line (by simp [hl])

theorem linesValid_filter {α : Type} (productId quantity : α → Int) (items : List α)
    (g : α → Bool) (h : LinesValid productId quantity items) :
    LinesValid productId quantity (items.filter g) := by
  constructor
  · exact List.Sublist.nodup (List.Sublist.map _ (List.filter_sublist _)) h.1
  · intro line hl
    exact h.2 line (List.mem_filter.mp hl).1

theorem linesValid_nil {α : Type} (productId quantity : α → Int) :
    LinesValid productId quantity ([] : List α) :=
  ⟨by simp, by simp⟩
namespace OrdersMemory

/-- What a successful `POST /cart/items` did: the product was found, the stock
check saw at least the added quantity, and the lines of the stored cart are the
former lines with the quantity added to the first line of the product or, when
there is none, with a new line at the end. -/
theorem addItem_added (fetchFails stockFails : Bool) (w : World) (user : User)
    (productId quantity : Option Int) (cart : Cart)
    (h : (addItem fetchFails stockFails w user productId quantity).2 = .itemAdded cart) :
    ∃ p q product stockInfo, productId = some p ∧ quantity = some q ∧ 0 < q ∧
      fetchProduct fetchFails w.products p = some product ∧
      checkStock stockFails w.products p = some stockInfo ∧
      q ≤ stockInfo.stockQuantity ∧
      (addItem fetchFails stockFails w user productId quantity).1 =
        { w with carts := setCart w.carts user.id cart } ∧
      cart.items =
        (match findIndex (cartItems w.carts user.id) p with
         | some i =>
           (cartItems w.carts user.id).modify
             (fun item => { item with quantity := item.quantity + q }) i
         | none =>
           cartItems w.carts user.id ++
             [{ productId := p, productName := product.name, price := product.price,
                quantity := q }]) := by
  unfold addItem at h ⊢
  cases productId with
  | none => cases quantity <;> simp at h
  | some p =>
    cases quantity with
    | none => simp at h
    | some q =>
      simp only at h ⊢
      by_cases hv : p = 0 ∨ q = 0 ∨ q ≤ 0
      · simp [hv] at h
      · simp only [hv, if_false] at h ⊢
        cases hfp : fetchProduct fetchFails w.products p with
        | none => rw [hfp] at h; simp at h
        | some product =>
          rw [hfp] at h
          simp only at h ⊢
          cases hcs : checkStock stockFails w.products p with
          | none => rw [hcs] at h; simp at h
          | some stockInfo =>
            rw [hcs] at h
            simp only at h ⊢
            by_cases hs : (!stockInfo.isInStock ||
                decide (stockInfo.stockQuantity < q)) = true
            · simp [hs] at h
            · simp only [hs] at h ⊢
              simp only [Bool.false_eq_true, if_false, CartResponse.itemAdded.injEq] at h
              have hle : q ≤ stockInfo.stockQuantity := by
                simp only [Bool.or_eq_true, Bool.not_eq_true', decide_eq_true_eq, not_or,
                  not_lt] at hs
                exact hs.2
              refine ⟨p, q, product, stockInfo, rfl, rfl, by omega, hfp, hcs, hle, ?_, ?_⟩
              · simp only [Bool.false_eq_true, if_false]
                rw [h]
              · rw [← h]
                cases hg : getCart w.carts user.id with
                | none => simp [cartItems, hg, findIndex]
                | some old => simp only [cartItems, hg]

/-- What a successful `PUT /cart/items/:productId` did: the quantity is positive,
the stock check saw at least that quantity, and the first line of the product
carries it. -/
theorem updateItem_updated (stockFails : Bool) (w : World) (user : User) (productId : Int)
    (quantity : Option Int) (cart : Cart)
    (h : (updateItem stockFails w user productId quantity).2 = .cartUpdated cart) :
    ∃ q old i stockInfo, quantity = some q ∧ 0 < q ∧
      getCart w.carts user.id = some old ∧ findIndex old.items productId = some i ∧
      checkStock stockFails w.products productId = some stockInfo ∧
      q ≤ stockInfo.stockQuantity ∧
      (updateItem stockFails w user productId quantity).1 =
        { w with carts := setCart w.carts user.id cart } ∧
      cart.items = old.items.modify (fun item => { item with quantity := q }) i := by
  unfold updateItem at h ⊢
  cases quantity with
  | none => simp at h
  | some q =>
    simp only at h ⊢
    by_cases hv : q = 0 ∨ q < 0
    · simp [hv] at h
    · simp only [hv, if_false] at h ⊢
      cases hg : getCart w.carts user.id with
      | none => rw [hg] at h; simp at h
      | some old =>
        rw [hg] at h
        simp only at h ⊢
        cases hi : findIndex old.items productId with
        | none => rw [hi] at h; simp at h
        | some i =>
          rw [hi] at h
          simp only at h ⊢
          have hz : ¬ q = 0 := fun e => hv (Or.inl e)
          simp only [hz, if_false] at h ⊢
          cases hcs : checkStock stockFails w.products productId with
          | none => rw [hcs] at h; simp at h
          | some stockInfo =>
            rw [hcs] at h
            simp only at h ⊢
            by_cases hs : stockInfo.stockQuantity < q
            · simp [hs] at h
            · simp only [hs, if_false, CartResponse.cartUpdated.injEq] at h ⊢
              refine ⟨q, old, i, stockInfo, rfl, by omega, rfl, hi, rfl, by omega, ?_, ?_⟩
              · rw [h]
              · rw [← h]

/-- What a successful `DELETE /cart/items/:productId` did: the first line of the
product is gone. -/
theorem removeItem_removed (w : World) (user : User) (productId : Int) (cart : Cart)
    (h : (removeItem w user productId).2 = .itemRemoved cart) :
    ∃ old i, getCart w.carts user.id = some old ∧ findIndex old.items productId = some i ∧
      (removeItem w user productId).1 = { w with carts := setCart w.carts user.id cart } ∧
      cart.items = old.items.eraseIdx i := by
  unfold removeItem at h ⊢
  cases hg : getCart w.carts user.id with
  | none => rw [hg] at h; simp at h
  | some old =>
    rw [hg] at h
    simp only at h ⊢
    cases hi : findIndex old.items productId with
    | none => rw [hi] at h; simp at h
    | some i =>
      rw [hi] at h
      simp only [CartResponse.itemRemoved.injEq] at h ⊢
      exact ⟨old, i, rfl, hi, by rw [h], by rw [← h]⟩

end OrdersMemory
namespace OrdersFirestore

theorem getCart_setCart_doc (carts : List (Nat × Cart)) (userId : Nat) (cart : Cart) :
    getCart (setCart carts userId cart) userId = some cart := by
  unfold setCart
  by_cases hany : carts.any (fun d => decide (d.1 = userId)) = true
  · simp only [hany, if_true]
    induction carts with
    | nil => simp at hany
    | cons d ds ih =>
      by_cases hd : d.1 = userId
      · simp [getCart, List.find?_cons, hd]
      · have hany2 : ds.any (fun d => decide (d.1 = userId)) = true := by
          simpa [List.any_cons, hd] using hany
        have := ih hany2
        simpa [getCart, List.find?_cons, hd] using this
  · simp only [hany]
    have hfind : carts.find? (fun d => decide (d.1 = userId)) = none := by
      rw [List.find?_eq_none]
      intro d hd
      simp only [List.any_eq_true, decide_eq_true_eq, not_exists, not_and] at hany
      simpa using hany d hd
    simp [getCart, List.find?_append, hfind]

theorem mem_setCart_doc (carts : List (Nat × Cart)) (userId : Nat) (cart : Cart)
    (d : Nat × Cart) (hd : d ∈ setCart carts userId cart) :
    d ∈ carts ∨ d = (userId, cart) := by
  unfold setCart at hd
  by_cases hany : carts.any (fun d => decide (d.1 = userId)) = true
  · simp only [hany, if_true, List.mem_map] at hd
    obtain ⟨e, he, heq⟩ := hd
    by_cases h : e.1 = userId
    · simp only [h, if_true] at heq; exact Or.inr heq.symm
    · simp only [h, if_false] at heq; exact Or.inl (heq ▸ he)
  · simp only [hany] at hd
    simp only [Bool.false_eq_true, if_false, List.mem_append, List.mem_singleton] at hd
    exact hd

theorem mem_of_getCart_doc (carts : List (Nat × Cart)) (userId : Nat) (cart : Cart)
    (h : getCart carts userId = some cart) : (userId, cart) ∈ carts := by
  unfold getCart at h
  cases hf : carts.find? (fun d => decide (d.1 = userId)) with
  | none => rw [hf] at h; simp at h
  | some d =>
    rw [hf] at h
    have hmem := List.mem_of_find?_eq_some hf
    have hkey := List.find?_some hf
    simp only [Option.map_some', Option.some.injEq] at h
    simp only [decide_eq_true_eq] at hkey
    have : d = (userId, cart) := by
      cases d; simp_all
    exact this ▸ hmem

/-- A stock check that answers `true` saw a stock of at least the quantity. -/
theorem checkStockNumber_true (fails : Bool) (db : Database) (productId : Int)
    (quantity : Rat) (h : checkStockNumber fails db productId quantity = true) :
    ∃ stock, getStock fails db productId = some stock ∧
      quantity ≤ (stock.stockQuantity : Rat) := by
  unfold checkStockNumber at h
  cases hs : getStock fails db productId with
  | none => rw [hs] at h; simp at h
  | some stock =>
    rw [hs] at h
    exact ⟨stock, rfl, by simpa using h⟩

/-- The lines that `POST /cart/items` writes for the number `q` of the body: the
former lines with `parseInt(q)` added to the first line of the product or, when
there is none, with a new line of `parseInt(q)` units at the end. -/
theorem addItem_eq (parseInt : Rat → Int) (env : CartEnv) (w : World) (user : User)
    (p : Int) (q : Rat) (db : Database) (product : ProductRow)
    (hv : ¬ (p = 0 ∨ q = 0 ∨ q ≤ 0))
    (hfp : fetchProduct env.fetchFails w.db p = (db, some product))
    (hs : checkStockNumber env.stockFails db p q = true)
    (hgf : env.getFails = false) (hsf : env.setFails = false) :
    ∃ cart : Cart,
      addItem parseInt env w user (some p) (some q) =
        ({ w with db := db, carts := setCart w.carts user.userId cart },
         .itemAdded cart) ∧
      cart.items =
        (match findIndex (cartItems w.carts user.userId) p with
         | some i =>
           (cartItems w.carts user.userId).modify
             (fun item => { item with quantity := item.quantity + parseInt q }) i
         | none =>
           cartItems w.carts user.userId ++
             [{ productId := p, quantity := parseInt q, price := product.price }]) := by
  unfold addItem
  simp only [hv, hfp, hs, hgf, hsf, if_false, Bool.not_true, Bool.false_eq_true]
  refine ⟨_, rfl, ?_⟩
  cases hg : getCart w.carts user.userId with
  | none => simp [cartItems, hg, findIndex]
  | some old =>
    simp only [cartItems, hg]
    cases findIndex old.items p <;> rfl

/-- A `POST /cart/items` either leaves the carts as they were and does not answer
`Item added to cart`, or it passed every test. -/
theorem addItem_carts (parseInt : Rat → Int) (env : CartEnv) (w : World) (user : User)
    (productId : Option Int) (quantity : Option Rat) :
    ((addItem parseInt env w user productId quantity).1.carts = w.carts ∧
      ∀ cart, (addItem parseInt env w user productId quantity).2 ≠ .itemAdded cart) ∨
    ∃ p q db product, productId = some p ∧ quantity = some q ∧
      ¬ (p = 0 ∨ q = 0 ∨ q ≤ 0) ∧
      fetchProduct env.fetchFails w.db p = (db, some product) ∧
      checkStockNumber env.stockFails db p q = true ∧
      env.getFails = false ∧ env.setFails = false := by
  cases productId with
  | none => left; cases quantity <;> simp [addItem]
  | some p =>
    cases quantity with
    | none => left; simp [addItem]
    | some q =>
      by_cases hv : p = 0 ∨ q = 0 ∨ q ≤ 0
      · left; simp [addItem, hv]
      rcases hfp : fetchProduct env.fetchFails w.db p with ⟨db, product⟩
      cases product with
      | none => left; simp [addItem, hv, hfp]
      | some product =>
        cases hs : checkStockNumber env.stockFails db p q with
        | false => left; simp [addItem, hv, hfp, hs]
        | true =>
          cases hgf : env.getFails with
          | true => left; simp [addItem, hv, hfp, hs, hgf]
          | false =>
            cases hsf : env.setFails with
            | true => left; simp [addItem, hv, hfp, hs, hgf, hsf]
            | false => right; exact ⟨p, q, db, product, rfl, rfl, hv, hfp, hs, rfl, rfl⟩

/-- What a successful `POST /cart/items` did. -/
theorem addItem_added_doc (parseInt : Rat → Int) (env : CartEnv) (w : World) (user : User)
    (productId : Option Int) (quantity : Option Rat) (cart : Cart)
    (h : (addItem parseInt env w user productId quantity).2 = .itemAdded cart) :
    ∃ p q product, productId = some p ∧ quantity = some q ∧ 0 < q ∧
      (fetchProduct env.fetchFails w.db p).2 = some product ∧
      checkStockNumber env.stockFails (fetchProduct env.fetchFails w.db p).1 p q = true ∧
      (addItem parseInt env w user productId quantity).1 =
        { w with db := (fetchProduct env.fetchFails w.db p).1,
                 carts := setCart w.carts user.userId cart } ∧
      cart.items =
        (match findIndex (cartItems w.carts user.userId) p with
         | some i =>
           (cartItems w.carts user.userId).modify
             (fun item => { item with quantity := item.quantity + parseInt q }) i
         | none =>
           cartItems w.carts user.userId ++
             [{ productId := p, quantity := parseInt q, price := product.price }]) := by
  rcases addItem_carts parseInt env w user productId quantity with
    ⟨_, hno⟩ | ⟨p, q, db, product, rfl, rfl, hv, hfp, hs, hgf, hsf⟩
  · exact absurd h (hno cart)
  · obtain ⟨cart2, heq, hitems⟩ :=
      addItem_eq parseInt env w user p q db product hv hfp hs hgf hsf
    rw [heq] at h
    have hc : cart2 = cart := by simpa using h
    subst hc
    have hpos : 0 < q := by
      simp only [not_or, not_le] at hv
      exact hv.2.2
    refine ⟨p, q, product, rfl, rfl, hpos, by rw [hfp], by rw [hfp]; exact hs, ?_, hitems⟩
    rw [heq, hfp]

/-- A `PUT /cart/items/:productId` either leaves the stores as they were and does
not answer `Cart updated`, or it found the line and wrote the cart: without the
line when the quantity is 0, with `parseInt` of the quantity on the line when
the quantity is positive and the stock check passed. -/
theorem updateItem_stores (parseInt : Rat → Int) (env : CartEnv) (w : World) (user : User)
    (productId : Int) (quantity : Option Rat) :
    ((updateItem parseInt env w user productId quantity).1 = w ∧
      ∀ cart, (updateItem parseInt env w user productId quantity).2 ≠ .cartUpdated cart) ∨
    ∃ old i, getCart w.carts user.userId = some old ∧
      findIndex old.items productId = some i ∧
      ((quantity = some 0 ∧
        updateItem parseInt env w user productId quantity =
          ({ w with carts := (setCart w.carts user.userId
              { old with items := old.items.eraseIdx i }) },
           .cartUpdated { old with items := old.items.eraseIdx i })) ∨
       (∃ q, quantity = some q ∧ 0 < q ∧
          checkStockNumber env.stockFails w.db productId q = true ∧
          updateItem parseInt env w user productId quantity =
            ({ w with carts := (setCart w.carts user.userId
                { old with items := (old.items.modify
                    (fun item => { item with quantity := parseInt q }) i) }) },
             .cartUpdated { old with items := (old.items.modify
                    (fun item => { item with quantity := parseInt q }) i) }))) := by
  cases hgf : env.getFails with
  | true =>
    left
    cases quantity with
    | none => simp [updateItem, hgf]
    | some q => simp [updateItem, hgf]; split_ifs <;> simp
  | false =>
    cases hg : getCart w.carts user.userId with
    | none =>
      left
      cases quantity with
      | none => simp [updateItem, hgf, hg]
      | some q => simp [updateItem, hgf, hg]; split_ifs <;> simp
    | some old =>
      cases hi : findIndex old.items productId with
      | none =>
        left
        cases quantity with
        | none => simp [updateItem, hgf, hg, hi]
        | some q => simp [updateItem, hgf, hg, hi]; split_ifs <;> simp
      | some i =>
        cases hsf : env.setFails with
        | true =>
          left
          cases quantity with
          | none => simp [updateItem, hgf, hg, hi, hsf]
          | some q =>
            by_cases hneg : q < 0
            · simp [updateItem, hneg]
            by_cases hz : q = 0
            · simp [updateItem, hgf, hg, hi, hsf, hz]
            cases hs : checkStockNumber env.stockFails w.db productId q <;>
              simp [updateItem, hgf, hg, hi, hsf, hz, hneg, hs]
        | false =>
          cases quantity with
          | none => left; simp [updateItem, hgf, hg, hi, hsf]
          | some q =>
            by_cases hneg : q < 0
            · left; simp [updateItem, hneg]
            by_cases hz : q = 0
            · right
              refine ⟨old, i, rfl, hi, Or.inl ⟨by rw [hz], ?_⟩⟩
              simp [updateItem, hgf, hg, hi, hsf, hz]
            cases hs : checkStockNumber env.stockFails w.db productId q with
            | false => left; simp [updateItem, hgf, hg, hi, hsf, hz, hneg, hs]
            | true =>
              right
              have hpos : 0 < q := lt_of_le_of_ne (not_lt.mp hneg) (Ne.symm hz)
              refine ⟨old, i, rfl, hi, Or.inr ⟨q, rfl, hpos, hs, ?_⟩⟩
              simp [updateItem, hgf, hg, hi, hsf, hz, hneg, hs]

/-- What `DELETE /cart/items/:productId` does to the stores: nothing, or the cart
document is written without the lines of the product. -/
theorem removeItem_stores (env : CartEnv) (w : World) (user : User) (productId : Int) :
    ((removeItem env w user productId).1 = w ∧
      (removeItem env w user productId).2 ≠ .itemRemoved) ∨
    ∃ old, getCart w.carts user.userId = some old ∧
      removeItem env w user productId =
        ({ w with carts := (setCart w.carts user.userId
            { old with items := (old.items.filter
                (fun item => !decide (item.productId = productId))) }) },
         .itemRemoved) := by
  unfold removeItem
  by_cases hgf : env.getFails = true
  · left; simp [hgf]
  · simp only [hgf, if_false]
    cases hg : getCart w.carts user.userId with
    | none => left; simp
    | some old =>
      simp only
      by_cases hsf : env.setFails = true
      · left; simp [hsf]
      · right; simp only [hsf, if_false]; exact ⟨old, rfl, rfl⟩

end OrdersFirestore
/-- The lines after `quantity` units of product `p` are added to the lines `items`:
the quantity goes to the first line of the product, the other lines stay, and a
product without a line gets a new line at the end. -/
theorem lines_after_add {α : Type} (productId : α → Int) (bump : α → α)
    (items : List α) (p : Int) (x : α) :
    ((∃ line ∈ items, productId line = p) →
      ∃ pre line post, items = pre ++ line :: post ∧ productId line = p ∧
        (∀ l ∈ pre, productId l ≠ p) ∧
        (match items.findIdx? (fun item => decide (productId item = p)) with
         | some i => items.modify bump i
         | none => items ++ [x]) = pre ++ bump line :: post) ∧
    ((∀ line ∈ items, productId line ≠ p) →
      (match items.findIdx? (fun item => decide (productId item = p)) with
       | some i => items.modify bump i
       | none => items ++ [x]) = items ++ [x]) := by
  cases hf : items.findIdx? (fun item => decide (productId item = p)) with
  | none =>
    have hall := findIdx?_none_all _ items hf
    refine ⟨?_, fun _ => rfl⟩
    rintro ⟨line, hl, hp⟩
    have := hall line hl
    simp [hp] at this
  | some i =>
    obtain ⟨pre, line, post, hl, hx, hpre, hlen⟩ := findIdx?_some_split _ items i hf
    have hx2 : productId line = p := by simpa using hx
    refine ⟨fun _ => ⟨pre, line, post, hl, hx2, ?_, ?_⟩, ?_⟩
    · intro l hlm
      simpa using hpre l hlm
    · simp only
      rw [hl, ← hlen, modify_split]
    · intro hall
      exact absurd hx2 (hall line (by rw [hl]; simp))

/-- Adding to well-formed lines gives well-formed lines, when the quantity written
on a line is positive. -/
theorem linesValid_after_add {α : Type} (productId quantity : α → Int) (bump : α → α)
    (items : List α) (p : Int) (x : α)
    (hbump_id : ∀ l, productId (bump l) = productId l)
    (hbump_q : ∀ l, 0 < quantity l → 0 < quantity (bump l))
    (hx : productId x = p) (hxq : 0 < quantity x)
    (h : LinesValid productId quantity items) :
    LinesValid productId quantity
      (match items.findIdx? (fun item => decide (productId item = p)) with
       | some i => items.modify bump i
       | none => items ++ [x]) := by
  have hadd := lines_after_add productId bump items p x
  by_cases hex : ∃ line ∈ items, productId line = p
  · obtain ⟨pre, line, post, hl, _, _, hnew⟩ := hadd.1 hex
    rw [hnew]
    rw [hl] at h
    exact linesValid_replace productId quantity pre post line (bump line) h (hbump_id line)
      (hbump_q line (h.2 line (by simp)))
  · have hall : ∀ line ∈ items, productId line ≠ p := by
      intro line hl hp; exact hex ⟨line, hl, hp⟩
    rw [hadd.2 hall]
    refine linesValid_append productId quantity items x h ?_ hxq
    intro line hl
    rw [hx]; exact hall line hl

namespace OrdersMemory

theorem linesValid_cartItems (carts : List (Nat × Cart)) (userId : Nat)
    (hw : ∀ d ∈ carts, LinesValid (fun l : CartItem => l.productId) (fun l => l.quantity)
      d.2.items) :
    LinesValid (fun l : CartItem => l.productId) (fun l => l.quantity)
      (cartItems carts userId) := by
  unfold cartItems
  cases hg : getCart carts userId with
  | none => exact linesValid_nil _ _
  | some cart => exact hw _ (mem_of_getCart _ _ _ hg)

theorem linesValid_setCart (carts : List (Nat × Cart)) (userId : Nat) (cart : Cart)
    (hw : ∀ d ∈ carts, LinesValid (fun l : CartItem => l.productId) (fun l => l.quantity)
      d.2.items)
    (hc : LinesValid (fun l : CartItem => l.productId) (fun l => l.quantity) cart.items) :
    ∀ d ∈ setCart carts userId cart,
      LinesValid (fun l : CartItem => l.productId) (fun l => l.quantity) d.2.items := by
  intro d hd
  rcases mem_setCart _ _ _ d hd with h | h
  · exact hw d h
  · rw [h]; exact hc

/-- Every request keeps the lines of every cart well formed. -/
theorem linesValid_step (w : World) (request : Request)
    (hw : ∀ d ∈ w.carts, LinesValid (fun l : CartItem => l.productId) (fun l => l.quantity)
      d.2.items) :
    ∀ d ∈ (step w request).carts,
      LinesValid (fun l : CartItem => l.productId) (fun l => l.quantity) d.2.items := by
  cases request with
  | addItem fetchFails stockFails user productId quantity =>
    rcases addItem_cases fetchFails stockFails w user productId quantity with
      ⟨h, _⟩ | ⟨cart, heq, _⟩
    · simp only [step]; rw [h]; exact hw
    · simp only [step]
      have hresp : (addItem fetchFails stockFails w user productId quantity).2 =
          .itemAdded cart := by rw [heq]
      obtain ⟨p, q, product, stockInfo, _, _, hq, _, _, _, hworld, hitems⟩ :=
        addItem_added fetchFails stockFails w user productId quantity cart hresp
      rw [hworld]
      apply linesValid_setCart _ _ _ hw
      rw [hitems]
      exact linesValid_after_add (fun l : CartItem => l.productId) (fun l => l.quantity)
        (fun item => { item with quantity := item.quantity + q }) _ p _
        (fun _ => rfl) (fun l hl => Int.add_pos hl hq) rfl hq (linesValid_cartItems _ _ hw)
  | updateItem stockFails user productId quantity =>
    rcases updateItem_cases stockFails w user productId quantity with
      ⟨h, _⟩ | ⟨cart, heq, _⟩
    · simp only [step]; rw [h]; exact hw
    · simp only [step]
      have hresp : (updateItem stockFails w user productId quantity).2 =
          .cartUpdated cart := by rw [heq]
      obtain ⟨q, old, i, stockInfo, _, hq, hg, hi, _, _, hworld, hitems⟩ :=
        updateItem_updated stockFails w user productId quantity cart hresp
      rw [hworld]
      apply linesValid_setCart _ _ _ hw
      obtain ⟨pre, line, post, hl, _, _, hlen⟩ := findIdx?_some_split _ _ _ hi
      have hold := hw _ (mem_of_getCart _ _ _ hg)
      rw [hitems, hl, ← hlen, modify_split]
      simp only at hold
      rw [hl] at hold
      exact linesValid_replace _ _ pre post line _ hold rfl hq
  | removeItem user productId =>
    rcases removeItem_cases w user productId with ⟨h, _⟩ | ⟨cart, heq, _⟩
    · simp only [step]; rw [h]; exact hw
    · simp only [step]
      have hresp : (removeItem w user productId).2 = .itemRemoved cart := by rw [heq]
      obtain ⟨old, i, hg, hi, hworld, hitems⟩ :=
        removeItem_removed w user productId cart hresp
      rw [hworld]
      apply linesValid_setCart _ _ _ hw
      obtain ⟨pre, line, post, hl, _, _, hlen⟩ := findIdx?_some_split _ _ _ hi
      have hold := hw _ (mem_of_getCart _ _ _ hg)
      rw [hitems, hl, ← hlen, eraseIdx_split]
      simp only at hold
      rw [hl] at hold
      exact linesValid_remove _ _ pre post line hold
  | createOrder stockFails user shippingAddress =>
    simp only [step]
    by_cases hcr : (createOrder stockFails w user shippingAddress).2.isCreated = true
    · obtain ⟨order, hresp, _, _, _⟩ :=
        createOrder_created stockFails w user shippingAddress hcr
      obtain ⟨cart, _, _, _, _, _, _, hcarts⟩ :=
        createOrder_order stockFails w user shippingAddress order hresp
      intro d hd
      rw [hcarts] at hd
      exact hw d (List.mem_filter.mp hd).1
    · have hno : (createOrder stockFails w user shippingAddress).2.isCreated = false := by
        simpa using hcr
      rw [createOrder_rejected stockFails w user shippingAddress hno]
      exact hw

theorem linesValid_run (requests : List Request) :
    ∀ w : World,
      (∀ d ∈ w.carts, LinesValid (fun l : CartItem => l.productId) (fun l => l.quantity)
        d.2.items) →
      ∀ d ∈ (run w requests).carts,
        LinesValid (fun l : CartItem => l.productId) (fun l => l.quantity) d.2.items := by
  induction requests with
  | nil => intro w hw; exact hw
  | cons request rest ih =>
    intro w hw
    exact ih (step w request) (linesValid_step w request hw)

end OrdersMemory

namespace OrdersFirestore

theorem linesValid_cartItems_doc (qf : CartItem → Int) (carts : List (Nat × Cart))
    (userId : Nat)
    (hw : ∀ d ∈ carts, LinesValid (fun l : CartItem => l.productId) qf d.2.items) :
    LinesValid (fun l : CartItem => l.productId) qf (cartItems carts userId) := by
  unfold cartItems
  cases hg : getCart carts userId with
  | none => exact linesValid_nil _ _
  | some cart => exact hw _ (mem_of_getCart_doc _ _ _ hg)

theorem linesValid_setCart_doc (qf : CartItem → Int) (carts : List (Nat × Cart))
    (userId : Nat) (cart : Cart)
    (hw : ∀ d ∈ carts, LinesValid (fun l : CartItem => l.productId) qf d.2.items)
    (hc : LinesValid (fun l : CartItem => l.productId) qf cart.items) :
    ∀ d ∈ setCart carts userId cart,
      LinesValid (fun l : CartItem => l.productId) qf d.2.items := by
  intro d hd
  rcases mem_setCart_doc _ _ _ d hd with h | h
  · exact hw d h
  · rw [h]; exact hc

/-- The handler of `POST /cart/items` keeps the lines of every cart document well
formed for a reading `qf` of the lines that is positive on what the handler
writes for a positive quantity of the body. -/
theorem linesValid_addItem (parseInt : Rat → Int) (qf : CartItem → Int) (env : CartEnv)
    (w : World) (user : User) (productId : Option Int) (quantity : Option Rat)
    (hnew : ∀ q, quantity = some q → 0 < q →
      ∀ item : CartItem, 0 < qf { item with quantity := parseInt q })
    (hbump : ∀ q, quantity = some q → 0 < q →
      ∀ item : CartItem, 0 < qf item →
        0 < qf { item with quantity := item.quantity + parseInt q })
    (hw : ∀ d ∈ w.carts, LinesValid (fun l : CartItem => l.productId) qf d.2.items) :
    ∀ d ∈ (addItem parseInt env w user productId quantity).1.carts,
      LinesValid (fun l : CartItem => l.productId) qf d.2.items := by
  rcases addItem_carts parseInt env w user productId quantity with
    ⟨h, _⟩ | ⟨p, q, db, product, rfl, rfl, hv, hfp, hs, hgf, hsf⟩
  · rw [h]; exact hw
  · obtain ⟨cart, heq, hitems⟩ :=
      addItem_eq parseInt env w user p q db product hv hfp hs hgf hsf
    have hpos : 0 < q := by
      simp only [not_or, not_le] at hv
      exact hv.2.2
    rw [heq]
    apply linesValid_setCart_doc _ _ _ _ hw
    rw [hitems]
    exact linesValid_after_add (fun l : CartItem => l.productId) qf
      (fun item => { item with quantity := item.quantity + parseInt q }) _ p _
      (fun _ => rfl) (hbump q rfl hpos) rfl
      (hnew q rfl hpos { productId := p, quantity := 0, price := product.price })
      (linesValid_cartItems_doc _ _ _ hw)

/-- The handler of `PUT /cart/items/:productId` keeps the lines of every cart
document well formed for a reading `qf` of the lines that is positive on what
the handler writes for a positive quantity of the body. -/
theorem linesValid_updateItem (parseInt : Rat → Int) (qf : CartItem → Int) (env : CartEnv)
    (w : World) (user : User) (productId : Int) (quantity : Option Rat)
    (hnew : ∀ q, quantity = some q → 0 < q →
      ∀ item : CartItem, 0 < qf { item with quantity := parseInt q })
    (hw : ∀ d ∈ w.carts, LinesValid (fun l : CartItem => l.productId) qf d.2.items) :
    ∀ d ∈ (updateItem parseInt env w user productId quantity).1.carts,
      LinesValid (fun l : CartItem => l.productId) qf d.2.items := by
  rcases updateItem_stores parseInt env w user productId quantity with
    ⟨h, _⟩ | ⟨old, i, hg, hi, hcase⟩
  · rw [h]; exact hw
  · obtain ⟨pre, line, post, hl, _, _, hlen⟩ := findIdx?_some_split _ _ _ hi
    have hold := hw _ (mem_of_getCart_doc _ _ _ hg)
    simp only at hold
    rw [hl] at hold
    rcases hcase with ⟨_, heq⟩ | ⟨q, hqs, hq, _, heq⟩
    · rw [heq]
      apply linesValid_setCart_doc _ _ _ _ hw
      simp only
      rw [hl, ← hlen, eraseIdx_split]
      exact linesValid_remove _ _ pre post line hold
    · rw [heq]
      apply linesValid_setCart_doc _ _ _ _ hw
      simp only
      rw [hl, ← hlen, modify_split]
      exact linesValid_replace _ _ pre post line _ hold rfl (hnew q hqs hq line)

/-- The handler of `DELETE /cart/items/:productId` keeps the lines of every cart
document well formed. -/
theorem linesValid_removeItem (qf : CartItem → Int) (env : CartEnv) (w : World)
    (user : User) (productId : Int)
    (hw : ∀ d ∈ w.carts, LinesValid (fun l : CartItem => l.productId) qf d.2.items) :
    ∀ d ∈ (removeItem env w user productId).1.carts,
      LinesValid (fun l : CartItem => l.productId) qf d.2.items := by
  rcases removeItem_stores env w user productId with ⟨h, _⟩ | ⟨old, hg, heq⟩
  · rw [h]; exact hw
  · rw [heq]
    apply linesValid_setCart_doc _ _ _ _ hw
    exact linesValid_filter _ _ _ _ (hw _ (mem_of_getCart_doc _ _ _ hg))

/-- Every cart request keeps the product ids of the lines of every cart document
distinct, whatever `parseInt` returns. -/
theorem productIds_cartStep (parseInt : Rat → Int) (w : World) (request : CartRequest)
    (hw : ∀ d ∈ w.carts, (d.2.items.map (fun l => l.productId)).Nodup) :
    ∀ d ∈ (cartStep parseInt w request).carts,
      (d.2.items.map (fun l => l.productId)).Nodup := by
  have hw1 : ∀ d ∈ w.carts,
      LinesValid (fun l : CartItem => l.productId) (fun _ => 1) d.2.items :=
    fun d hd => ⟨hw d hd, fun _ _ => Int.one_pos⟩
  intro d hd
  cases request with
  | addItem env user productId quantity =>
    exact (linesValid_addItem parseInt (fun _ => 1) env w user productId quantity
      (fun _ _ _ _ => Int.one_pos) (fun _ _ _ _ _ => Int.one_pos) hw1 d hd).1
  | updateItem env user productId quantity =>
    exact (linesValid_updateItem parseInt (fun _ => 1) env w user productId quantity
      (fun _ _ _ _ => Int.one_pos) hw1 d hd).1
  | removeItem env user productId =>
    exact (linesValid_removeItem (fun _ => 1) env w user productId hw1 d hd).1

theorem productIds_cartRun (parseInt : Rat → Int) (requests : List CartRequest) :
    ∀ w : World,
      (∀ d ∈ w.carts, (d.2.items.map (fun l => l.productId)).Nodup) →
      ∀ d ∈ (cartRun parseInt w requests).carts,
        (d.2.items.map (fun l => l.productId)).Nodup := by
  induction requests with
  | nil => intro w hw; exact hw
  | cons request rest ih =>
    intro w hw
    exact ih (cartStep parseInt w request) (productIds_cartStep parseInt w request hw)

/-- An integer that is a positive number is positive. -/
theorem integral_pos (parseInt : Rat → Int) (q : Rat)
    (hint : (parseInt q : Rat) = q) (hq : 0 < q) : 0 < parseInt q := by
  rw [← hint] at hq
  exact_mod_cast hq

/-- A cart request with an integer for quantity keeps the lines of every cart
document well formed. -/
theorem linesValid_cartStep (parseInt : Rat → Int) (w : World) (request : CartRequest)
    (hint : request.Integral parseInt)
    (hw : ∀ d ∈ w.carts, LinesValid (fun l : CartItem => l.productId) (fun l => l.quantity)
      d.2.items) :
    ∀ d ∈ (cartStep parseInt w request).carts,
      LinesValid (fun l : CartItem => l.productId) (fun l => l.quantity) d.2.items := by
  cases request with
  | addItem env user productId quantity =>
    refine linesValid_addItem parseInt (fun l => l.quantity) env w user productId quantity
      ?_ ?_ hw
    · intro q hqs hq item
      subst hqs
      exact integral_pos parseInt q hint hq
    · intro q hqs hq item hitem
      subst hqs
      exact Int.add_pos hitem (integral_pos parseInt q hint hq)
  | updateItem env user productId quantity =>
    refine linesValid_updateItem parseInt (fun l => l.quantity) env w user productId quantity
      ?_ hw
    intro q hqs hq item
    subst hqs
    exact integral_pos parseInt q hint hq
  | removeItem env user productId =>
    exact linesValid_removeItem (fun l => l.quantity) env w user productId hw

theorem linesValid_cartRun (parseInt : Rat → Int) (requests : List CartRequest) :
    ∀ w : World,
      (∀ request ∈ requests, request.Integral parseInt) →
      (∀ d ∈ w.carts, LinesValid (fun l : CartItem => l.productId) (fun l => l.quantity)
        d.2.items) →
      ∀ d ∈ (cartRun parseInt w requests).carts,
        LinesValid (fun l : CartItem => l.productId) (fun l => l.quantity) d.2.items := by
  induction requests with
  | nil => intro w _ hw; exact hw
  | cons request rest ih =>
    intro w hint hw
    exact ih (cartStep parseInt w request)
      (fun r hr => hint r (List.mem_cons_of_mem _ hr))
      (linesValid_cartStep parseInt w request (hint request (List.mem_cons_self _ _)) hw)

end OrdersFirestore
namespace OrdersFirestore

/-- The stores and the answer of a `POST /cart/items` of a user without a cart
document, when the product exists, the stock check passes and Firestore does
not fail: one line with `parseInt` of the quantity of the body. -/
theorem addItem_first (parseInt : Rat → Int) (env : CartEnv) (w : World) (user : User)
    (p : Int) (q : Rat) (db : Database) (product : ProductRow)
    (hv : ¬ (p = 0 ∨ q = 0 ∨ q ≤ 0))
    (hfp : fetchProduct env.fetchFails w.db p = (db, some product))
    (hs : checkStockNumber env.stockFails db p q = true)
    (hgf : env.getFails = false) (hsf : env.setFails = false)
    (hg : getCart w.carts user.userId = none) :
    addItem parseInt env w user (some p) (some q) =
      ({ w with db := db,
                carts := setCart w.carts user.userId
                  { userId := user.userId,
                    items := [{ productId := p, quantity := parseInt q,
                                price := product.price }] } },
       .itemAdded { userId := user.userId,
                    items := [{ productId := p, quantity := parseInt q,
                                price := product.price }] }) := by
  unfold addItem
  simp only [hv, hfp, hs, hgf, hsf, hg, if_false, Bool.not_true, Bool.false_eq_true]

/-- The stores and the answer of a `PUT /cart/items/:productId` with a quantity
that is neither negative nor 0, when the cart document has a line of the
product, the stock check passes and Firestore does not fail: the line gets
`parseInt` of the quantity of the body. -/
theorem updateItem_eq (parseInt : Rat → Int) (env : CartEnv) (w : World) (user : User)
    (productId : Int) (q : Rat) (old : Cart) (i : Nat)
    (hneg : ¬ q < 0) (hz : q ≠ 0)
    (hgf : env.getFails = false) (hsf : env.setFails = false)
    (hg : getCart w.carts user.userId = some old)
    (hi : findIndex old.items productId = some i)
    (hs : checkStockNumber env.stockFails w.db productId q = true) :
    updateItem parseInt env w user productId (some q) =
      ({ w with carts := (setCart w.carts user.userId
          { old with items := (old.items.modify
              (fun item => { item with quantity := parseInt q }) i) }) },
       .cartUpdated { old with items := (old.items.modify
              (fun item => { item with quantity := parseInt q }) i) }) := by
  simp [updateItem, hgf, hg, hi, hsf, hz, hneg, hs]

end OrdersFirestore

/-- C27, the behaviour of the code. In the in-memory orders service every cart
reached from the empty carts store by requests to `POST /cart/items`,
`PUT /cart/items/:productId`, `DELETE /cart/items/:productId` and `POST /orders`
has no two lines with the same product id and only positive quantities, and a
successful `POST /cart/items` adds the quantity to the first line of the product
or appends one line with the quantity at the end, every other line staying as
it was. In the Firestore service the tests read the number `quantity` of the
body and the cart stores `parseInt(quantity)`: every cart document reached from
the empty stores has no two lines with the same product id, and only positive
quantities when the quantity of every request is an integer; a successful
`POST /cart/items` adds `parseInt(quantity)` to the first line of the product or
appends one line with `parseInt(quantity)` at the end, every other line staying
as it was. With `parseInt(0.5) = 0`, the request that adds 0.5 units of product
1 to the empty stores is answered 200 and stores a line with quantity 0. -/
theorem cart_lines_parsed_quantity :
    (∀ (products : List ProductsMemory.Product) (requests : List OrdersMemory.Request),
      ∀ d ∈ (OrdersMemory.run (OrdersMemory.initial products) requests).carts,
        LinesValid (fun l : OrdersMemory.CartItem => l.productId) (fun l => l.quantity)
          d.2.items) ∧
    (∀ (parseInt : Rat → Int) (db : Database) (requests : List CartRequest),
      ∀ d ∈ (cartRun parseInt (emptyStores db) requests).carts,
        (d.2.items.map (fun l => l.productId)).Nodup) ∧
    (∀ (parseInt : Rat → Int) (db : Database) (requests : List CartRequest),
      (∀ request ∈ requests, request.Integral parseInt) →
      ∀ d ∈ (cartRun parseInt (emptyStores db) requests).carts,
        LinesValid (fun l : CartItem => l.productId) (fun l => l.quantity) d.2.items) ∧
    (∀ (fetchFails stockFails : Bool) (w : OrdersMemory.World) (user : OrdersMemory.User)
        (productId quantity : Option Int) (cart : OrdersMemory.Cart),
      (OrdersMemory.addItem fetchFails stockFails w user productId quantity).2 =
        .itemAdded cart →
      ∃ p q product, productId = some p ∧ quantity = some q ∧ 0 < q ∧
        OrdersMemory.fetchProduct fetchFails w.products p = some product ∧
        OrdersMemory.getCart
          (OrdersMemory.addItem fetchFails stockFails w user productId quantity).1.carts
          user.id = some cart ∧
        ((∃ line ∈ OrdersMemory.cartItems w.carts user.id, line.productId = p) →
          cart.items.length = (OrdersMemory.cartItems w.carts user.id).length ∧
          ∃ pre line post, OrdersMemory.cartItems w.carts user.id = pre ++ line :: post ∧
            line.productId = p ∧ (∀ l ∈ pre, l.productId ≠ p) ∧
            cart.items = pre ++ { line with quantity := line.quantity + q } :: post) ∧
        ((∀ line ∈ OrdersMemory.cartItems w.carts user.id, line.productId ≠ p) →
          cart.items = OrdersMemory.cartItems w.carts user.id ++
            [{ productId := p, productName := product.name, price := product.price,
               quantity := q }])) ∧
    (∀ (parseInt : Rat → Int) (env : CartEnv) (w : World) (user : User)
        (productId : Option Int) (quantity : Option Rat) (cart : Cart),
      (addItem parseInt env w user productId quantity).2 = .itemAdded cart →
      ∃ p q product, productId = some p ∧ quantity = some q ∧ 0 < q ∧
        (fetchProduct env.fetchFails w.db p).2 = some product ∧
        getCart (addItem parseInt env w user productId quantity).1.carts user.userId
          = some cart ∧
        ((∃ line ∈ cartItems w.carts user.userId, line.productId = p) →
          cart.items.length = (cartItems w.carts user.userId).length ∧
          ∃ pre line post, cartItems w.carts user.userId = pre ++ line :: post ∧
            line.productId = p ∧ (∀ l ∈ pre, l.productId ≠ p) ∧
            cart.items =
              pre ++ { line with quantity := line.quantity + parseInt q } :: post) ∧
        ((∀ line ∈ cartItems w.carts user.userId, line.productId ≠ p) →
          cart.items = cartItems w.carts user.userId ++
            [{ productId := p, quantity := parseInt q, price := product.price }])) ∧
    (∀ parseInt : Rat → Int, parseInt half = 0 →
      0 < half ∧
      (addItem parseInt calm (emptyStores cartWorld.db) sampleUser (some 1)
        (some half)).2.status = 200 ∧
      (cartItems (cartRun parseInt (emptyStores cartWorld.db)
          [.addItem calm sampleUser (some 1) (some half)]).carts 7).map
        (fun l => (l.productId, l.quantity)) = [(1, 0)] ∧
      ¬ LinesValid (fun l : CartItem => l.productId) (fun l => l.quantity)
        (cartItems (cartRun parseInt (emptyStores cartWorld.db)
          [.addItem calm sampleUser (some 1) (some half)]).carts 7)) := by
  refine ⟨?_, ?_, ?_, ?_, ?_, ?_⟩
  · intro products requests
    exact OrdersMemory.linesValid_run requests _ (by intro d hd; simp [OrdersMemory.initial] at hd)
  · intro parseInt db requests
    exact productIds_cartRun parseInt requests _ (by intro d hd; simp [emptyStores] at hd)
  · intro parseInt db requests hint
    exact linesValid_cartRun parseInt requests _ hint
      (by intro d hd; simp [emptyStores] at hd)
  · intro fetchFails stockFails w user productId quantity cart h
    obtain ⟨p, q, product, stockInfo, hp, hq, hpos, hfp, _, _, hworld, hitems⟩ :=
      OrdersMemory.addItem_added fetchFails stockFails w user productId quantity cart h
    have hadd := lines_after_add (fun l : OrdersMemory.CartItem => l.productId)
      (fun item => { item with quantity := item.quantity + q })
      (OrdersMemory.cartItems w.carts user.id) p
      { productId := p, productName := product.name, price := product.price, quantity := q }
    refine ⟨p, q, product, hp, hq, hpos, hfp, ?_, ?_, ?_⟩
    · rw [hworld]; exact OrdersMemory.getCart_setCart _ _ _
    · intro hex
      obtain ⟨pre, line, post, hl, hlp, hpre, hnew⟩ := hadd.1 hex
      have hci : cart.items = pre ++ { line with quantity := line.quantity + q } :: post := by
        rw [hitems]; exact hnew
      refine ⟨?_, pre, line, post, hl, hlp, hpre, hci⟩
      rw [hci, hl]; simp
    · intro hall
      rw [hitems]; exact hadd.2 hall
  · intro parseInt env w user productId quantity cart h
    obtain ⟨p, q, product, hp, hq, hpos, hfp, _, hworld, hitems⟩ :=
      addItem_added_doc parseInt env w user productId quantity cart h
    have hadd := lines_after_add (fun l : CartItem => l.productId)
      (fun item => { item with quantity := item.quantity + parseInt q })
      (cartItems w.carts user.userId) p
      { productId := p, quantity := parseInt q, price := product.price }
    refine ⟨p, q, product, hp, hq, hpos, hfp, ?_, ?_, ?_⟩
    · rw [hworld]; exact getCart_setCart_doc _ _ _
    · intro hex
      obtain ⟨pre, line, post, hl, hlp, hpre, hnew⟩ := hadd.1 hex
      have hci : cart.items =
          pre ++ { line with quantity := line.quantity + parseInt q } :: post := by
        rw [hitems]; exact hnew
      refine ⟨?_, pre, line, post, hl, hlp, hpre, hci⟩
      rw [hci, hl]; simp
    · intro hall
      rw [hitems]; exact hadd.2 hall
  · intro parseInt hhalf
    have heq := addItem_first parseInt calm (emptyStores cartWorld.db) sampleUser 1 half
      (fetchProduct false cartWorld.db 1).1 (sampleRow 1 25)
      (by decide) (by decide) (by decide) rfl rfl (by decide)
    have hrun : cartRun parseInt (emptyStores cartWorld.db)
        [.addItem calm sampleUser (some 1) (some half)] =
        (addItem parseInt calm (emptyStores cartWorld.db) sampleUser (some 1)
          (some half)).1 := rfl
    have hlines : cartItems (cartRun parseInt (emptyStores cartWorld.db)
        [.addItem calm sampleUser (some 1) (some half)]).carts 7 =
        [{ productId := 1, quantity := 0, price := (sampleRow 1 25).price }] := by
      rw [hrun, heq, hhalf]
      rfl
    refine ⟨by decide, ?_, ?_, ?_⟩
    · rw [heq]; rfl
    · rw [hlines]; rfl
    · rw [hlines]
      intro hv
      exact absurd (hv.2 _ (List.mem_singleton.mpr rfl)) (by decide)

/-- The failing input of C27, with the `parseInt` that truncates: from the empty
stores of the Firestore service, user 7 adds 0.5 units of product 1 (stock 25);
the answer is 200 and the cart holds a line of product 1 with quantity 0. With
integers for quantities, four requests leave the cart of user 7 well formed,
with 5 units of product 1. -/
theorem cart_lines_parsed_quantity_witness :
    truncate half = 0 ∧
    (addItem truncate calm (emptyStores cartWorld.db) sampleUser (some 1)
      (some half)).2.status = 200 ∧
    (cartItems (cartRun truncate (emptyStores cartWorld.db)
        [.addItem calm sampleUser (some 1) (some half)]).carts 7).map
      (fun l => (l.productId, l.quantity)) = [(1, 0)] ∧
    (∀ d ∈ (cartRun truncate (emptyStores cartWorld.db)
        [.addItem calm sampleUser (some 1) (some 2),
         .addItem calm sampleUser (some 2) (some 1),
         .addItem calm sampleUser (some 1) (some 3),
         .updateItem calm sampleUser 2 (some 0)]).carts,
      LinesValid (fun l : CartItem => l.productId) (fun l => l.quantity) d.2.items) ∧
    (cartItems (cartRun truncate (emptyStores cartWorld.db)
        [.addItem calm sampleUser (some 1) (some 2),
         .addItem calm sampleUser (some 2) (some 1),
         .addItem calm sampleUser (some 1) (some 3),
         .updateItem calm sampleUser 2 (some 0)]).carts 7).map
      (fun l => (l.productId, l.quantity)) = [(1, 5)] :=
  ⟨by decide,
   (cart_lines_parsed_quantity.2.2.2.2.2 truncate (by decide)).2.1,
   (cart_lines_parsed_quantity.2.2.2.2.2 truncate (by decide)).2.2.1,
   cart_lines_parsed_quantity.2.2.1 truncate cartWorld.db _
     (by simp [CartRequest.Integral, truncate]),
   by decide⟩

/-- C23, the behaviour of the code: in the in-memory orders service
`PUT /cart/items/:productId` with quantity 0 is answered 400
`Valid quantity is required` and changes nothing, whatever the cart holds: the
test `!quantity` rejects 0 before the branch that removes the line is reached.
In the Firestore service the same request, when the cart document has a line of
the product and Firestore does not fail, removes the first line of the product,
leaves the other lines as they were and in order, stores the cart and answers
200 `Cart updated`. -/
theorem update_zero_quantity :
    (∀ (stockFails : Bool) (w : OrdersMemory.World) (user : OrdersMemory.User)
        (productId : Int),
      OrdersMemory.updateItem stockFails w user productId (some 0) =
        (w, .invalidQuantity)) ∧
    OrdersMemory.CartResponse.invalidQuantity.status = 400 ∧
    OrdersMemory.CartResponse.invalidQuantity.text = "Valid quantity is required" ∧
    (∀ (parseInt : Rat → Int) (env : CartEnv) (w : World) (user : User) (productId : Int)
        (old : Cart),
      env.getFails = false → env.setFails = false →
      getCart w.carts user.userId = some old →
      (∃ line ∈ old.items, line.productId = productId) →
      ∃ pre line post, old.items = pre ++ line :: post ∧ line.productId = productId ∧
        (∀ l ∈ pre, l.productId ≠ productId) ∧
        updateItem parseInt env w user productId (some 0) =
          ({ w with carts := setCart w.carts user.userId { old with items := pre ++ post } },
           .cartUpdated { old with items := pre ++ post }) ∧
        getCart (updateItem parseInt env w user productId (some 0)).1.carts user.userId =
          some { old with items := pre ++ post } ∧
        (updateItem parseInt env w user productId (some 0)).2.status = 200 ∧
        (updateItem parseInt env w user productId (some 0)).2.text = "Cart updated") := by
  refine ⟨?_, rfl, rfl, ?_⟩
  · intro stockFails w user productId
    simp [OrdersMemory.updateItem]
  · intro parseInt env w user productId old hgf hsf hg hex
    cases hi : findIndex old.items productId with
    | none =>
      obtain ⟨line, hl, hp⟩ := hex
      have := findIdx?_none_all _ old.items hi line hl
      simp [hp] at this
    | some i =>
      obtain ⟨pre, line, post, hl, hx, hpre, hlen⟩ := findIdx?_some_split _ _ _ hi
      have heq : updateItem parseInt env w user productId (some 0) =
          ({ w with carts := setCart w.carts user.userId { old with items := pre ++ post } },
           .cartUpdated { old with items := pre ++ post }) := by
        have he : old.items.eraseIdx i = pre ++ post := by
          rw [hl, ← hlen, eraseIdx_split]
        simp [updateItem, hgf, hsf, hg, hi, he]
      refine ⟨pre, line, post, hl, by simpa using hx, ?_, heq, ?_, ?_, ?_⟩
      · intro l hlm; simpa using hpre l hlm
      · rw [heq]; exact getCart_setCart_doc _ _ _
      · rw [heq]; rfl
      · rw [heq]; rfl

/-- The failing input of C23: user 7 holds 20 units of product 1 and 1 unit of
product 2 and sends `PUT /cart/items/2` with quantity 0. The in-memory service
answers 400 and keeps both lines; the Firestore service answers 200 and keeps
the line of product 1 only. -/
theorem update_zero_quantity_witness :
    OrdersMemory.updateItem false OrdersMemory.cartWorld OrdersMemory.sampleUser 2 (some 0) =
      (OrdersMemory.cartWorld, .invalidQuantity) ∧
    (OrdersMemory.cartItems OrdersMemory.cartWorld.carts 7).map
      (fun l => (l.productId, l.quantity)) = [(1, 20), (2, 1)] ∧
    (updateItem truncate calm cartWorld sampleUser 2 (some 0)).2.status = 200 ∧
    (cartItems (updateItem truncate calm cartWorld sampleUser 2 (some 0)).1.carts 7).map
      (fun l => (l.productId, l.quantity)) = [(1, 20)] ∧
    (∃ line ∈ ({ userId := 7,
                 items := [{ productId := 1, quantity := 20, price := 10 },
                           { productId := 2, quantity := 1, price := 10 }] } : Cart).items,
      line.productId = 2) ∧
    (updateItem truncate calm cartWorld sampleUser 2 (some 0)).2.text = "Cart updated" :=
  ⟨update_zero_quantity.1 false OrdersMemory.cartWorld OrdersMemory.sampleUser 2,
   by decide, by decide, by decide,
   ⟨{ productId := 2, quantity := 1, price := 10 }, by decide, rfl⟩,
   (update_zero_quantity.2.2.2 truncate calm cartWorld sampleUser 2
      { userId := 7, items := [{ productId := 1, quantity := 20, price := 10 },
                               { productId := 2, quantity := 1, price := 10 }] }
      rfl rfl rfl ⟨{ productId := 2, quantity := 1, price := 10 }, by decide, rfl⟩).elim
     (fun _ h => h.elim (fun _ h => h.elim (fun _ h => h.2.2.2.2.2.2)))⟩
/-- C28, the behaviour of the code. `POST /cart/items` compares the stock with the
quantity being added, not with the quantity the line ends up with: in both
orders services a user whose cart holds 20 units of a product with stock 25
adds 10 units, the request succeeds and the line carries 30 units. Every
successful `PUT /cart/items/:productId` of the in-memory service leaves the
first line of the product with the quantity `q` of the body, and the stock that
the stock check of this request saw is at least `q`. In the Firestore service
the stock check reads the number `q` of the body and the line gets
`parseInt(q)`: after a successful request with `q > 0` the stock seen is at
least `q` and the first line of the product carries `parseInt(q)`, which is `q`
when `q` is an integer. With `parseInt(2.5) = 2`, the request that sets the line
of product 1 to 2.5 units is answered 200 and leaves 2 units on the line. -/
theorem cart_update_parsed_quantity :
    (∃ (w : OrdersMemory.World) (user : OrdersMemory.User) (p q : Int)
        (cart : OrdersMemory.Cart) (stockInfo : ProductsMemory.StockData)
        (line : OrdersMemory.CartItem),
      OrdersMemory.addItem false false w user (some p) (some q) =
        ({ w with carts := OrdersMemory.setCart w.carts user.id cart }, .itemAdded cart) ∧
      OrdersMemory.checkStock false w.products p = some stockInfo ∧
      q ≤ stockInfo.stockQuantity ∧
      cart.items.filter (fun l => decide (l.productId = p)) = [line] ∧
      stockInfo.stockQuantity < line.quantity) ∧
    (∀ parseInt : Rat → Int, parseInt 10 = 10 →
      ∃ (w : World) (user : User) (p : Int) (q : Rat) (cart : Cart)
        (stock : ProductsService.StockInfo) (line : CartItem),
      (addItem parseInt calm w user (some p) (some q)).2 = .itemAdded cart ∧
      ProductsService.getStock false
        (addItem parseInt calm w user (some p) (some q)).1.db p = some stock ∧
      q ≤ (stock.stockQuantity : Rat) ∧
      cart.items.filter (fun l => decide (l.productId = p)) = [line] ∧
      stock.stockQuantity < line.quantity) ∧
    (∀ (stockFails : Bool) (w : OrdersMemory.World) (user : OrdersMemory.User)
        (productId : Int) (quantity : Option Int) (cart : OrdersMemory.Cart),
      (OrdersMemory.updateItem stockFails w user productId quantity).2 =
        .cartUpdated cart →
      ∃ q stockInfo pre line post, quantity = some q ∧ 0 < q ∧
        OrdersMemory.checkStock stockFails w.products productId = some stockInfo ∧
        q ≤ stockInfo.stockQuantity ∧
        cart.items = pre ++ line :: post ∧ line.productId = productId ∧
        (∀ l ∈ pre, l.productId ≠ productId) ∧ line.quantity = q ∧
        OrdersMemory.getCart
          (OrdersMemory.updateItem stockFails w user productId quantity).1.carts user.id
          = some cart) ∧
    (∀ (parseInt : Rat → Int) (env : CartEnv) (w : World) (user : User) (productId : Int)
        (q : Rat) (cart : Cart),
      0 < q → (updateItem parseInt env w user productId (some q)).2 = .cartUpdated cart →
      ∃ stock pre line post,
        ProductsService.getStock env.stockFails w.db productId = some stock ∧
        q ≤ (stock.stockQuantity : Rat) ∧
        cart.items = pre ++ line :: post ∧ line.productId = productId ∧
        (∀ l ∈ pre, l.productId ≠ productId) ∧ line.quantity = parseInt q ∧
        ((parseInt q : Rat) = q → (line.quantity : Rat) = q) ∧
        getCart (updateItem parseInt env w user productId (some q)).1.carts user.userId
          = some cart) ∧
    (∀ parseInt : Rat → Int, parseInt twoAndHalf = 2 →
      0 < twoAndHalf ∧
      (updateItem parseInt calm cartWorld sampleUser 1 (some twoAndHalf)).2.status = 200 ∧
      (cartItems (updateItem parseInt calm cartWorld sampleUser 1
          (some twoAndHalf)).1.carts 7).map
        (fun l => (l.productId, l.quantity)) = [(1, 2), (2, 1)] ∧
      ((2 : Int) : Rat) ≠ twoAndHalf) := by
  refine ⟨?_, ?_, ?_, ?_, ?_⟩
  · refine ⟨OrdersMemory.cartWorld, OrdersMemory.sampleUser, 1, 10,
      { userId := 7,
        items := [{ productId := 1, productName := "Laptop", price := 100, quantity := 30 },
                  { productId := 2, productName := "Mouse", price := 10, quantity := 1 }],
        totalAmount := OrdersMemory.cartTotal
          [{ productId := 1, productName := "Laptop", price := 100, quantity := 30 },
           { productId := 2, productName := "Mouse", price := 10, quantity := 1 }] },
      { productId := 1, stockQuantity := 25, isInStock := true },
      { productId := 1, productName := "Laptop", price := 100, quantity := 30 },
      rfl, rfl, by decide, rfl, by decide⟩
  · intro parseInt hten
    obtain ⟨cart, heq, hitems⟩ := addItem_eq parseInt calm cartWorld sampleUser 1 10
      (fetchProduct false cartWorld.db 1).1 (sampleRow 1 25)
      (by decide) (by decide) (by decide) rfl rfl
    have hci : cart.items = [{ productId := 1, quantity := 30, price := 10 },
                             { productId := 2, quantity := 1, price := 10 }] := by
      rw [hitems, hten]; rfl
    refine ⟨cartWorld, sampleUser, 1, 10, cart,
      { productId := 1, stockQuantity := 25, inStock := true, lowStock := false },
      { productId := 1, quantity := 30, price := 10 }, ?_, ?_, by decide, ?_, by decide⟩
    · rw [heq]
    · rw [heq]; rfl
    · rw [hci]; rfl
  · intro stockFails w user productId quantity cart h
    obtain ⟨q, old, i, stockInfo, hq, hpos, hg, hi, hcs, hle, hworld, hitems⟩ :=
      OrdersMemory.updateItem_updated stockFails w user productId quantity cart h
    obtain ⟨pre, line, post, hl, hx, hpre, hlen⟩ := findIdx?_some_split _ _ _ hi
    refine ⟨q, stockInfo, pre, { line with quantity := q }, post, hq, hpos, hcs, hle, ?_,
      by simpa using hx, ?_, rfl, ?_⟩
    · rw [hitems, hl, ← hlen, modify_split]
    · intro l hlm; simpa using hpre l hlm
    · rw [hworld]; exact OrdersMemory.getCart_setCart _ _ _
  · intro parseInt env w user productId q cart hpos h
    rcases updateItem_stores parseInt env w user productId (some q) with
      ⟨_, hno⟩ | ⟨old, i, hg, hi, hcase⟩
    · exact absurd h (hno cart)
    · obtain ⟨pre, line, post, hl, hx, hpre, hlen⟩ := findIdx?_some_split _ _ _ hi
      rcases hcase with ⟨hz, _⟩ | ⟨q2, hq2, _, hs, heq⟩
      · simp only [Option.some.injEq] at hz
        rw [hz] at hpos
        exact absurd hpos (lt_irrefl _)
      · have hqq : q2 = q := by simpa using hq2.symm
        subst hqq
        obtain ⟨stock, hst, hle⟩ := checkStockNumber_true _ _ _ _ hs
        rw [heq] at h
        have hc : cart = { old with items := (old.items.modify
            (fun item => { item with quantity := parseInt q2 }) i) } := by
          simpa using h.symm
        refine ⟨stock, pre, { line with quantity := parseInt q2 }, post, hst, hle, ?_,
          by simpa using hx, ?_, rfl, fun hint => hint, ?_⟩
        · rw [hc]; simp only; rw [hl, ← hlen, modify_split]
        · intro l hlm; simpa using hpre l hlm
        · rw [heq, hc]; exact getCart_setCart_doc _ _ _
  · intro parseInt htwo
    have heq := updateItem_eq parseInt calm cartWorld sampleUser 1 twoAndHalf
      { userId := 7, items := [{ productId := 1, quantity := 20, price := 10 },
                               { productId := 2, quantity := 1, price := 10 }] } 0
      (by decide) (by decide) rfl rfl (by decide) (by decide) (by decide)
    refine ⟨by decide, ?_, ?_, by decide⟩
    · rw [heq]; rfl
    · rw [heq, htwo]; rfl

/-- The failing input of C28, with the `parseInt` that truncates: user 7 holds 20
units of product 1, whose stock is 25, and sends `PUT /cart/items/1` with
quantity 2.5 to the Firestore service; the answer is 200 and the line carries 2
units. Adding 10 units succeeds and leaves 30 units on the line; setting the
line to 30 units is refused and setting it to 25 units leaves 25 units, the
stock seen being 25. -/
theorem cart_update_parsed_quantity_witness :
    truncate twoAndHalf = 2 ∧
    (updateItem truncate calm cartWorld sampleUser 1 (some twoAndHalf)).2.status = 200 ∧
    (cartItems (updateItem truncate calm cartWorld sampleUser 1
        (some twoAndHalf)).1.carts 7).map
      (fun l => (l.productId, l.quantity)) = [(1, 2), (2, 1)] ∧
    (cartItems (addItem truncate calm cartWorld sampleUser (some 1) (some 10)).1.carts 7).map
      (fun l => (l.productId, l.quantity)) = [(1, 30), (2, 1)] ∧
    (updateItem truncate calm cartWorld sampleUser 1 (some 30)).2 = .insufficientStock ∧
    (∃ stock pre line post,
      ProductsService.getStock calm.stockFails cartWorld.db 1 = some stock ∧
      (25 : Rat) ≤ (stock.stockQuantity : Rat) ∧
      ({ userId := 7, items := [{ productId := 1, quantity := 25, price := 10 },
                                { productId := 2, quantity := 1, price := 10 }] }
          : Cart).items = pre ++ line :: post ∧
      line.productId = 1 ∧ (∀ l ∈ pre, l.productId ≠ 1) ∧
      line.quantity = truncate 25 ∧
      (((truncate 25 : Int) : Rat) = 25 → (line.quantity : Rat) = 25) ∧
      getCart (updateItem truncate calm cartWorld sampleUser 1 (some 25)).1.carts
        sampleUser.userId
        = some { userId := 7, items := [{ productId := 1, quantity := 25, price := 10 },
                                        { productId := 2, quantity := 1, price := 10 }] }) :=
  ⟨by decide,
   (cart_update_parsed_quantity.2.2.2.2 truncate (by decide)).2.1,
   (cart_update_parsed_quantity.2.2.2.2 truncate (by decide)).2.2.1,
   by decide, by decide,
   cart_update_parsed_quantity.2.2.2.1 truncate calm cartWorld sampleUser 1 25 _
     (by decide) (by decide)⟩

/-! ### The sort of the product list -/

namespace ProductsMemory

/-- Two elements of a list in order of position are related by a relation that
holds pairwise. -/
theorem pairwise_getElem? {α : Type} (R : α → α → Prop) (l : List α) (h : l.Pairwise R)
    (i j : Nat) (x y : α) (hij : i < j) (hx : l[i]? = some x) (hy : l[j]? = some y) :
    R x y := by
  obtain ⟨hi, rfl⟩ := List.getElem?_eq_some.mp hx
  obtain ⟨hj, rfl⟩ := List.getElem?_eq_some.mp hy
  exact List.pairwise_iff_getElem.mp h i j hi hj hij

/-- The binary search returns a position in a sorted list with the elements not
above the pivot before it and the elements not below the pivot from it on,
also when the comparator never answers 0. -/
theorem insertionPoint_spec {α : Type} (cmp : α → α → Int) (le : α → α → Prop)
    (htotal : ∀ a b, le a b ∨ le b a) (htrans : ∀ a b c, le a b → le b c → le a c)
    (hcmp : ∀ a b, cmp a b < 0 ↔ le a b) (pivot : α) (work : List α)
    (hsorted : work.Pairwise le) :
    ∀ (fuel left right : Nat), right - left ≤ fuel → left ≤ right → right ≤ work.length →
      (∀ i x, i < left → work[i]? = some x → le x pivot) →
      (∀ i x, right ≤ i → work[i]? = some x → le pivot x) →
      (∀ i x, i < insertionPoint cmp pivot work fuel left right → work[i]? = some x →
        le x pivot) ∧
      (∀ i x, insertionPoint cmp pivot work fuel left right ≤ i → work[i]? = some x →
        le pivot x) := by
  intro fuel
  induction fuel with
  | zero =>
    intro left right hfuel hlr hlen hlow hhigh
    have : left = right := by omega
    subst this
    exact ⟨hlow, hhigh⟩
  | succ fuel ih =>
    intro left right hfuel hlr hlen hlow hhigh
    unfold insertionPoint
    by_cases hlt : left < right
    · simp only [hlt, if_true]
      have hmid : left + (right - left) / 2 < work.length := by omega
      rw [List.getElem?_eq_getElem hmid]
      simp only
      have hm : work[left + (right - left) / 2]? = some work[left + (right - left) / 2] :=
        List.getElem?_eq_getElem hmid
      by_cases hc : cmp pivot work[left + (right - left) / 2] < 0
      · simp only [hc, if_true]
        apply ih left (left + (right - left) / 2) (by omega) (by omega) (by omega) hlow
        intro i x hi hx
        have hpm := (hcmp _ _).mp hc
        by_cases hieq : i = left + (right - left) / 2
        · subst hieq
          rw [hm] at hx
          have : work[left + (right - left) / 2] = x := by simpa using hx
          rw [← this]; exact hpm
        · exact htrans _ _ _ hpm
            (pairwise_getElem? le work hsorted _ i _ x (by omega) hm hx)
      · simp only [hc, if_false]
        have hmp : le work[left + (right - left) / 2] pivot := by
          rcases htotal pivot work[left + (right - left) / 2] with h | h
          · exact absurd ((hcmp _ _).mpr h) hc
          · exact h
        apply ih (left + (right - left) / 2 + 1) right (by omega) (by omega) hlen _ hhigh
        intro i x hi hx
        by_cases hieq : i = left + (right - left) / 2
        · subst hieq
          rw [hm] at hx
          have : work[left + (right - left) / 2] = x := by simpa using hx
          rw [← this]; exact hmp
        · exact htrans _ _ _
            (pairwise_getElem? le work hsorted i _ x _ (by omega) hx hm) hmp
    · have : left = right := by omega
      subst this
      simp only [hlt, if_false]
      exact ⟨hlow, hhigh⟩

/-- Inserting the pivot at the position of the binary search keeps the list
sorted. -/
theorem insert_sorted {α : Type} (cmp : α → α → Int) (le : α → α → Prop)
    (htotal : ∀ a b, le a b ∨ le b a) (htrans : ∀ a b c, le a b → le b c → le a c)
    (hcmp : ∀ a b, cmp a b < 0 ↔ le a b) (pivot : α) (sorted : List α)
    (hsorted : sorted.Pairwise le) :
    (sorted.take (insertionPoint cmp pivot sorted sorted.length 0 sorted.length) ++
      pivot :: sorted.drop (insertionPoint cmp pivot sorted sorted.length 0 sorted.length)
      ).Pairwise le := by
  obtain ⟨hbefore, hafter⟩ := insertionPoint_spec cmp le htotal htrans hcmp pivot sorted
    hsorted sorted.length 0 sorted.length (by omega) (by omega) (le_refl _)
    (by intro i x hi; omega)
    (by
      intro i x hi hx
      obtain ⟨h, _⟩ := List.getElem?_eq_some.mp hx
      omega)
  generalize insertionPoint cmp pivot sorted sorted.length 0 sorted.length = p at *
  have hta : ∀ a ∈ sorted.take p, le a pivot := by
    intro a ha
    obtain ⟨i, hi⟩ := List.mem_iff_getElem?.mp ha
    rw [List.getElem?_take] at hi
    by_cases hip : i < p
    · simp only [hip, if_true] at hi
      exact hbefore i a hip hi
    · simp [hip] at hi
  have hdr : ∀ b ∈ sorted.drop p, le pivot b := by
    intro b hb
    obtain ⟨j, hj⟩ := List.mem_iff_getElem?.mp hb
    rw [List.getElem?_drop] at hj
    exact hafter (p + j) b (by omega) hj
  rw [List.pairwise_append]
  refine ⟨List.Pairwise.sublist (List.take_sublist _ _) hsorted, ?_, ?_⟩
  · rw [List.pairwise_cons]
    exact ⟨hdr, List.Pairwise.sublist (List.drop_sublist _ _) hsorted⟩
  · intro a ha b hb
    rcases List.mem_cons.mp hb with rfl | hb
    · exact hta a ha
    · exact htrans _ _ _ (hta a ha) (hdr b hb)

/-- The binary insertion sort returns a permutation of its two arguments. -/
theorem binaryInsertionSort_perm {α : Type} (cmp : α → α → Int) (rest : List α) :
    ∀ sorted : List α, (binaryInsertionSort cmp sorted rest).Perm (sorted ++ rest) := by
  induction rest with
  | nil => intro sorted; simp [binaryInsertionSort]
  | cons pivot rest ih =>
    intro sorted
    unfold binaryInsertionSort
    simp only
    refine (ih _).trans ?_
    have h1 : (sorted.take (insertionPoint cmp pivot sorted sorted.length 0 sorted.length) ++
        pivot :: sorted.drop (insertionPoint cmp pivot sorted sorted.length 0 sorted.length)
        ).Perm (sorted ++ [pivot]) := by
      refine List.perm_middle.trans ?_
      rw [List.take_append_drop]
      exact (List.perm_append_singleton pivot sorted).symm
    have h2 := List.Perm.append_right rest h1
    simpa using h2

/-- The binary insertion sort keeps a sorted part sorted. -/
theorem binaryInsertionSort_sorted {α : Type} (cmp : α → α → Int) (le : α → α → Prop)
    (htotal : ∀ a b, le a b ∨ le b a) (htrans : ∀ a b c, le a b → le b c → le a c)
    (hcmp : ∀ a b, cmp a b < 0 ↔ le a b) (rest : List α) :
    ∀ sorted : List α, sorted.Pairwise le →
      (binaryInsertionSort cmp sorted rest).Pairwise le := by
  induction rest with
  | nil => intro sorted h; simpa [binaryInsertionSort] using h
  | cons pivot rest ih =>
    intro sorted h
    unfold binaryInsertionSort
    exact ih _ (insert_sorted cmp le htotal htrans hcmp pivot sorted h)

/-- A descending run is a chain of elements each `order < 0` after the one
before. -/
theorem runLength_chain_desc {α : Type} (cmp : α → α → Int) (rest : List α) :
    ∀ previousElement : α,
      List.Chain (fun prev cur => cmp cur prev < 0)
        previousElement (rest.take (runLength cmp true previousElement rest)) := by
  induction rest with
  | nil => intro p; simp [runLength]
  | cons cur rest ih =>
    intro p
    unfold runLength
    by_cases h : cmp cur p ≥ 0
    · simp [h]
    · simp only [h, if_true, if_false]
      rw [Nat.add_comm, List.take_succ_cons]
      exact List.Chain.cons (by omega) (ih cur)

/-- An ascending run is a chain of elements none `order < 0` after the one
before. -/
theorem runLength_chain_asc {α : Type} (cmp : α → α → Int) (rest : List α) :
    ∀ previousElement : α,
      List.Chain (fun prev cur => ¬ cmp cur prev < 0)
        previousElement (rest.take (runLength cmp false previousElement rest)) := by
  induction rest with
  | nil => intro p; simp [runLength]
  | cons cur rest ih =>
    intro p
    unfold runLength
    by_cases h : cmp cur p < 0
    · simp [h]
    · simp only [h, Bool.false_eq_true, if_false]
      rw [Nat.add_comm, List.take_succ_cons]
      exact List.Chain.cons h (ih cur)

/-- The sort of the engine returns a permutation of the array, whatever the
comparator. -/
theorem arraySort_perm {α : Type} (cmp : α → α → Int) (l : List α) :
    (arraySort cmp l).Perm l := by
  match l with
  | [] => simp [arraySort]
  | [a] => simp [arraySort]
  | a :: b :: rest =>
    unfold arraySort
    simp only
    refine (binaryInsertionSort_perm cmp _ _).trans ?_
    have h : ∀ n, ((if decide (cmp b a < 0) = true then
        ((a :: b :: rest).take n).reverse else (a :: b :: rest).take n) ++
        (a :: b :: rest).drop n).Perm (a :: b :: rest) := by
      intro n
      split_ifs
      · refine (List.Perm.append_right _ (List.reverse_perm _)).trans ?_
        rw [List.take_append_drop]
      · rw [List.take_append_drop]
    exact h _

/-- The sort of the engine orders the array by every total and transitive
relation that the comparator decides by `order < 0`: it does not need an answer
0 for elements that the relation holds both ways. -/
theorem arraySort_sorted {α : Type} (cmp : α → α → Int) (le : α → α → Prop)
    (htotal : ∀ a b, le a b ∨ le b a) (htrans : ∀ a b c, le a b → le b c → le a c)
    (hcmp : ∀ a b, cmp a b < 0 ↔ le a b) (l : List α) :
    (arraySort cmp l).Pairwise le := by
  match l with
  | [] => simp [arraySort]
  | [a] => simp [arraySort]
  | a :: b :: rest =>
    unfold arraySort
    simp only
    apply binaryInsertionSort_sorted cmp le htotal htrans hcmp
    have htake : (a :: b :: rest).take
        (2 + runLength cmp (decide (cmp b a < 0)) b rest) =
        a :: b :: rest.take (runLength cmp (decide (cmp b a < 0)) b rest) := by
      rw [Nat.add_comm]; rfl
    rw [htake]
    haveI : IsTrans α le := ⟨htrans⟩
    haveI : IsTrans α (fun x y => le y x) := ⟨fun x y z h1 h2 => htrans _ _ _ h2 h1⟩
    by_cases hd : cmp b a < 0
    · simp only [hd, decide_True, if_true]
      rw [List.pairwise_reverse]
      have hc2 : List.Chain (fun x y => le y x) a
          (b :: rest.take (runLength cmp true b rest)) := by
        refine List.Chain.cons ((hcmp _ _).mp hd) ?_
        refine List.Chain.imp ?_ (runLength_chain_desc cmp rest b)
        intro x y hxy
        exact (hcmp _ _).mp hxy
      exact List.chain_iff_pairwise.mp hc2
    · simp only [hd, decide_False, Bool.false_eq_true, if_false]
      have hle : ∀ x y, ¬ cmp y x < 0 → le x y := by
        intro x y h
        rcases htotal x y with h1 | h1
        · exact h1
        · exact absurd ((hcmp _ _).mpr h1) h
      have hc2 : List.Chain le a (b :: rest.take (runLength cmp false b rest)) := by
        refine List.Chain.cons (hle _ _ hd) ?_
        refine List.Chain.imp ?_ (runLength_chain_asc cmp rest b)
        intro x y hxy
        exact hle _ _ hxy
      exact List.chain_iff_pairwise.mp hc2

end ProductsMemory
namespace ProductsMemory

theorem unitsLe_total : ∀ x y : List Nat, unitsLe x y = true ∨ unitsLe y x = true := by
  intro x
  induction x with
  | nil => intro y; left; simp [unitsLe]
  | cons a as ih =>
    intro y
    cases y with
    | nil => right; simp [unitsLe]
    | cons b bs =>
      simp only [unitsLe, Bool.or_eq_true, Bool.and_eq_true, decide_eq_true_eq]
      rcases Nat.lt_trichotomy a b with h | h | h
      · left; left; exact h
      · subst h
        rcases ih bs with h2 | h2
        · left; right; exact ⟨rfl, h2⟩
        · right; right; exact ⟨rfl, h2⟩
      · right; left; exact h

theorem unitsLe_trans : ∀ x y z : List Nat, unitsLe x y = true → unitsLe y z = true →
    unitsLe x z = true := by
  intro x
  induction x with
  | nil => intro y z _ _; simp [unitsLe]
  | cons a as ih =>
    intro y z hxy hyz
    cases y with
    | nil => simp [unitsLe] at hxy
    | cons b bs =>
      cases z with
      | nil => simp [unitsLe] at hyz
      | cons c cs =>
        simp only [unitsLe, Bool.or_eq_true, Bool.and_eq_true, decide_eq_true_eq] at hxy hyz ⊢
        rcases hxy with h1 | ⟨h1, h1r⟩
        · rcases hyz with h2 | ⟨h2, _⟩
          · left; omega
          · left; omega
        · rcases hyz with h2 | ⟨h2, h2r⟩
          · left; omega
          · right; exact ⟨by omega, ih bs cs h1r h2r⟩

theorem unitsLe_antisymm : ∀ x y : List Nat, unitsLe x y = true → unitsLe y x = true →
    x = y := by
  intro x
  induction x with
  | nil =>
    intro y _ h
    cases y with
    | nil => rfl
    | cons b bs => simp [unitsLe] at h
  | cons a as ih =>
    intro y hxy hyx
    cases y with
    | nil => simp [unitsLe] at hxy
    | cons b bs =>
      simp only [unitsLe, Bool.or_eq_true, Bool.and_eq_true, decide_eq_true_eq] at hxy hyx
      rcases hxy with h1 | ⟨h1, h1r⟩
      · rcases hyx with h2 | ⟨h2, _⟩ <;> omega
      · rcases hyx with h2 | ⟨_, h2r⟩
        · omega
        · rw [h1, ih bs h1r h2r]

/-- The filters keep products of the array, in the order of the array. -/
theorem filterProducts_sublist (rt : Engine) (products : List Product) (q : ProductsQuery) :
    (filterProducts rt products q).Sublist products := by
  unfold filterProducts
  simp only
  split_ifs <;>
    first
    | exact List.filter_sublist _
    | exact (List.filter_sublist _).trans (List.filter_sublist _)
    | exact (List.filter_sublist _).trans
        ((List.filter_sublist _).trans (List.filter_sublist _))
    | exact (List.filter_sublist _).trans ((List.filter_sublist _).trans
        ((List.filter_sublist _).trans (List.filter_sublist _)))
    | exact (List.filter_sublist _).trans ((List.filter_sublist _).trans
        ((List.filter_sublist _).trans
          ((List.filter_sublist _).trans (List.filter_sublist _))))

/-- The comparator on the key `price`. -/
theorem compareProducts_price (toLowerCase : String → String) (sortOrder : String)
    (a b : Product) :
    compareProducts toLowerCase "price" sortOrder a b < 0 ↔
      (if sortOrder = "desc" then b.price ≤ a.price else a.price ≤ b.price) := by
  have ha : ∀ p : Product, p.prop "price" = .number p.price := by
    intro p; simp [Product.prop]
  unfold compareProducts
  simp only [ha, Value.gt]
  by_cases hd : sortOrder = "desc"
  · simp only [hd, if_true]
    by_cases h : a.price < b.price
    · simp [h]
    · simp only [h, decide_False, Bool.false_eq_true, if_false]
      constructor
      · intro _; exact not_lt.mp h
      · intro _; omega
  · simp only [hd, if_false]
    by_cases h : b.price < a.price
    · simp [h]
    · simp only [h, decide_False, Bool.false_eq_true, if_false]
      constructor
      · intro _; exact not_lt.mp h
      · intro _; omega

/-- The comparator on the key `name`: names in lower case, compared by code
units. -/
theorem compareProducts_name (toLowerCase : String → String) (sortOrder : String)
    (a b : Product) :
    compareProducts toLowerCase "name" sortOrder a b < 0 ↔
      (if sortOrder = "desc" then
        unitsLe (utf16Units (toLowerCase b.name)) (utf16Units (toLowerCase a.name)) = true
      else
        unitsLe (utf16Units (toLowerCase a.name)) (utf16Units (toLowerCase b.name)) = true) := by
  have ha : ∀ p : Product, p.prop "name" = .string p.name := by
    intro p; simp [Product.prop]
  unfold compareProducts
  simp only [ha, Value.gt, Value.lower]
  by_cases hd : sortOrder = "desc"
  · simp only [hd, if_true]
    cases h : unitsLe (utf16Units (toLowerCase b.name)) (utf16Units (toLowerCase a.name)) <;>
      simp
  · simp only [hd, if_false]
    cases h : unitsLe (utf16Units (toLowerCase a.name)) (utf16Units (toLowerCase b.name)) <;>
      simp

end ProductsMemory

/-- C26: in `GET /products` of the in-memory products service, with the sort of
V8 for arrays of fewer than 64 elements (the array has 5 products), the list
before pagination is a permutation of the filtered products. For the key
`name` (also the default) it is in non-decreasing order of the names in lower
case, compared by UTF-16 code units, when `sortOrder` is not `desc`, and in
non-increasing order when it is `desc`; for the key `price` it is in
non-decreasing, respectively non-increasing, order of the prices. Nothing is
assumed on the keys being distinct: the comparator answers -1 both ways for two
products with equal keys and the sort still orders the list. The order on code
units is a linear order. -/
theorem products_sorted (rt : ProductsMemory.Engine)
    (products : List ProductsMemory.Product) (q : ProductsMemory.ProductsQuery)
    (hengine : ∀ (cmp : ProductsMemory.Product → ProductsMemory.Product → Int)
      (l : List ProductsMemory.Product), l.length < 64 →
      rt.sort cmp l = ProductsMemory.arraySort cmp l)
    (hshort : products.length < 64) :
    (ProductsMemory.sortedProducts rt products q).Perm
      (ProductsMemory.filterProducts rt products q) ∧
    ((q.sortBy = none ∨ q.sortBy = some "name") →
      (q.sortOrder ≠ some "desc" →
        (ProductsMemory.sortedProducts rt products q).Pairwise (fun a b =>
          ProductsMemory.unitsLe (ProductsMemory.utf16Units (rt.toLowerCase a.name))
            (ProductsMemory.utf16Units (rt.toLowerCase b.name)) = true)) ∧
      (q.sortOrder = some "desc" →
        (ProductsMemory.sortedProducts rt products q).Pairwise (fun a b =>
          ProductsMemory.unitsLe (ProductsMemory.utf16Units (rt.toLowerCase b.name))
            (ProductsMemory.utf16Units (rt.toLowerCase a.name)) = true))) ∧
    (q.sortBy = some "price" →
      (q.sortOrder ≠ some "desc" →
        (ProductsMemory.sortedProducts rt products q).Pairwise
          (fun a b => a.price ≤ b.price)) ∧
      (q.sortOrder = some "desc" →
        (ProductsMemory.sortedProducts rt products q).Pairwise
          (fun a b => b.price ≤ a.price))) ∧
    ((∀ x y, ProductsMemory.unitsLe x y = true ∨ ProductsMemory.unitsLe y x = true) ∧
     (∀ x y z, ProductsMemory.unitsLe x y = true → ProductsMemory.unitsLe y z = true →
        ProductsMemory.unitsLe x z = true) ∧
     (∀ x y, ProductsMemory.unitsLe x y = true → ProductsMemory.unitsLe y x = true →
        x = y)) := by
  have hlen : (ProductsMemory.filterProducts rt products q).length < 64 :=
    lt_of_le_of_lt (ProductsMemory.filterProducts_sublist rt products q).length_le hshort
  have hs : ∀ cmp, rt.sort cmp (ProductsMemory.filterProducts rt products q) =
      ProductsMemory.arraySort cmp (ProductsMemory.filterProducts rt products q) :=
    fun cmp => hengine cmp _ hlen
  have hdesc : ∀ o : Option String, o = some "desc" → o.getD "asc" = "desc" := by
    intro o h; rw [h]; rfl
  have hasc : ∀ o : Option String, o ≠ some "desc" → ¬ o.getD "asc" = "desc" := by
    intro o h
    cases o with
    | none => decide
    | some s => intro e; apply h; simpa using e
  have hname : (q.sortBy = none ∨ q.sortBy = some "name") → q.sortBy.getD "name" = "name" := by
    rintro (h | h) <;> rw [h] <;> rfl
  refine ⟨?_, ?_, ?_, ProductsMemory.unitsLe_total, ProductsMemory.unitsLe_trans,
    ProductsMemory.unitsLe_antisymm⟩
  · unfold ProductsMemory.sortedProducts
    rw [hs]
    exact ProductsMemory.arraySort_perm _ _
  · intro hby
    constructor
    · intro ho
      unfold ProductsMemory.sortedProducts
      rw [hs, hname hby]
      apply ProductsMemory.arraySort_sorted
      · intro a b; exact ProductsMemory.unitsLe_total _ _
      · intro a b c; exact ProductsMemory.unitsLe_trans _ _ _
      · intro a b
        rw [ProductsMemory.compareProducts_name]
        simp only [hasc _ ho, if_false]
    · intro ho
      unfold ProductsMemory.sortedProducts
      rw [hs, hname hby]
      apply ProductsMemory.arraySort_sorted
      · intro a b; exact ProductsMemory.unitsLe_total _ _
      · intro a b c h1 h2; exact ProductsMemory.unitsLe_trans _ _ _ h2 h1
      · intro a b
        rw [ProductsMemory.compareProducts_name]
        simp only [hdesc _ ho, if_true]
  · intro hby
    have hprice : q.sortBy.getD "name" = "price" := by rw [hby]; rfl
    constructor
    · intro ho
      unfold ProductsMemory.sortedProducts
      rw [hs, hprice]
      apply ProductsMemory.arraySort_sorted
      · intro a b; exact le_total _ _
      · intro a b c; exact le_trans
      · intro a b
        rw [ProductsMemory.compareProducts_price]
        simp only [hasc _ ho, if_false]
    · intro ho
      unfold ProductsMemory.sortedProducts
      rw [hs, hprice]
      apply ProductsMemory.arraySort_sorted
      · intro a b; exact le_total _ _
      · intro a b c h1 h2; exact le_trans h2 h1
      · intro a b
        rw [ProductsMemory.compareProducts_price]
        simp only [hdesc _ ho, if_true]
namespace ProductsMemory

/-- The method `includes` tests for a contiguous part. -/
theorem includes_iff (s term : String) :
    includes s term = true ↔ term.toList <:+: s.toList := by
  unfold includes
  rw [List.any_eq_true, List.infix_iff_prefix_suffix]
  constructor
  · rintro ⟨t, ht, hp⟩
    exact ⟨t, List.isPrefixOf_iff_prefix.mp hp, (List.mem_tails _ _).mp ht⟩
  · rintro ⟨t, hp, ht⟩
    exact ⟨t, (List.mem_tails _ _).mpr ht, List.isPrefixOf_iff_prefix.mpr hp⟩

/-- The filters of `GET /products` as one test on the products of the array. -/
theorem filterProducts_eq (rt : Engine) (products : List Product) (q : ProductsQuery) :
    filterProducts rt products q = products.filter (fun p =>
      p.isActive &&
      ((!truthy q.category ||
          decide (some p.categoryId = rt.parseInt (q.category.getD ""))) &&
       ((!truthy q.minPrice || geNumber p.price (rt.parseFloat (q.minPrice.getD ""))) &&
        ((!truthy q.maxPrice || leNumber p.price (rt.parseFloat (q.maxPrice.getD ""))) &&
         (!truthy q.search ||
            (includes (rt.toLowerCase p.name) (rt.toLowerCase (q.search.getD "")) ||
             includes (rt.toLowerCase p.description)
               (rt.toLowerCase (q.search.getD ""))))))) ) := by
  unfold filterProducts
  cases truthy q.category <;> cases truthy q.minPrice <;> cases truthy q.maxPrice <;>
    cases truthy q.search <;>
    simp [List.filter_filter, Bool.and_assoc, Bool.and_comm, Bool.and_left_comm]

end ProductsMemory
namespace ProductsMemory

/-- The call `slice(startIndex, endIndex)` for a start `a >= 0` and `n >= 0`
elements. -/
theorem slice_nat {α : Type} (l : List α) (a n : Nat) :
    slice l (some (a : Int)) (some ((a : Int) + n)) = (l.drop a).take n := by
  unfold slice
  simp only [Option.getD_some]
  have h1 : ¬ ((a : Int) < 0) := by omega
  have h2 : ¬ ((a : Int) + n < 0) := by omega
  simp only [h1, h2, if_false]
  by_cases ha : a ≤ l.length
  · have hk : (min (a : Int) (l.length : Int)).toNat = a := by omega
    rw [hk]
    have hf : (min ((a : Int) + n) (l.length : Int) - min (a : Int) (l.length : Int)).toNat =
        min n (l.length - a) := by omega
    rw [hf]
    have hlen : (l.drop a).length = l.length - a := List.length_drop _ _
    rw [List.take_eq_take]
    omega
  · have hk : (min (a : Int) (l.length : Int)).toNat = l.length := by omega
    rw [hk]
    have hd1 : l.drop l.length = [] := List.drop_length _
    have hd2 : l.drop a = [] := List.drop_eq_nil_of_le (by omega)
    rw [hd1, hd2]
    simp

/-- The pages of `limit` elements, one after the other, give the list back. -/
theorem pages_concat {α : Type} (limit : Nat) :
    ∀ (n : Nat) (l : List α), l.length ≤ n * limit →
      (List.range n).flatMap (fun i => (l.drop (i * limit)).take limit) = l := by
  intro n
  induction n with
  | zero =>
    intro l h
    have : l = [] := List.length_eq_zero.mp (by omega)
    simp [this]
  | succ n ih =>
    intro l h
    rw [List.range_succ_eq_map, List.flatMap_cons, List.flatMap_map]
    have hrest : (List.range n).flatMap
        ((fun i => (l.drop (i * limit)).take limit) ∘ Nat.succ) = l.drop limit := by
      have := ih (l.drop limit) (by
        rw [List.length_drop]
        have : (n + 1) * limit = n * limit + limit := by ring
        omega)
      rw [← this]
      congr 1
      funext i
      simp only [Function.comp, List.drop_drop]
      congr 2
      rw [Nat.succ_mul]; omega
    simp only [Nat.zero_mul, List.drop_zero]
    have hcomp : ((fun i => (l.drop (i * limit)).take limit) ∘ Nat.succ) =
        (fun a => (l.drop (a.succ * limit)).take limit) := rfl
    rw [← hcomp, hrest, List.take_append_drop]

/-- The value of `Math.ceil(length / limit)` for a positive limit is the least
number of pages of `limit` elements that hold `length` elements. -/
theorem ceilDiv_pos (length limit : Nat) (hlimit : 0 < limit) :
    ∃ n : Nat, ceilDiv length (some (limit : Int)) = some (n : Int) ∧
      length ≤ n * limit ∧ (n = 0 ∨ (n - 1) * limit < length) := by
  have hl : (limit : Int) ≠ 0 := by omega
  have hfd : Int.fdiv (-(length : Int)) (limit : Int) = (-(length : Int)) / (limit : Int) :=
    Int.fdiv_eq_ediv _ (by omega)
  have h1 := Int.ediv_mul_le (-(length : Int)) hl
  have h2 := Int.lt_ediv_add_one_mul_self (-(length : Int)) (by omega : (0 : Int) < limit)
  have hneg : (-(length : Int)) / (limit : Int) ≤ 0 := by
    by_contra hc
    have hpos : 1 ≤ (-(length : Int)) / (limit : Int) := by omega
    have : (1 : Int) * limit ≤ (-(length : Int)) / (limit : Int) * limit :=
      Int.mul_le_mul_of_nonneg_right hpos (by omega)
    omega
  obtain ⟨n, hn⟩ := Int.eq_ofNat_of_zero_le (by omega : 0 ≤ -((-(length : Int)) / limit))
  refine ⟨n, ?_, ?_, ?_⟩
  · unfold ceilDiv
    simp only [hl, if_false, hfd, hn]
  · have : ((n : Int)) * limit = -((-(length : Int)) / limit * limit) := by
      rw [← hn]; ring
    have h3 : (length : Int) ≤ (n : Int) * limit := by omega
    exact_mod_cast h3
  · by_cases h0 : n = 0
    · exact Or.inl h0
    · right
      have hn1 : ((n - 1 : Nat) : Int) = (n : Int) - 1 := by omega
      have : ((n : Int) - 1) * limit = -(((-(length : Int)) / limit + 1) * limit) := by
        rw [← hn]; ring
      have h3 : ((n - 1 : Nat) : Int) * limit < (length : Int) := by
        rw [hn1]; omega
      exact_mod_cast h3

end ProductsMemory
namespace ProductsMemory

/-- The answer of `GET /products` for page `page >= 1` and limit `limit >= 1`,
given as natural numbers. -/
theorem listProducts_page (rt : Engine) (categories : List Category) (products : List Product)
    (q : ProductsQuery) (page limit : Nat) (hpage : pageNum rt q = some (page : Int))
    (hlimit : limitNum rt q = some (limit : Int)) (hp : 1 ≤ page) :
    (listProducts rt categories products q).data.map (fun d => d.product) =
      ((sortedProducts rt products q).drop ((page - 1) * limit)).take limit ∧
    (∀ d ∈ (listProducts rt categories products q).data,
      d.categoryName = categoryName categories d.product) ∧
    (listProducts rt categories products q).pagination =
      { currentPage := some (page : Int),
        totalPages := ceilDiv (sortedProducts rt products q).length (some (limit : Int)),
        totalItems := (sortedProducts rt products q).length,
        itemsPerPage := some (limit : Int),
        hasNextPage := decide (page * limit < (sortedProducts rt products q).length),
        hasPrevPage := decide (1 < page) } := by
  have hstart : ((page : Int) - 1) * (limit : Int) = (((page - 1) * limit : Nat) : Int) := by
    have : ((page - 1 : Nat) : Int) = (page : Int) - 1 := by omega
    rw [Nat.cast_mul, this]
  have hend : ((page : Int) - 1) * (limit : Int) + (limit : Int) = ((page * limit : Nat) : Int) := by
    rw [Nat.cast_mul]; ring
  unfold listProducts
  simp only [hpage, hlimit, Option.bind_some, Option.map_some', Option.some_bind]
  refine ⟨?_, ?_, ?_⟩
  · rw [List.map_map]
    have hid : ((fun d : ListedProduct => d.product) ∘ fun product =>
        ({ product := product, categoryName := categoryName categories product }
          : ListedProduct)) = id := rfl
    rw [hid, List.map_id, hstart, slice_nat]
  · intro d hd
    simp only [List.mem_map] at hd
    obtain ⟨p, _, rfl⟩ := hd
    rfl
  · have h1 : (((page : Int) - 1) * (limit : Int) + (limit : Int) <
        ((sortedProducts rt products q).length : Int)) ↔
        page * limit < (sortedProducts rt products q).length := by
      rw [hend]; exact Nat.cast_lt
    have h2 : ((page : Int) > 1) ↔ 1 < page := by omega
    simp only [h1, h2]

end ProductsMemory

/-- C24: `GET /products` of the in-memory products service for a page number
`page >= 1` and a limit `limit >= 1` (the values of `parseInt`, or the defaults
1 and 10), under the one property that ECMAScript gives the sort, that it
permutes the array. The data are the elements `(page-1)*limit` up to
`page*limit` of the filtered and sorted list, each with its category name, so
at most `limit` products; `totalItems` is the length of the filtered list;
`totalPages` is the least `n` with `totalItems <= n * limit`, which is
`ceil(totalItems / limit)`; `hasNextPage` says `page*limit < totalItems`;
`hasPrevPage` says `page > 1`; and the data of the requests for the pages 1 to
`totalPages`, the other parameters being those of the request, one after the
other are the filtered and sorted list. -/
theorem products_paginated (rt : ProductsMemory.Engine)
    (categories : List ProductsMemory.Category) (products : List ProductsMemory.Product)
    (q : ProductsMemory.ProductsQuery) (page limit : Int)
    (hsort : rt.SortPermutes)
    (hpage : ProductsMemory.pageNum rt q = some page)
    (hlimit : ProductsMemory.limitNum rt q = some limit)
    (hp : 1 ≤ page) (hl : 1 ≤ limit) :
    (ProductsMemory.listProducts rt categories products q).data.map (fun d => d.product) =
      ((ProductsMemory.sortedProducts rt products q).drop ((page - 1) * limit).toNat).take
        limit.toNat ∧
    ((ProductsMemory.listProducts rt categories products q).data.length : Int) ≤ limit ∧
    (∀ d ∈ (ProductsMemory.listProducts rt categories products q).data,
      d.categoryName = ProductsMemory.categoryName categories d.product) ∧
    (ProductsMemory.listProducts rt categories products q).pagination.totalItems =
      (ProductsMemory.filterProducts rt products q).length ∧
    (∃ n : Int,
      (ProductsMemory.listProducts rt categories products q).pagination.totalPages = some n ∧
      ((ProductsMemory.listProducts rt categories products q).pagination.totalItems : Int)
        ≤ n * limit ∧
      (n - 1) * limit <
        ((ProductsMemory.listProducts rt categories products q).pagination.totalItems : Int)) ∧
    ((ProductsMemory.listProducts rt categories products q).pagination.hasNextPage = true ↔
      page * limit <
        ((ProductsMemory.listProducts rt categories products q).pagination.totalItems : Int)) ∧
    ((ProductsMemory.listProducts rt categories products q).pagination.hasPrevPage = true ↔
      1 < page) ∧
    (ProductsMemory.listProducts rt categories products q).pagination.currentPage =
      some page ∧
    (ProductsMemory.listProducts rt categories products q).pagination.itemsPerPage =
      some limit ∧
    (∀ (s : Nat → String) (n : Int),
      (∀ i : Nat, rt.parseInt (s i) = some ((i : Int) + 1)) →
      (ProductsMemory.listProducts rt categories products q).pagination.totalPages = some n →
      (List.range n.toNat).flatMap (fun i =>
        (ProductsMemory.listProducts rt categories products
          { q with page := some (s i) }).data.map (fun d => d.product)) =
        ProductsMemory.sortedProducts rt products q) := by
  obtain ⟨P, rfl⟩ := Int.eq_ofNat_of_zero_le (by omega : 0 ≤ page)
  obtain ⟨L, rfl⟩ := Int.eq_ofNat_of_zero_le (by omega : 0 ≤ limit)
  have hP : 1 ≤ P := by omega
  have hL : 0 < L := by omega
  obtain ⟨hdata, hcat, hpag⟩ :=
    ProductsMemory.listProducts_page rt categories products q P L hpage hlimit hP
  have hlen : (ProductsMemory.sortedProducts rt products q).length =
      (ProductsMemory.filterProducts rt products q).length := (hsort _ _).length_eq
  obtain ⟨n, hn, hnle, hnlt⟩ := ProductsMemory.ceilDiv_pos
    (ProductsMemory.sortedProducts rt products q).length L hL
  have hstartNat : (((P : Int) - 1) * (L : Int)).toNat = (P - 1) * L := by
    have : ((P : Int) - 1) * (L : Int) = (((P - 1) * L : Nat) : Int) := by
      have : ((P - 1 : Nat) : Int) = (P : Int) - 1 := by omega
      rw [Nat.cast_mul, this]
    rw [this]; rfl
  have hti : (ProductsMemory.listProducts rt categories products q).pagination.totalItems =
      (ProductsMemory.sortedProducts rt products q).length := by rw [hpag]
  have htp : (ProductsMemory.listProducts rt categories products q).pagination.totalPages =
      some (n : Int) := by rw [hpag]; exact hn
  refine ⟨?_, ?_, hcat, by rw [hti, hlen], ?_, ?_, ?_, by rw [hpag], by rw [hpag], ?_⟩
  · rw [hdata, hstartNat]; rfl
  · have h1 : (ProductsMemory.listProducts rt categories products q).data.length =
        ((ProductsMemory.listProducts rt categories products q).data.map
          (fun d => d.product)).length := by simp
    rw [h1, hdata, List.length_take]
    have : min L ((ProductsMemory.sortedProducts rt products q).drop ((P - 1) * L)).length ≤ L :=
      Nat.min_le_left _ _
    exact_mod_cast this
  · refine ⟨(n : Int), htp, ?_, ?_⟩
    · rw [hti]; exact_mod_cast hnle
    · rw [hti]
      rcases hnlt with h0 | hlt
      · subst h0
        have : (0 : Int) < (L : Int) := by omega
        push_cast
        omega
      · have h1n : 1 ≤ n := by
          by_contra hc
          have hn0 : n = 0 := by omega
          rw [hn0, Nat.zero_mul] at hnle
          rw [hn0, Nat.zero_sub, Nat.zero_mul] at hlt
          omega
        have hn1 : ((n - 1 : Nat) : Int) = (n : Int) - 1 := by omega
        rw [← hn1]
        exact_mod_cast hlt
  · rw [hpag]
    simp only [decide_eq_true_eq]
    constructor
    · intro h; exact_mod_cast h
    · intro h; exact_mod_cast h
  · rw [hpag]
    simp only [decide_eq_true_eq]
    constructor
    · intro h; exact_mod_cast h
    · intro h; exact_mod_cast h
  · intro s m hs hm
    rw [htp] at hm
    have hmn : m = (n : Int) := by simpa using hm.symm
    subst hmn
    have hpagei : ∀ i : Nat,
        (ProductsMemory.listProducts rt categories products
          { q with page := some (s i) }).data.map (fun d => d.product) =
        ((ProductsMemory.sortedProducts rt products q).drop (i * L)).take L := by
      intro i
      have hpi : ProductsMemory.pageNum rt { q with page := some (s i) } =
          some ((i + 1 : Nat) : Int) := by
        simp only [ProductsMemory.pageNum, hs i]; push_cast; rfl
      have hli : ProductsMemory.limitNum rt { q with page := some (s i) } =
          some (L : Int) := hlimit
      have := (ProductsMemory.listProducts_page rt categories products
        { q with page := some (s i) } (i + 1) L hpi hli (by omega)).1
      rw [this]
      rfl
    simp only [hpagei, Int.toNat_ofNat]
    exact ProductsMemory.pages_concat L n _ hnle

/-- Witness of C24: the five products of the source, sorted by name, in pages of
two: page 2 holds the products 1 and 3, there are 3 pages, page 2 has a next
and a previous page, and the three pages together are the sorted list. -/
theorem products_paginated_witness :
    (ProductsMemory.listProducts ProductsMemory.sampleEngine ProductsMemory.categories
        ProductsMemory.products { page := some "2", limit := some "2" }).data.map
      (fun d => (d.product.id, d.categoryName)) = [(1, "Electronics"), (3, "Clothing")] ∧
    (ProductsMemory.listProducts ProductsMemory.sampleEngine ProductsMemory.categories
        ProductsMemory.products { page := some "2", limit := some "2" }).pagination.totalPages
      = some 3 ∧
    (ProductsMemory.sortedProducts ProductsMemory.sampleEngine ProductsMemory.products
        { page := some "2", limit := some "2" }).map (fun p => p.id) = [5, 4, 1, 3, 2] ∧
    ((ProductsMemory.listProducts ProductsMemory.sampleEngine ProductsMemory.categories
        ProductsMemory.products
        { page := some "2", limit := some "2" }).pagination.hasNextPage = true ↔
      (2 : Int) * 2 <
        ((ProductsMemory.listProducts ProductsMemory.sampleEngine ProductsMemory.categories
          ProductsMemory.products
          { page := some "2", limit := some "2" }).pagination.totalItems : Int)) :=
  ⟨by decide, by decide, by decide,
   (products_paginated ProductsMemory.sampleEngine ProductsMemory.categories
      ProductsMemory.products { page := some "2", limit := some "2" } 2 2
      (fun cmp l => ProductsMemory.arraySort_perm cmp l) (by decide) (by decide)
      (by decide) (by decide)).2.2.2.2.2.1⟩
/-- C25: the filtered list of `GET /products` of the in-memory products service. A
filter is given when its parameter is present and not empty. The filtered list
is the array `products` restricted, in the order of the array, to the products
that are active and pass every filter that is given: `categoryId` equals
`parseInt(category)`, the price is at least `parseFloat(minPrice)`, the price
is at most `parseFloat(maxPrice)`, and the name or the description in lower
case contains the search term in lower case; a filter that is not given
excludes nothing. `totalItems` is the number of these products (the sort
permuting the array, as ECMAScript requires). -/
theorem products_filtered (rt : ProductsMemory.Engine)
    (categories : List ProductsMemory.Category) (products : List ProductsMemory.Product)
    (q : ProductsMemory.ProductsQuery) (hsort : rt.SortPermutes) :
    (∀ p, p ∈ ProductsMemory.filterProducts rt products q ↔
      p ∈ products ∧ p.isActive = true ∧
      (truthy q.category = true → some p.categoryId = rt.parseInt (q.category.getD "")) ∧
      (truthy q.minPrice = true →
        ProductsMemory.geNumber p.price (rt.parseFloat (q.minPrice.getD "")) = true) ∧
      (truthy q.maxPrice = true →
        ProductsMemory.leNumber p.price (rt.parseFloat (q.maxPrice.getD "")) = true) ∧
      (truthy q.search = true →
        (rt.toLowerCase (q.search.getD "")).toList <:+: (rt.toLowerCase p.name).toList ∨
        (rt.toLowerCase (q.search.getD "")).toList <:+:
          (rt.toLowerCase p.description).toList)) ∧
    (ProductsMemory.filterProducts rt products q).Sublist products ∧
    (ProductsMemory.listProducts rt categories products q).pagination.totalItems =
      (ProductsMemory.filterProducts rt products q).length ∧
    (ProductsMemory.listProducts rt categories products q).pagination.totalItems =
      products.countP (fun p =>
        p.isActive &&
        ((!truthy q.category ||
            decide (some p.categoryId = rt.parseInt (q.category.getD ""))) &&
         ((!truthy q.minPrice ||
            ProductsMemory.geNumber p.price (rt.parseFloat (q.minPrice.getD ""))) &&
          ((!truthy q.maxPrice ||
              ProductsMemory.leNumber p.price (rt.parseFloat (q.maxPrice.getD ""))) &&
           (!truthy q.search ||
              (ProductsMemory.includes (rt.toLowerCase p.name)
                  (rt.toLowerCase (q.search.getD "")) ||
               ProductsMemory.includes (rt.toLowerCase p.description)
                 (rt.toLowerCase (q.search.getD "")))))))) ∧
    (∀ (price min : Rat), ProductsMemory.geNumber price (.finite min) = true ↔ min ≤ price) ∧
    (∀ (price max : Rat), ProductsMemory.leNumber price (.finite max) = true ↔ price ≤ max) ∧
    (truthy q.category = false → truthy q.minPrice = false → truthy q.maxPrice = false →
      truthy q.search = false →
      ProductsMemory.filterProducts rt products q = products.filter (fun p => p.isActive)) := by
  have hti : (ProductsMemory.listProducts rt categories products q).pagination.totalItems =
      (ProductsMemory.filterProducts rt products q).length := (hsort _ _).length_eq
  refine ⟨?_, ProductsMemory.filterProducts_sublist rt products q, hti, ?_, ?_, ?_, ?_⟩
  · intro p
    rw [ProductsMemory.filterProducts_eq, List.mem_filter]
    simp only [Bool.and_eq_true, Bool.or_eq_true, Bool.not_eq_true', decide_eq_true_eq,
      ProductsMemory.includes_iff]
    constructor
    · rintro ⟨hp, ha, hc, hmin, hmax, hs⟩
      refine ⟨hp, ha, ?_, ?_, ?_, ?_⟩
      · intro h; rcases hc with hc | hc
        · rw [h] at hc; cases hc
        · exact hc
      · intro h; rcases hmin with hc | hc
        · rw [h] at hc; cases hc
        · exact hc
      · intro h; rcases hmax with hc | hc
        · rw [h] at hc; cases hc
        · exact hc
      · intro h; rcases hs with hc | hc
        · rw [h] at hc; cases hc
        · exact hc
    · rintro ⟨hp, ha, hc, hmin, hmax, hs⟩
      refine ⟨hp, ha, ?_, ?_, ?_, ?_⟩
      · cases h : truthy q.category
        · exact Or.inl rfl
        · exact Or.inr (hc h)
      · cases h : truthy q.minPrice
        · exact Or.inl rfl
        · exact Or.inr (hmin h)
      · cases h : truthy q.maxPrice
        · exact Or.inl rfl
        · exact Or.inr (hmax h)
      · cases h : truthy q.search
        · exact Or.inl rfl
        · exact Or.inr (hs h)
  · rw [hti, ProductsMemory.filterProducts_eq, List.countP_eq_length_filter]
  · intro price min; simp [ProductsMemory.geNumber]
  · intro price max; simp [ProductsMemory.leNumber]
  · intro h1 h2 h3 h4
    rw [ProductsMemory.filterProducts_eq]
    simp [h1, h2, h3, h4]

/-- Witness of C25: of five products, one inactive, the request for a price of at
least 10 and the search term `APP` finds the two active products named `Apple`
and `apple`; the product `APPLE` costs 5 and the product `pear` does not match. -/
theorem products_filtered_witness :
    (ProductsMemory.filterProducts ProductsMemory.sampleEngine ProductsMemory.tiedProducts
        { minPrice := some "10", search := some "APP" }).map (fun p => p.id) = [2, 3] ∧
    (ProductsMemory.listProducts ProductsMemory.sampleEngine ProductsMemory.categories
        ProductsMemory.tiedProducts
        { minPrice := some "10", search := some "APP" }).pagination.totalItems =
      (ProductsMemory.filterProducts ProductsMemory.sampleEngine ProductsMemory.tiedProducts
        { minPrice := some "10", search := some "APP" }).length ∧
    (ProductsMemory.filterProducts ProductsMemory.sampleEngine ProductsMemory.tiedProducts
        { category := some "" }).map (fun p => p.id) = [1, 2, 3, 5] :=
  ⟨by decide,
   (products_filtered ProductsMemory.sampleEngine ProductsMemory.categories
      ProductsMemory.tiedProducts { minPrice := some "10", search := some "APP" }
      (fun cmp l => ProductsMemory.arraySort_perm cmp l)).2.2.1,
   by decide⟩

/-- Witness of C26: products 1 and 3 cost 20, product 2 costs 10 and product 5
costs 5; the names of the products 2, 3 and 5 differ only in case. Sorted by
price downwards the list is 3, 1, 2, 5 and by name upwards 5, 3, 2, 1: products
with equal keys stand next to each other and the list is in order. -/
theorem products_sorted_witness :
    (ProductsMemory.sortedProducts ProductsMemory.sampleEngine ProductsMemory.tiedProducts
        { sortBy := some "price", sortOrder := some "desc" }).map (fun p => p.id)
      = [3, 1, 2, 5] ∧
    (ProductsMemory.sortedProducts ProductsMemory.sampleEngine ProductsMemory.tiedProducts
        { }).map (fun p => p.id) = [5, 3, 2, 1] ∧
    (ProductsMemory.sortedProducts ProductsMemory.sampleEngine ProductsMemory.tiedProducts
        { sortBy := some "price", sortOrder := some "desc" }).Pairwise
      (fun a b => b.price ≤ a.price) ∧
    (ProductsMemory.sortedProducts ProductsMemory.sampleEngine ProductsMemory.tiedProducts
        { }).Pairwise (fun a b =>
          ProductsMemory.unitsLe
            (ProductsMemory.utf16Units (ProductsMemory.sampleEngine.toLowerCase a.name))
            (ProductsMemory.utf16Units (ProductsMemory.sampleEngine.toLowerCase b.name))
            = true) :=
  ⟨by decide, by decide,
   ((products_sorted ProductsMemory.sampleEngine ProductsMemory.tiedProducts
      { sortBy := some "price", sortOrder := some "desc" } (fun _ _ _ => rfl)
      (by decide)).2.2.1 rfl).2 rfl,
   ((products_sorted ProductsMemory.sampleEngine ProductsMemory.tiedProducts
      { } (fun _ _ _ => rfl) (by decide)).2.1 (Or.inl rfl)).1 (by decide)⟩

end Ecommerce
